import Mathlib

/-
Shallow embedding of `CVRP_algoritmos_Murilo.py`: an episodic tabular
reinforcement-learning engine for the Capacitated Vehicle Routing Problem.
Python floats are modelled as `Flt` (rationals extended with the two
infinite sentinels the program uses); the floating-point square root used
for Euclidean legs is abstracted as a parameter `raiz : ℚ → ℚ`, since no
property below depends on its values.  Fallible operations (division by
zero, `max`/`min` of an empty list, a probability vector that sums to
zero) are modelled with `RunRes`.  Randomness (the `uniform(0,1)` draw,
the numpy categorical draw and the coin of the double-estimator variants)
is passed in explicitly as a stream of `Rnd` records.
-/

set_option maxRecDepth 4000

/-- Python float values occurring in the program: rationals plus the
`float('-inf')` / `float('inf')` sentinels. -/
inductive Flt where
  | ninf : Flt
  | fin  : ℚ → Flt
  | inf  : Flt
deriving DecidableEq, Repr

/-- Python `<=` on the float values used by the program. -/
def Flt.le : Flt → Flt → Bool
  | .ninf, _ => true
  | _, .inf => true
  | .fin p, .fin q => p ≤ q
  | .inf, .fin _ => false
  | .inf, .ninf => false
  | .fin _, .ninf => false

/-- Binary maximum with Python `max` tie behaviour (ties give the same value). -/
def Flt.maxF (a b : Flt) : Flt := if Flt.le a b then b else a

/-- `max` of a list (the program only applies it to nonempty lists). -/
def maxLista : List Flt → Flt
  | [] => .ninf
  | a :: t => t.foldl Flt.maxF a

/-- `min` of a list of rationals (the program only applies it to nonempty lists). -/
def minLista : List ℚ → ℚ
  | [] => 0
  | a :: t => t.foldl min a

/-- Python `list.index`: index of the first occurrence of `x` (the program
never calls it with an absent element; we return the length there). -/
def indiceDe {α : Type} [DecidableEq α] (x : α) : List α → Nat
  | [] => 0
  | a :: t => if a = x then 0 else indiceDe x t + 1

/-- Adding a finite float (all route costs are finite) to a possibly
infinite accumulator, as Python `+` behaves on these values. -/
def Flt.addQ : Flt → ℚ → Flt
  | .ninf, _ => .ninf
  | .fin p, q => .fin (p + q)
  | .inf, _ => .inf

/-- Outcome of running (a piece of) the program: a value, a raised Python
exception, or an episode loop that is still running when the fuel ends. -/
inductive RunRes (α : Type) where
  | ok : α → RunRes α
  | falha : RunRes α
  | esgotado : RunRes α
deriving DecidableEq, Repr

/-- One node of the environment (`ambiente["Estados"][i]`). -/
structure EstadoAmb where
  coordX : ℚ
  coordY : ℚ
  demanda : ℚ
deriving DecidableEq, Repr

/-- The environment dictionary built by the (out-of-scope) loader. -/
structure Ambiente where
  estados : List EstadoAmb
  capacidade : ℚ
  veiculos : Nat
deriving DecidableEq, Repr

/-- Demand of node `i` (`ambiente["Estados"][i]["Demanda"]`). -/
def demandaDe (amb : Ambiente) (i : Nat) : ℚ :=
  (amb.estados.getD i ⟨0, 0, 0⟩).demanda

/-- One route dictionary: accumulated demand, accumulated cost, node sequence. -/
structure Rota where
  demanda : ℚ
  custo : ℚ
  consumidores : List Nat
deriving DecidableEq, Repr

/-- A value table / visit-count table / eligibility table. -/
abbrev Mat := List (List ℚ)

/-- Read entry `m[i][j]`. -/
def mget (m : Mat) (i j : Nat) : ℚ := (m.getD i []).getD j 0

/-- Write entry `m[i][j] = x`. -/
def mset (m : Mat) (i j : Nat) (x : ℚ) : Mat := m.set i ((m.getD i []).set j x)

/-- The per-step randomness consumed by the program: the `uniform(0,1)`
draw of `Politica`, the index drawn by `numpy.random.choice` (reduced
modulo the number of legal actions), and the coin `choice(["1","2"])`
of the double-estimator variants (`true` means `"1"`). -/
structure Rnd where
  u : ℚ
  pick : Nat
  moeda : Bool

/-- `Recompensa(distancia, demanda, capacidadeVeiculo)`: reward of the chosen
action; Python raises `ZeroDivisionError` when the denominator is zero. -/
def Recompensa (distancia demanda capacidadeVeiculo : ℚ) : RunRes ℚ :=
  if capacidadeVeiculo - demanda = 0 then .falha
  else .ok (-distancia / (capacidadeVeiculo - demanda))

/-- The legality test of `ValidaAcoes` for index `i`: the node was already
visited, or (in dynamic-fleet mode) accepting it would push the route's
accumulated demand over the vehicle capacity. -/
abbrev AcaoInvalida (listEstadosVisitados : List Bool) (demandaRotaAcumulada : ℚ)
    (ambiente : Ambiente) (veiculosDinamicos : Bool) (i : Nat) : Prop :=
  listEstadosVisitados.getD i false = true ∨
    (demandaRotaAcumulada + demandaDe ambiente i > ambiente.capacidade ∧
     veiculosDinamicos = true)

/-- The loop of `ValidaAcoes`, pairing each produced value with its
legality flag (`i` is the running index of the Python `for`). -/
def ValidaAcoesVai (listEstadosVisitados : List Bool) (demandaRotaAcumulada : ℚ)
    (ambiente : Ambiente) (veiculosDinamicos : Bool) :
    Nat → List ℚ → List (Flt × Nat)
  | _, [] => []
  | i, a :: resto =>
    (if AcaoInvalida listEstadosVisitados demandaRotaAcumulada ambiente
        veiculosDinamicos i
     then ((Flt.ninf : Flt), (0 : Nat))
     else ((Flt.fin a : Flt), (1 : Nat))) ::
    ValidaAcoesVai listEstadosVisitados demandaRotaAcumulada ambiente
      veiculosDinamicos (i + 1) resto

/-- `ValidaAcoes`: masks the raw value vector of the current state, returning
the masked values (`-inf` for illegal actions) and the 0/1 legality vector. -/
def ValidaAcoes (acoesPossiveis : List ℚ) (listEstadosVisitados : List Bool)
    (demandaRotaAcumulada : ℚ) (ambiente : Ambiente) (veiculosDinamicos : Bool) :
    List Flt × List Nat :=
  (ValidaAcoesVai listEstadosVisitados demandaRotaAcumulada ambiente
    veiculosDinamicos 0 acoesPossiveis).unzip

/-- The positions carrying nonzero probability in the resolved probability
vector of `Politica`'s exploration branch (`i` is the running index). -/
def PosicoesLegais : Nat → List Nat → List Nat
  | _, [] => []
  | i, p :: resto =>
    if p ≠ 0 then i :: PosicoesLegais (i + 1) resto
    else PosicoesLegais (i + 1) resto

/-- `Politica(epsilon, acoes, permissao)`: epsilon-greedy action selection.
When `u > epsilon` the numpy draw picks a value of `acoes` with probability
`permissao[i]/sum(permissao)` (i.e. a legal position chosen uniformly, here
`pick` modulo the number of legal positions) and the returned index is the
first position of `acoes` holding the drawn value; Python raises
`ZeroDivisionError` when `sum(permissao) = 0`.  When `u ≤ epsilon` the
action with the maximal value is returned (`list.index` of the max, hence
the first position attaining it); `max` on an empty list raises. -/
def Politica (epsilon : ℚ) (acoes : List Flt) (permissao : List Nat)
    (u : ℚ) (pick : Nat) : RunRes Nat :=
  if u > epsilon then
    if permissao.sum = 0 then .falha
    else
      let legais := PosicoesLegais 0 permissao
      let escolhido := legais.getD (pick % legais.length) 0
      .ok (indiceDe (acoes.getD escolhido .ninf) acoes)
  else
    if acoes.isEmpty then .falha
    else .ok (indiceDe (maxLista acoes) acoes)

/-- `MaxQ(acoes)`: index of the first occurrence of the maximal value. -/
def MaxQ (acoes : List Flt) : Nat := indiceDe (maxLista acoes) acoes

/-- `TaxaAprendizagem(visitas) = 1/(1+visitas)`. -/
def TaxaAprendizagem (visitas : ℚ) : ℚ := 1 / (1 + visitas)

/-- `CriaMatriz(quantidadeEstados)`: the zero square table. -/
def CriaMatriz (quantidadeEstados : Nat) : Mat :=
  List.replicate quantidadeEstados (List.replicate quantidadeEstados 0)

/-- `EscolheRota(rotas)`: index of the route of minimal accumulated demand
(first index on ties); Python `min` raises on an empty list. -/
def EscolheRota (rotas : List Rota) : RunRes Nat :=
  if rotas.isEmpty then .falha
  else
    let veiculos := rotas.map (·.demanda)
    .ok (indiceDe (minLista veiculos) veiculos)

/-- `CriaRotas(quantidadeVeiculos)`: the fixed fleet's initial routes. -/
def CriaRotas (quantidadeVeiculos : Nat) : List Rota :=
  List.replicate quantidadeVeiculos ⟨0, 0, [0]⟩

/-- `AtualizaRota(rotaAtual, estado, acao, ambiente)`: Euclidean leg length
(`raiz` standing for the float square root), updated cost, demand and node
sequence; returns the updated route and the leg length. -/
def AtualizaRota (raiz : ℚ → ℚ) (rotaAtual : Rota) (estado acao : Nat)
    (ambiente : Ambiente) : Rota × ℚ :=
  let e := ambiente.estados.getD estado ⟨0, 0, 0⟩
  let a := ambiente.estados.getD acao ⟨0, 0, 0⟩
  let distancia := raiz ((e.coordX - a.coordX) ^ 2 + (e.coordY - a.coordY) ^ 2)
  ({ demanda := rotaAtual.demanda + a.demanda,
     custo := rotaAtual.custo + distancia,
     consumidores := rotaAtual.consumidores ++ [acao] }, distancia)

/-- A fresh route, `{"Demanda": 0, "Custo": 0, "Consumidores": [0]}`. -/
def rotaNova : Rota := ⟨0, 0, [0]⟩

/-- The consecutive pairs `(consumidores[j-1], consumidores[j])` in the order
the backward eligibility walk `for j in range(len - 1, 0, -1)` visits them. -/
def ParesRota (consumidores : List Nat) : List (Nat × Nat) :=
  (consumidores.zip consumidores.tail).reverse

/-- The eligibility-trace walk (`lambd != 0` branch): for every consecutive
pair `(u, v)` of the current route, taken backward, do
`Q[u][v] += taxa * (recompensa + futuro - Q[estado][acao]) * E[u][v]` and then
`E[u][v] *= lambd * taxaDesconto`; note the TD error is re-read from the
current `Q[estado][acao]` at every pair, exactly as the source does. -/
def AtualizaComTraco (taxa recompensa futuro lambd taxaDesconto : ℚ)
    (estado acao : Nat) : List (Nat × Nat) → Mat × Mat → Mat × Mat
  | [], QE => QE
  | (u, v) :: resto, (Q, E) =>
    AtualizaComTraco taxa recompensa futuro lambd taxaDesconto estado acao resto
      (mset Q u v
        (mget Q u v + taxa * (recompensa + futuro - mget Q estado acao) * mget E u v),
       mset E u v (lambd * taxaDesconto * mget E u v))

/-- The credit-assignment dispatch on the trace decay factor: for `lambd = 0`
only `Q[estado][acao]` moves; otherwise the backward walk over the route. -/
def AtualizaQ (lambd taxaDesconto taxa recompensa futuro : ℚ) (estado acao : Nat)
    (consumidores : List Nat) (Q E : Mat) : Mat × Mat :=
  if lambd = 0 then
    (mset Q estado acao
      (mget Q estado acao + taxa * (recompensa + futuro - mget Q estado acao)), E)
  else
    AtualizaComTraco taxa recompensa futuro lambd taxaDesconto estado acao
      (ParesRota consumidores) (Q, E)

/-- Bootstrap target of the dynamic-fleet variants (source lines 238-242):
`0` when every entry of the working masked vector is `-inf`, otherwise
`Qfonte[acao][MaxQ(acoes)]`. -/
def ValorAcaoFuturaDin (Qfonte : Mat) (acao : Nat) (acoes : List Flt) : ℚ :=
  if acoes.count Flt.ninf = acoes.length then 0 else mget Qfonte acao (MaxQ acoes)

/-- Bootstrap target of the fixed-fleet variants (source lines 449-453):
`Qfonte[acao][0]` when every entry of the working masked vector is `-inf`,
otherwise `Qfonte[acao][MaxQ(acoes)]`. -/
def ValorAcaoFuturaFix (Qfonte : Mat) (acao : Nat) (acoes : List Flt) : ℚ :=
  if acoes.count Flt.ninf = acoes.length then mget Qfonte acao 0
  else mget Qfonte acao (MaxQ acoes)

/-- State carried around the episode loop of `Q_Learning_VeiculosDinamicos`. -/
structure EstDin where
  Q : Mat
  QVisitas : Mat
  QElegibilidade : Mat
  listEstadosVisitados : List Bool
  rotas : List Rota
  veiculo : Nat
  estado : Nat
deriving DecidableEq, Repr

/-- State carried around the episode loop of `DoubleQ_Learning_VeiculosDinamicos`. -/
structure EstDDin where
  Q1 : Mat
  Q2 : Mat
  QVisitas : Mat
  QElegibilidade : Mat
  listEstadosVisitados : List Bool
  rotas : List Rota
  veiculo : Nat
  estado : Nat
deriving DecidableEq, Repr

/-- State carried around the episode loop of `Q_Learning_VeiculosFixos`. -/
structure EstFix where
  Q : Mat
  QVisitas : Mat
  QElegibilidade : Mat
  listEstadosVisitados : List Bool
  rotas : List Rota
deriving DecidableEq, Repr

/-- State carried around the episode loop of `DoubleQ_Learning_VeiculosFixos`. -/
structure EstDFix where
  Q1 : Mat
  Q2 : Mat
  QVisitas : Mat
  QElegibilidade : Mat
  listEstadosVisitados : List Bool
  rotas : List Rota
deriving DecidableEq, Repr

/-- One iteration of the `while` loop of `Q_Learning_VeiculosDinamicos`
(source lines 218-263), in the source's statement order. -/
def PassoDin (raiz : ℚ → ℚ) (ambiente : Ambiente) (lambd taxaDesconto epsilon : ℚ)
    (r : Rnd) (s : EstDin) : RunRes EstDin :=
  let par := ValidaAcoes (s.Q.getD s.estado []) s.listEstadosVisitados
    (s.rotas.getD s.veiculo rotaNova).demanda ambiente true
  match Politica epsilon par.1 par.2 r.u r.pick with
  | .falha => .falha
  | .esgotado => .esgotado
  | .ok acao =>
    let ra := AtualizaRota raiz (s.rotas.getD s.veiculo rotaNova) s.estado acao ambiente
    let rotas := s.rotas.set s.veiculo ra.1
    let listEstadosVisitados := s.listEstadosVisitados.set acao true
    let acoes := par.1.set acao Flt.ninf
    let QElegibilidade :=
      mset s.QElegibilidade s.estado acao (mget s.QElegibilidade s.estado acao + 1)
    let QVisitas := mset s.QVisitas s.estado acao (mget s.QVisitas s.estado acao + 1)
    let valorAcaoFutura := ValorAcaoFuturaDin s.Q acao acoes
    match Recompensa ra.2 (demandaDe ambiente acao) ambiente.capacidade with
    | .falha => .falha
    | .esgotado => .esgotado
    | .ok recompensa =>
      let QE := AtualizaQ lambd taxaDesconto
        (TaxaAprendizagem (mget QVisitas s.estado acao)) recompensa
        (taxaDesconto * valorAcaoFutura) s.estado acao ra.1.consumidores
        s.Q QElegibilidade
      if acao ≠ 0 then
        .ok ⟨QE.1, QVisitas, QE.2, listEstadosVisitados.set 0 false, rotas,
          s.veiculo, acao⟩
      else if listEstadosVisitados.count false ≠ 0 then
        .ok ⟨QE.1, QVisitas, QE.2, listEstadosVisitados, rotas ++ [rotaNova],
          s.veiculo + 1, acao⟩
      else
        .ok ⟨QE.1, QVisitas, QE.2, listEstadosVisitados, rotas, s.veiculo, acao⟩

/-- One iteration of the `while` loop of `DoubleQ_Learning_VeiculosDinamicos`
(source lines 315-377); `r.moeda = true` is the coin outcome `"1"`. -/
def PassoDDin (raiz : ℚ → ℚ) (ambiente : Ambiente) (lambd taxaDesconto epsilon : ℚ)
    (r : Rnd) (s : EstDDin) : RunRes EstDDin :=
  let par := ValidaAcoes
    (List.zipWith (· + ·) (s.Q1.getD s.estado []) (s.Q2.getD s.estado []))
    s.listEstadosVisitados (s.rotas.getD s.veiculo rotaNova).demanda ambiente true
  match Politica epsilon par.1 par.2 r.u r.pick with
  | .falha => .falha
  | .esgotado => .esgotado
  | .ok acao =>
    let ra := AtualizaRota raiz (s.rotas.getD s.veiculo rotaNova) s.estado acao ambiente
    let rotas := s.rotas.set s.veiculo ra.1
    let listEstadosVisitados := s.listEstadosVisitados.set acao true
    let acoes := par.1.set acao Flt.ninf
    let QElegibilidade :=
      mset s.QElegibilidade s.estado acao (mget s.QElegibilidade s.estado acao + 1)
    let QVisitas := mset s.QVisitas s.estado acao (mget s.QVisitas s.estado acao + 1)
    match Recompensa ra.2 (demandaDe ambiente acao) ambiente.capacidade with
    | .falha => .falha
    | .esgotado => .esgotado
    | .ok recompensa =>
      let tabelas :=
        if r.moeda then
          let valorAcaoFutura := ValorAcaoFuturaDin s.Q2 acao acoes
          let QE := AtualizaQ lambd taxaDesconto
            (TaxaAprendizagem (mget QVisitas s.estado acao)) recompensa
            (taxaDesconto * valorAcaoFutura) s.estado acao ra.1.consumidores
            s.Q1 QElegibilidade
          (QE.1, s.Q2, QE.2)
        else
          let valorAcaoFutura := ValorAcaoFuturaDin s.Q1 acao acoes
          let QE := AtualizaQ lambd taxaDesconto
            (TaxaAprendizagem (mget QVisitas s.estado acao)) recompensa
            (taxaDesconto * valorAcaoFutura) s.estado acao ra.1.consumidores
            s.Q2 QElegibilidade
          (s.Q1, QE.1, QE.2)
      if acao ≠ 0 then
        .ok ⟨tabelas.1, tabelas.2.1, QVisitas, tabelas.2.2,
          listEstadosVisitados.set 0 false, rotas, s.veiculo, acao⟩
      else if listEstadosVisitados.count false ≠ 0 then
        .ok ⟨tabelas.1, tabelas.2.1, QVisitas, tabelas.2.2, listEstadosVisitados,
          rotas ++ [rotaNova], s.veiculo + 1, acao⟩
      else
        .ok ⟨tabelas.1, tabelas.2.1, QVisitas, tabelas.2.2, listEstadosVisitados,
          rotas, s.veiculo, acao⟩

/-- One iteration of the `while` loop of `Q_Learning_VeiculosFixos`
(source lines 423-462): the least-loaded route is selected, its last node is
the current state, and the demand check of `ValidaAcoes` is switched off. -/
def PassoFix (raiz : ℚ → ℚ) (ambiente : Ambiente) (lambd taxaDesconto epsilon : ℚ)
    (r : Rnd) (s : EstFix) : RunRes EstFix :=
  match EscolheRota s.rotas with
  | .falha => .falha
  | .esgotado => .esgotado
  | .ok veiculo =>
    let estado := ((s.rotas.getD veiculo rotaNova).consumidores.getLast?).getD 0
    let par := ValidaAcoes (s.Q.getD estado []) s.listEstadosVisitados
      (s.rotas.getD veiculo rotaNova).demanda ambiente false
    match Politica epsilon par.1 par.2 r.u r.pick with
    | .falha => .falha
    | .esgotado => .esgotado
    | .ok acao =>
      let ra := AtualizaRota raiz (s.rotas.getD veiculo rotaNova) estado acao ambiente
      let rotas := s.rotas.set veiculo ra.1
      let listEstadosVisitados := s.listEstadosVisitados.set acao true
      let acoes := par.1.set acao Flt.ninf
      let QElegibilidade :=
        mset s.QElegibilidade estado acao (mget s.QElegibilidade estado acao + 1)
      let QVisitas := mset s.QVisitas estado acao (mget s.QVisitas estado acao + 1)
      let valorAcaoFutura := ValorAcaoFuturaFix s.Q acao acoes
      match Recompensa ra.2 (demandaDe ambiente acao) ambiente.capacidade with
      | .falha => .falha
      | .esgotado => .esgotado
      | .ok recompensa =>
        let QE := AtualizaQ lambd taxaDesconto
          (TaxaAprendizagem (mget QVisitas estado acao)) recompensa
          (taxaDesconto * valorAcaoFutura) estado acao ra.1.consumidores
          s.Q QElegibilidade
        .ok ⟨QE.1, QVisitas, QE.2, listEstadosVisitados, rotas⟩

/-- One iteration of the `while` loop of `DoubleQ_Learning_VeiculosFixos`
(source lines 531-587). -/
def PassoDFix (raiz : ℚ → ℚ) (ambiente : Ambiente) (lambd taxaDesconto epsilon : ℚ)
    (r : Rnd) (s : EstDFix) : RunRes EstDFix :=
  match EscolheRota s.rotas with
  | .falha => .falha
  | .esgotado => .esgotado
  | .ok veiculo =>
    let estado := ((s.rotas.getD veiculo rotaNova).consumidores.getLast?).getD 0
    let par := ValidaAcoes
      (List.zipWith (· + ·) (s.Q1.getD estado []) (s.Q2.getD estado []))
      s.listEstadosVisitados (s.rotas.getD veiculo rotaNova).demanda ambiente false
    match Politica epsilon par.1 par.2 r.u r.pick with
    | .falha => .falha
    | .esgotado => .esgotado
    | .ok acao =>
      let ra := AtualizaRota raiz (s.rotas.getD veiculo rotaNova) estado acao ambiente
      let rotas := s.rotas.set veiculo ra.1
      let listEstadosVisitados := s.listEstadosVisitados.set acao true
      let acoes := par.1.set acao Flt.ninf
      let QElegibilidade :=
        mset s.QElegibilidade estado acao (mget s.QElegibilidade estado acao + 1)
      let QVisitas := mset s.QVisitas estado acao (mget s.QVisitas estado acao + 1)
      match Recompensa ra.2 (demandaDe ambiente acao) ambiente.capacidade with
      | .falha => .falha
      | .esgotado => .esgotado
      | .ok recompensa =>
        let tabelas :=
          if r.moeda then
            let valorAcaoFutura := ValorAcaoFuturaFix s.Q2 acao acoes
            let QE := AtualizaQ lambd taxaDesconto
              (TaxaAprendizagem (mget QVisitas estado acao)) recompensa
              (taxaDesconto * valorAcaoFutura) estado acao ra.1.consumidores
              s.Q1 QElegibilidade
            (QE.1, s.Q2, QE.2)
          else
            let valorAcaoFutura := ValorAcaoFuturaFix s.Q1 acao acoes
            let QE := AtualizaQ lambd taxaDesconto
              (TaxaAprendizagem (mget QVisitas estado acao)) recompensa
              (taxaDesconto * valorAcaoFutura) estado acao ra.1.consumidores
              s.Q2 QElegibilidade
            (s.Q1, QE.1, QE.2)
        .ok ⟨tabelas.1, tabelas.2.1, QVisitas, tabelas.2.2, listEstadosVisitados, rotas⟩

/-- The episode `while` loop, fuelled: stop with the state as soon as no
unvisited node remains, propagate exceptions, report exhausted fuel. -/
def LacoDin (raiz : ℚ → ℚ) (ambiente : Ambiente) (lambd taxaDesconto epsilon : ℚ)
    (fluxo : Nat → Rnd) : Nat → Nat → EstDin → RunRes EstDin
  | 0, _, s => if s.listEstadosVisitados.count false = 0 then .ok s else .esgotado
  | n + 1, t, s =>
    if s.listEstadosVisitados.count false = 0 then .ok s
    else
      match PassoDin raiz ambiente lambd taxaDesconto epsilon (fluxo t) s with
      | .ok s2 => LacoDin raiz ambiente lambd taxaDesconto epsilon fluxo n (t + 1) s2
      | .falha => .falha
      | .esgotado => .esgotado

/-- The episode `while` loop of the double dynamic variant, fuelled. -/
def LacoDDin (raiz : ℚ → ℚ) (ambiente : Ambiente) (lambd taxaDesconto epsilon : ℚ)
    (fluxo : Nat → Rnd) : Nat → Nat → EstDDin → RunRes EstDDin
  | 0, _, s => if s.listEstadosVisitados.count false = 0 then .ok s else .esgotado
  | n + 1, t, s =>
    if s.listEstadosVisitados.count false = 0 then .ok s
    else
      match PassoDDin raiz ambiente lambd taxaDesconto epsilon (fluxo t) s with
      | .ok s2 => LacoDDin raiz ambiente lambd taxaDesconto epsilon fluxo n (t + 1) s2
      | .falha => .falha
      | .esgotado => .esgotado

/-- The episode `while` loop of the fixed single-table variant, fuelled. -/
def LacoFix (raiz : ℚ → ℚ) (ambiente : Ambiente) (lambd taxaDesconto epsilon : ℚ)
    (fluxo : Nat → Rnd) : Nat → Nat → EstFix → RunRes EstFix
  | 0, _, s => if s.listEstadosVisitados.count false = 0 then .ok s else .esgotado
  | n + 1, t, s =>
    if s.listEstadosVisitados.count false = 0 then .ok s
    else
      match PassoFix raiz ambiente lambd taxaDesconto epsilon (fluxo t) s with
      | .ok s2 => LacoFix raiz ambiente lambd taxaDesconto epsilon fluxo n (t + 1) s2
      | .falha => .falha
      | .esgotado => .esgotado

/-- The episode `while` loop of the fixed double-table variant, fuelled. -/
def LacoDFix (raiz : ℚ → ℚ) (ambiente : Ambiente) (lambd taxaDesconto epsilon : ℚ)
    (fluxo : Nat → Rnd) : Nat → Nat → EstDFix → RunRes EstDFix
  | 0, _, s => if s.listEstadosVisitados.count false = 0 then .ok s else .esgotado
  | n + 1, t, s =>
    if s.listEstadosVisitados.count false = 0 then .ok s
    else
      match PassoDFix raiz ambiente lambd taxaDesconto epsilon (fluxo t) s with
      | .ok s2 => LacoDFix raiz ambiente lambd taxaDesconto epsilon fluxo n (t + 1) s2
      | .falha => .falha
      | .esgotado => .esgotado

/-- The visited-list at episode start: everything unvisited but the depot. -/
def VisitadosIniciais (quantidadeEstados : Nat) : List Bool :=
  (List.replicate quantidadeEstados false).set 0 true

/-- Episode-start state of the dynamic variants: one fresh route, vehicle 0,
state 0 (depot), eligibility table reset to zero. -/
def InicioDin (ambiente : Ambiente) (Q QVisitas : Mat) : EstDin :=
  ⟨Q, QVisitas, CriaMatriz ambiente.estados.length,
   VisitadosIniciais ambiente.estados.length, [rotaNova], 0, 0⟩

/-- Episode-start state of the double dynamic variant. -/
def InicioDDin (ambiente : Ambiente) (Q1 Q2 QVisitas : Mat) : EstDDin :=
  ⟨Q1, Q2, QVisitas, CriaMatriz ambiente.estados.length,
   VisitadosIniciais ambiente.estados.length, [rotaNova], 0, 0⟩

/-- Episode-start state of the fixed single-table variant: `K` fresh routes. -/
def InicioFix (ambiente : Ambiente) (Q QVisitas : Mat) : EstFix :=
  ⟨Q, QVisitas, CriaMatriz ambiente.estados.length,
   VisitadosIniciais ambiente.estados.length, CriaRotas ambiente.veiculos⟩

/-- Episode-start state of the fixed double-table variant. -/
def InicioDFix (ambiente : Ambiente) (Q1 Q2 QVisitas : Mat) : EstDFix :=
  ⟨Q1, Q2, QVisitas, CriaMatriz ambiente.estados.length,
   VisitadosIniciais ambiente.estados.length, CriaRotas ambiente.veiculos⟩

/-- Total distance of a dynamic-fleet episode (source lines 266-272): inside
the sum over routes the total is overwritten with `inf` whenever more routes
were opened than the declared fleet size, and the route cost is then added
on top of it. -/
def DistanciaTotalDin (rotas : List Rota) (veiculos : Nat) : Flt :=
  rotas.foldl
    (fun dt r => (if rotas.length > veiculos then Flt.inf else dt).addQ r.custo)
    (Flt.fin 0)

/-- Finalization loop of `Q_Learning_VeiculosFixos` (source lines 464-493)
over the route indices: close each route with a depot leg, run one more
credit-assignment update with a zero discounted future, overwrite the total
with `inf` whenever the closed route's demand exceeds capacity, and add the
route cost on top. -/
def FinalizaFixVai (raiz : ℚ → ℚ) (ambiente : Ambiente) (lambd taxaDesconto : ℚ) :
    List Nat → Mat × Mat × Mat × List Rota × Flt →
    RunRes (Mat × Mat × Mat × List Rota × Flt)
  | [], st => .ok st
  | v :: resto, (Q, QVisitas, QElegibilidade, rotas, distanciaTotal) =>
    let estado := ((rotas.getD v rotaNova).consumidores.getLast?).getD 0
    let ra := AtualizaRota raiz (rotas.getD v rotaNova) estado 0 ambiente
    let rotas2 := rotas.set v ra.1
    let QElegibilidade2 := mset QElegibilidade estado 0 (mget QElegibilidade estado 0 + 1)
    let QVisitas2 := mset QVisitas estado 0 (mget QVisitas estado 0 + 1)
    match Recompensa ra.2 (demandaDe ambiente 0) ambiente.capacidade with
    | .falha => .falha
    | .esgotado => .esgotado
    | .ok recompensa =>
      let QE := AtualizaQ lambd taxaDesconto
        (TaxaAprendizagem (mget QVisitas2 estado 0)) recompensa 0 estado 0
        ra.1.consumidores Q QElegibilidade2
      let distanciaTotal2 :=
        (if ra.1.demanda > ambiente.capacidade then Flt.inf else distanciaTotal).addQ
          ra.1.custo
      FinalizaFixVai raiz ambiente lambd taxaDesconto resto
        (QE.1, QVisitas2, QE.2, rotas2, distanciaTotal2)

/-- Finalization of `Q_Learning_VeiculosFixos` starting from total 0. -/
def FinalizaFix (raiz : ℚ → ℚ) (ambiente : Ambiente) (lambd taxaDesconto : ℚ)
    (Q QVisitas QElegibilidade : Mat) (rotas : List Rota) :
    RunRes (Mat × Mat × Mat × List Rota × Flt) :=
  FinalizaFixVai raiz ambiente lambd taxaDesconto (List.range rotas.length)
    (Q, QVisitas, QElegibilidade, rotas, Flt.fin 0)

/-- Finalization loop of `DoubleQ_Learning_VeiculosFixos` (source lines
589-629); `moedas` supplies the per-route coin flips, indexed by `t`. -/
def FinalizaDFixVai (raiz : ℚ → ℚ) (ambiente : Ambiente) (lambd taxaDesconto : ℚ)
    (moedas : Nat → Bool) :
    List Nat → Nat → Mat × Mat × Mat × Mat × List Rota × Flt →
    RunRes (Mat × Mat × Mat × Mat × List Rota × Flt)
  | [], _, st => .ok st
  | v :: resto, t, (Q1, Q2, QVisitas, QElegibilidade, rotas, distanciaTotal) =>
    let estado := ((rotas.getD v rotaNova).consumidores.getLast?).getD 0
    let ra := AtualizaRota raiz (rotas.getD v rotaNova) estado 0 ambiente
    let rotas2 := rotas.set v ra.1
    let QElegibilidade2 := mset QElegibilidade estado 0 (mget QElegibilidade estado 0 + 1)
    let QVisitas2 := mset QVisitas estado 0 (mget QVisitas estado 0 + 1)
    match Recompensa ra.2 (demandaDe ambiente 0) ambiente.capacidade with
    | .falha => .falha
    | .esgotado => .esgotado
    | .ok recompensa =>
      let tabelas :=
        if moedas t then
          let QE := AtualizaQ lambd taxaDesconto
            (TaxaAprendizagem (mget QVisitas2 estado 0)) recompensa 0 estado 0
            ra.1.consumidores Q1 QElegibilidade2
          (QE.1, Q2, QE.2)
        else
          let QE := AtualizaQ lambd taxaDesconto
            (TaxaAprendizagem (mget QVisitas2 estado 0)) recompensa 0 estado 0
            ra.1.consumidores Q2 QElegibilidade2
          (Q1, QE.1, QE.2)
      let distanciaTotal2 :=
        (if ra.1.demanda > ambiente.capacidade then Flt.inf else distanciaTotal).addQ
          ra.1.custo
      FinalizaDFixVai raiz ambiente lambd taxaDesconto moedas resto (t + 1)
        (tabelas.1, tabelas.2.1, QVisitas2, tabelas.2.2, rotas2, distanciaTotal2)

/-- One full episode of `Q_Learning_VeiculosDinamicos`: the construction loop
from the fresh episode state, then the total-distance computation; returns
the persistent tables, the route set and the recorded total. -/
def EpisodioDin (raiz : ℚ → ℚ) (ambiente : Ambiente) (lambd taxaDesconto epsilon : ℚ)
    (fluxo : Nat → Rnd) (combustivel : Nat) (Q QVisitas : Mat) :
    RunRes (Mat × Mat × List Rota × Flt) :=
  match LacoDin raiz ambiente lambd taxaDesconto epsilon fluxo combustivel 0
      (InicioDin ambiente Q QVisitas) with
  | .ok s => .ok (s.Q, s.QVisitas, s.rotas, DistanciaTotalDin s.rotas ambiente.veiculos)
  | .falha => .falha
  | .esgotado => .esgotado

/-- One full episode of `DoubleQ_Learning_VeiculosDinamicos`. -/
def EpisodioDDin (raiz : ℚ → ℚ) (ambiente : Ambiente) (lambd taxaDesconto epsilon : ℚ)
    (fluxo : Nat → Rnd) (combustivel : Nat) (Q1 Q2 QVisitas : Mat) :
    RunRes (Mat × Mat × Mat × List Rota × Flt) :=
  match LacoDDin raiz ambiente lambd taxaDesconto epsilon fluxo combustivel 0
      (InicioDDin ambiente Q1 Q2 QVisitas) with
  | .ok s =>
    .ok (s.Q1, s.Q2, s.QVisitas, s.rotas, DistanciaTotalDin s.rotas ambiente.veiculos)
  | .falha => .falha
  | .esgotado => .esgotado

/-- One full episode of `Q_Learning_VeiculosFixos`: construction loop then
the finalization loop with its depot legs and penalty check. -/
def EpisodioFix (raiz : ℚ → ℚ) (ambiente : Ambiente) (lambd taxaDesconto epsilon : ℚ)
    (fluxo : Nat → Rnd) (combustivel : Nat) (Q QVisitas : Mat) :
    RunRes (Mat × Mat × Mat × List Rota × Flt) :=
  match LacoFix raiz ambiente lambd taxaDesconto epsilon fluxo combustivel 0
      (InicioFix ambiente Q QVisitas) with
  | .ok s =>
    FinalizaFix raiz ambiente lambd taxaDesconto s.Q s.QVisitas s.QElegibilidade s.rotas
  | .falha => .falha
  | .esgotado => .esgotado

/-- One full episode of `DoubleQ_Learning_VeiculosFixos`; `moedas` supplies
the finalization coin flips. -/
def EpisodioDFix (raiz : ℚ → ℚ) (ambiente : Ambiente) (lambd taxaDesconto epsilon : ℚ)
    (fluxo : Nat → Rnd) (moedas : Nat → Bool) (combustivel : Nat)
    (Q1 Q2 QVisitas : Mat) : RunRes (Mat × Mat × Mat × Mat × List Rota × Flt) :=
  match LacoDFix raiz ambiente lambd taxaDesconto epsilon fluxo combustivel 0
      (InicioDFix ambiente Q1 Q2 QVisitas) with
  | .ok s =>
    FinalizaDFixVai raiz ambiente lambd taxaDesconto moedas
      (List.range s.rotas.length) 0
      (s.Q1, s.Q2, s.QVisitas, s.QElegibilidade, s.rotas, Flt.fin 0)
  | .falha => .falha
  | .esgotado => .esgotado

/-- How many times customer `c` appears across all routes' node sequences. -/
def ContagemNasRotas (rotas : List Rota) (c : Nat) : Nat :=
  (rotas.map fun r => r.consumidores.count c).sum

/-- The finite part of a float value. -/
def Flt.parteFin : Flt → ℚ
  | .fin q => q
  | _ => 0

/-- The bootstrap target as the specification words it for the dynamic-fleet
variants: `0` if no action is legal from the newly reached node `acao`
(legality taken by `ValidaAcoes` at the post-move visited list and the
post-move accumulated route demand), otherwise the maximum over the actions
legal from `acao` of `Qfonte[acao][a2]`, read off the masked row of `acao`. -/
def ValorFuturoEspecDin (Qfonte : Mat) (acao : Nat) (visitados : List Bool)
    (demandaRota : ℚ) (ambiente : Ambiente) : ℚ :=
  let par := ValidaAcoes (Qfonte.getD acao []) visitados demandaRota ambiente true
  if par.2.sum = 0 then 0 else (maxLista par.1).parteFin

/-- A square table has `n` rows, each of length `n`. -/
def DimsMat (n : Nat) (m : Mat) : Prop :=
  m.length = n ∧ ∀ lin ∈ m, lin.length = n

/-- The shape invariant that links a masked value vector to its legality
vector, as `ValidaAcoes` produces them: positions marked `1` carry a finite
value and positions marked `0` carry `-inf`. -/
def BemFormado (acoes : List Flt) (permissao : List Nat) : Prop :=
  permissao.length = acoes.length ∧
  ∀ i, i < acoes.length →
    (permissao.getD i 0 = 1 ∧ ∃ q, acoes.getD i Flt.ninf = Flt.fin q) ∨
    (permissao.getD i 0 = 0 ∧ acoes.getD i Flt.ninf = Flt.ninf)

/-- Bookkeeping invariant of the dynamic-fleet episode loop: the visited
list spans the state space, the table is square, the current state and the
current vehicle are in range, and every customer appears in the routes
exactly as often as its visited flag says (once when set, never when not). -/
def InvDin (n : Nat) (s : EstDin) : Prop :=
  s.listEstadosVisitados.length = n ∧ DimsMat n s.Q ∧ s.estado < n ∧
  s.veiculo < s.rotas.length ∧
  ∀ c, 1 ≤ c →
    ContagemNasRotas s.rotas c =
      if s.listEstadosVisitados.getD c false = true then 1 else 0

/-- Bookkeeping invariant of the double dynamic-fleet episode loop. -/
def InvDDin (n : Nat) (s : EstDDin) : Prop :=
  s.listEstadosVisitados.length = n ∧ DimsMat n s.Q1 ∧ DimsMat n s.Q2 ∧
  s.estado < n ∧ s.veiculo < s.rotas.length ∧
  ∀ c, 1 ≤ c →
    ContagemNasRotas s.rotas c =
      if s.listEstadosVisitados.getD c false = true then 1 else 0

/-- Bookkeeping invariant of the fixed-fleet episode loops: every route is
nonempty with nodes that are the depot or in range, and customer counts
match the visited flags. -/
def InvRotasFix (n : Nat) (rotas : List Rota) (visitados : List Bool) : Prop :=
  visitados.length = n ∧
  (∀ r ∈ rotas, r.consumidores ≠ [] ∧ ∀ x ∈ r.consumidores, x = 0 ∨ x < n) ∧
  ∀ c, 1 ≤ c →
    ContagemNasRotas rotas c = if visitados.getD c false = true then 1 else 0

/-- Every route's accumulated demand is its consumers' total demand. -/
def SomaDemandas (ambiente : Ambiente) (rotas : List Rota) : Prop :=
  ∀ r ∈ rotas, r.demanda = (r.consumidores.map (demandaDe ambiente)).sum

/-- Every route's accumulated demand is within the vehicle capacity. -/
def CargaLimitada (cap : ℚ) (rotas : List Rota) : Prop :=
  ∀ r ∈ rotas, r.demanda ≤ cap

theorem Flt.ninf_eq_fin (q : ℚ) : (Flt.ninf = Flt.fin q) = False := by simp

theorem Flt.fin_eq_ninf (q : ℚ) : (Flt.fin q = Flt.ninf) = False := by simp

theorem validaAcoesVai_nil (lv : List Bool) (dem : ℚ) (amb : Ambiente) (din : Bool)
    (i : Nat) : ValidaAcoesVai lv dem amb din i [] = [] := rfl

theorem validaAcoesVai_cons_invalida (lv : List Bool) (dem : ℚ) (amb : Ambiente)
    (din : Bool) (i : Nat) (a : ℚ) (resto : List ℚ)
    (h : AcaoInvalida lv dem amb din i) :
    ValidaAcoesVai lv dem amb din i (a :: resto) =
      (Flt.ninf, 0) :: ValidaAcoesVai lv dem amb din (i + 1) resto := by
  simp [ValidaAcoesVai, h]

theorem validaAcoesVai_cons_valida (lv : List Bool) (dem : ℚ) (amb : Ambiente)
    (din : Bool) (i : Nat) (a : ℚ) (resto : List ℚ)
    (h : ¬ AcaoInvalida lv dem amb din i) :
    ValidaAcoesVai lv dem amb din i (a :: resto) =
      (Flt.fin a, 1) :: ValidaAcoesVai lv dem amb din (i + 1) resto := by
  simp [ValidaAcoesVai, h]

theorem recompensa_ok (d dem cap : ℚ) (h : ¬ cap - dem = 0) :
    Recompensa d dem cap = .ok (-d / (cap - dem)) := by
  simp [Recompensa, h]

theorem recompensa_falha (d dem cap : ℚ) (h : cap - dem = 0) :
    Recompensa d dem cap = .falha := by
  simp [Recompensa, h]

theorem politica_explora (epsilon : ℚ) (acoes : List Flt) (permissao : List Nat)
    (u : ℚ) (pick : Nat) (h : u > epsilon) :
    Politica epsilon acoes permissao u pick =
      if permissao.sum = 0 then .falha
      else
        .ok (indiceDe
          (acoes.getD
            ((PosicoesLegais 0 permissao).getD
              (pick % (PosicoesLegais 0 permissao).length) 0) .ninf) acoes) := by
  simp [Politica, h]

theorem politica_exploita (epsilon : ℚ) (acoes : List Flt) (permissao : List Nat)
    (u : ℚ) (pick : Nat) (h : ¬ u > epsilon) :
    Politica epsilon acoes permissao u pick =
      if acoes.isEmpty then .falha
      else .ok (indiceDe (maxLista acoes) acoes) := by
  simp [Politica, h]

theorem maxF_ninf_esq (a : Flt) : Flt.maxF Flt.ninf a = a := by
  cases a <;> simp [Flt.maxF, Flt.le]

theorem maxF_fin_ninf (p : ℚ) : Flt.maxF (Flt.fin p) Flt.ninf = Flt.fin p := by
  simp [Flt.maxF, Flt.le]

theorem maxF_fin_fin_le (p q : ℚ) (h : p ≤ q) :
    Flt.maxF (Flt.fin p) (Flt.fin q) = Flt.fin q := by
  simp [Flt.maxF, Flt.le, h]

theorem maxF_fin_fin_nle (p q : ℚ) (h : ¬ p ≤ q) :
    Flt.maxF (Flt.fin p) (Flt.fin q) = Flt.fin p := by
  simp [Flt.maxF, Flt.le, h]

theorem getD_set_ne {α : Type} (l : List α) (i j : Nat) (v d : α) (h : i ≠ j) :
    (l.set i v).getD j d = l.getD j d := by
  simp [List.getD_eq_getElem?_getD, List.getElem?_set_ne h]

theorem getD_set_self {α : Type} (l : List α) (i : Nat) (v d : α)
    (h : i < l.length) : (l.set i v).getD i d = v := by
  simp [List.getD_eq_getElem?_getD, List.getElem?_set_self h]

theorem getD_mem {α : Type} (l : List α) (i : Nat) (d : α) (h : i < l.length) :
    l.getD i d ∈ l := by
  rw [List.getD_eq_getElem?_getD, List.getElem?_eq_getElem h]
  exact List.getElem_mem h

theorem getD_map_lt {α β : Type} (f : α → β) (l : List α) (i : Nat) (d : β)
    (d2 : α) (h : i < l.length) : (l.map f).getD i d = f (l.getD i d2) := by
  rw [List.getD_eq_getElem?_getD, List.getD_eq_getElem?_getD,
    List.getElem?_eq_getElem h, List.getElem?_eq_getElem (by simpa using h)]
  simp

theorem getD_len_le {α : Type} (l : List α) (i : Nat) (d : α) (h : l.length ≤ i) :
    l.getD i d = d := by
  rw [List.getD_eq_getElem?_getD, List.getElem?_eq_none (by simpa using h)]
  rfl

theorem indiceDe_lt_length {α : Type} [DecidableEq α] (x : α) (l : List α)
    (h : x ∈ l) : indiceDe x l < l.length := by
  induction l with
  | nil => cases h
  | cons a t ih =>
    by_cases hax : a = x
    · simp [indiceDe, hax]
    · rcases List.mem_cons.mp h with h2 | h2
      · exact absurd h2.symm hax
      · simpa [indiceDe, hax] using ih h2

theorem getD_indiceDe {α : Type} [DecidableEq α] (x : α) (l : List α) (d : α)
    (h : x ∈ l) : l.getD (indiceDe x l) d = x := by
  induction l with
  | nil => cases h
  | cons a t ih =>
    by_cases hax : a = x
    · simp [indiceDe, hax]
    · rcases List.mem_cons.mp h with h2 | h2
      · exact absurd h2.symm hax
      · simpa [indiceDe, hax] using ih h2

theorem indiceDe_eq_of_first {α : Type} [DecidableEq α] (x : α) (l : List α)
    (d : α) (i : Nat) (hi : i < l.length) (hx : l.getD i d = x)
    (hmin : ∀ j, j < i → l.getD j d ≠ x) : indiceDe x l = i := by
  induction l generalizing i with
  | nil => simp at hi
  | cons a t ih =>
    cases i with
    | zero =>
      simp only [List.getD_cons_zero] at hx
      simp [indiceDe, hx]
    | succ k =>
      have ha : a ≠ x := by
        have := hmin 0 (Nat.succ_pos k)
        simpa using this
      have hk : indiceDe x t = k := by
        refine ih k (by simpa using hi) (by simpa using hx) ?_
        intro j hj
        have := hmin (j + 1) (Nat.succ_lt_succ hj)
        simpa using this
      simp [indiceDe, ha, hk]

theorem le_refl_flt (a : Flt) : Flt.le a a = true := by
  cases a <;> simp [Flt.le]

theorem le_total_flt (a b : Flt) : Flt.le a b = true ∨ Flt.le b a = true := by
  cases a <;> cases b <;> simp [Flt.le] <;> exact le_total _ _

theorem le_trans_flt (a b c : Flt) (h1 : Flt.le a b = true)
    (h2 : Flt.le b c = true) : Flt.le a c = true := by
  cases a <;> cases b <;> cases c <;> simp_all [Flt.le]
  exact le_trans h1 h2

theorem maxF_escolha (a b : Flt) : Flt.maxF a b = a ∨ Flt.maxF a b = b := by
  unfold Flt.maxF
  by_cases h : Flt.le a b = true <;> simp [h]

theorem le_maxF_esq (a b : Flt) : Flt.le a (Flt.maxF a b) = true := by
  unfold Flt.maxF
  by_cases h : Flt.le a b = true
  · simp [h]
  · simp [h, le_refl_flt]

theorem le_maxF_dir (a b : Flt) : Flt.le b (Flt.maxF a b) = true := by
  unfold Flt.maxF
  by_cases h : Flt.le a b = true
  · simp [h, le_refl_flt]
  · rcases le_total_flt a b with h2 | h2
    · exact absurd h2 h
    · simp [h, h2]

theorem foldl_maxF_mem (l : List Flt) (a : Flt) :
    l.foldl Flt.maxF a = a ∨ l.foldl Flt.maxF a ∈ l := by
  induction l generalizing a with
  | nil => simp
  | cons b t ih =>
    rw [List.foldl_cons]
    rcases ih (Flt.maxF a b) with h | h
    · rcases maxF_escolha a b with h2 | h2
      · exact Or.inl (h.trans h2)
      · exact Or.inr (by rw [h, h2]; exact List.mem_cons_self b t)
    · exact Or.inr (List.mem_cons_of_mem b h)

theorem le_foldl_maxF_base (l : List Flt) (a : Flt) :
    Flt.le a (l.foldl Flt.maxF a) = true := by
  induction l generalizing a with
  | nil => simpa using le_refl_flt a
  | cons b t ih =>
    exact le_trans_flt _ _ _ (le_maxF_esq a b) (by simpa using ih (Flt.maxF a b))

theorem le_foldl_maxF (l : List Flt) (a x : Flt) (h : x ∈ l) :
    Flt.le x (l.foldl Flt.maxF a) = true := by
  induction l generalizing a with
  | nil => cases h
  | cons b t ih =>
    rw [List.foldl_cons]
    rcases List.mem_cons.mp h with h2 | h2
    · subst h2
      exact le_trans_flt _ _ _ (le_maxF_dir a x) (le_foldl_maxF_base t (Flt.maxF a x))
    · exact ih (Flt.maxF a b) h2

theorem maxLista_mem (l : List Flt) (h : l ≠ []) : maxLista l ∈ l := by
  cases l with
  | nil => exact absurd rfl h
  | cons a t =>
    rcases foldl_maxF_mem t a with h2 | h2
    · rw [maxLista, h2]
      exact List.mem_cons_self a t
    · rw [maxLista]
      exact List.mem_cons_of_mem a h2

theorem le_maxLista (l : List Flt) (x : Flt) (h : x ∈ l) :
    Flt.le x (maxLista l) = true := by
  cases l with
  | nil => cases h
  | cons a t =>
    rcases List.mem_cons.mp h with h2 | h2
    · subst h2
      simpa [maxLista] using le_foldl_maxF_base t x
    · simpa [maxLista] using le_foldl_maxF t a x h2

theorem foldl_min_mem (l : List ℚ) (a : ℚ) :
    l.foldl min a = a ∨ l.foldl min a ∈ l := by
  induction l generalizing a with
  | nil => simp
  | cons b t ih =>
    rw [List.foldl_cons]
    rcases ih (min a b) with h | h
    · rcases min_choice a b with h2 | h2
      · exact Or.inl (h.trans h2)
      · exact Or.inr (by rw [h, h2]; exact List.mem_cons_self b t)
    · exact Or.inr (List.mem_cons_of_mem b h)

theorem minLista_mem (l : List ℚ) (h : l ≠ []) : minLista l ∈ l := by
  cases l with
  | nil => exact absurd rfl h
  | cons a t =>
    rcases foldl_min_mem t a with h2 | h2
    · rw [minLista, h2]
      exact List.mem_cons_self a t
    · rw [minLista]
      exact List.mem_cons_of_mem a h2

theorem posicoesLegais_mem {perm : List Nat} {k j : Nat}
    (h : j ∈ PosicoesLegais k perm) :
    ∃ i, i < perm.length ∧ j = k + i ∧ perm.getD i 0 ≠ 0 := by
  induction perm generalizing k with
  | nil => simp [PosicoesLegais] at h
  | cons p resto ih =>
    by_cases hp : p ≠ 0
    · rw [PosicoesLegais, if_pos hp] at h
      rcases List.mem_cons.mp h with h2 | h2
      · exact ⟨0, by simp, by simpa using h2, by simpa using hp⟩
      · rcases ih h2 with ⟨i, hi, hj, hne⟩
        refine ⟨i + 1, by simpa using hi, by omega, by simpa using hne⟩
    · rw [PosicoesLegais, if_neg hp] at h
      rcases ih h with ⟨i, hi, hj, hne⟩
      refine ⟨i + 1, by simpa using hi, by omega, by simpa using hne⟩

theorem posicoesLegais_ne_nil {perm : List Nat} (h : perm.sum ≠ 0) (k : Nat) :
    PosicoesLegais k perm ≠ [] := by
  induction perm generalizing k with
  | nil => simp at h
  | cons p resto ih =>
    by_cases hp : p ≠ 0
    · simp [PosicoesLegais, hp]
    · have h2 : resto.sum ≠ 0 := by
        simp only [ne_eq, not_not] at hp
        simpa [hp] using h
      simpa [PosicoesLegais, hp] using ih h2 (k + 1)

theorem mem_getD {α : Type} (l : List α) (x : α) (d : α) (h : x ∈ l) :
    ∃ i, i < l.length ∧ l.getD i d = x := by
  rcases List.getElem_of_mem h with ⟨i, hi, hx⟩
  exact ⟨i, hi, by rw [List.getD_eq_getElem?_getD, List.getElem?_eq_getElem hi]; simpa⟩

theorem validaAcoesVai_length (lv : List Bool) (dem : ℚ) (amb : Ambiente)
    (din : Bool) (k : Nat) (ap : List ℚ) :
    (ValidaAcoesVai lv dem amb din k ap).length = ap.length := by
  induction ap generalizing k with
  | nil => rfl
  | cons a resto ih => simp [ValidaAcoesVai, ih]

theorem validaAcoesVai_getD (lv : List Bool) (dem : ℚ) (amb : Ambiente)
    (din : Bool) (k : Nat) (ap : List ℚ) (i : Nat) (h : i < ap.length) :
    (ValidaAcoesVai lv dem amb din k ap).getD i (Flt.ninf, 0) =
      if AcaoInvalida lv dem amb din (k + i) then (Flt.ninf, 0)
      else (Flt.fin (ap.getD i 0), 1) := by
  induction ap generalizing k i with
  | nil => simp at h
  | cons a resto ih =>
    cases i with
    | zero => simp [ValidaAcoesVai]
    | succ m =>
      rw [ValidaAcoesVai]
      have h2 : m < resto.length := by simpa using h
      rw [List.getD_cons_succ, ih (k + 1) m h2]
      have h3 : k + 1 + m = k + (m + 1) := by omega
      rw [h3]
      rfl

theorem validaAcoes_len_acoes (ap : List ℚ) (lv : List Bool) (dem : ℚ)
    (amb : Ambiente) (din : Bool) :
    (ValidaAcoes ap lv dem amb din).1.length = ap.length := by
  rw [ValidaAcoes, List.unzip_fst, List.length_map, validaAcoesVai_length]

theorem validaAcoes_len_perm (ap : List ℚ) (lv : List Bool) (dem : ℚ)
    (amb : Ambiente) (din : Bool) :
    (ValidaAcoes ap lv dem amb din).2.length = ap.length := by
  rw [ValidaAcoes, List.unzip_snd, List.length_map, validaAcoesVai_length]

theorem validaAcoes_acoes_getD (ap : List ℚ) (lv : List Bool) (dem : ℚ)
    (amb : Ambiente) (din : Bool) (i : Nat) (h : i < ap.length) :
    (ValidaAcoes ap lv dem amb din).1.getD i Flt.ninf =
      if AcaoInvalida lv dem amb din i then Flt.ninf
      else Flt.fin (ap.getD i 0) := by
  rw [ValidaAcoes, List.unzip_fst,
    getD_map_lt Prod.fst _ i Flt.ninf (Flt.ninf, 0)
      (by rw [validaAcoesVai_length]; exact h),
    validaAcoesVai_getD lv dem amb din 0 ap i h]
  rw [Nat.zero_add, apply_ite Prod.fst]

theorem validaAcoes_perm_getD (ap : List ℚ) (lv : List Bool) (dem : ℚ)
    (amb : Ambiente) (din : Bool) (i : Nat) (h : i < ap.length) :
    (ValidaAcoes ap lv dem amb din).2.getD i 0 =
      if AcaoInvalida lv dem amb din i then 0 else 1 := by
  rw [ValidaAcoes, List.unzip_snd,
    getD_map_lt Prod.snd _ i 0 (Flt.ninf, 0)
      (by rw [validaAcoesVai_length]; exact h),
    validaAcoesVai_getD lv dem amb din 0 ap i h]
  rw [Nat.zero_add, apply_ite Prod.snd]

theorem validaAcoes_bemFormado (ap : List ℚ) (lv : List Bool) (dem : ℚ)
    (amb : Ambiente) (din : Bool) :
    BemFormado (ValidaAcoes ap lv dem amb din).1 (ValidaAcoes ap lv dem amb din).2 := by
  constructor
  · rw [validaAcoes_len_acoes, validaAcoes_len_perm]
  · intro i hi
    rw [validaAcoes_len_acoes] at hi
    rw [validaAcoes_acoes_getD ap lv dem amb din i hi,
      validaAcoes_perm_getD ap lv dem amb din i hi]
    rcases Decidable.em (AcaoInvalida lv dem amb din i) with h2 | h2
    · right
      simp [h2]
    · left
      exact ⟨by simp [h2], ap.getD i 0, by simp [h2]⟩

theorem politica_explora_sound (epsilon : ℚ) (acoes : List Flt)
    (permissao : List Nat) (u : ℚ) (pick : Nat) (a : Nat)
    (hu : u > epsilon) (hbf : BemFormado acoes permissao)
    (hok : Politica epsilon acoes permissao u pick = .ok a) :
    a < acoes.length ∧ permissao.getD a 0 = 1 := by
  rw [politica_explora epsilon acoes permissao u pick hu] at hok
  by_cases hs : permissao.sum = 0
  · rw [if_pos hs] at hok
    cases hok
  · rw [if_neg hs] at hok
    have hleg := posicoesLegais_ne_nil hs 0
    have hlen : 0 < (PosicoesLegais 0 permissao).length :=
      List.length_pos.mpr hleg
    have hescmem : (PosicoesLegais 0 permissao).getD
        (pick % (PosicoesLegais 0 permissao).length) 0 ∈ PosicoesLegais 0 permissao :=
      getD_mem _ _ _ (Nat.mod_lt pick hlen)
    rcases posicoesLegais_mem hescmem with ⟨i, hi, hesc, hne⟩
    set escolhido := (PosicoesLegais 0 permissao).getD
      (pick % (PosicoesLegais 0 permissao).length) 0 with hescdef
    have hieq : escolhido = i := by omega
    have hilt : i < acoes.length := by rw [← hbf.1]; exact hi
    rcases hbf.2 i hilt with ⟨hp1, q, hq⟩ | ⟨hp0, _⟩
    · have hmem : Flt.fin q ∈ acoes := by
        rw [← hq]
        exact getD_mem acoes i Flt.ninf hilt
      have hgq : acoes.getD escolhido Flt.ninf = Flt.fin q := by rw [hieq, hq]
      rw [hgq] at hok
      have ha : a = indiceDe (Flt.fin q) acoes := by
        cases hok
        rfl
      subst ha
      refine ⟨indiceDe_lt_length _ _ hmem, ?_⟩
      have hga := getD_indiceDe (Flt.fin q) acoes Flt.ninf hmem
      have halt := indiceDe_lt_length (Flt.fin q) acoes hmem
      rcases hbf.2 _ halt with ⟨hp1a, _, _⟩ | ⟨_, hnf⟩
      · exact hp1a
      · rw [hga] at hnf
        cases hnf
    · exact absurd hp0 hne

theorem maxLista_ninf_cabeca (acoes : List Flt) (h : maxLista acoes = Flt.ninf)
    (hne : acoes ≠ []) : indiceDe Flt.ninf acoes = 0 := by
  cases acoes with
  | nil => exact absurd rfl hne
  | cons x t =>
    have hx : Flt.le x (maxLista (x :: t)) = true :=
      le_maxLista _ _ (List.mem_cons_self x t)
    rw [h] at hx
    cases x with
    | ninf => simp [indiceDe]
    | fin q => simp [Flt.le] at hx
    | inf => simp [Flt.le] at hx

theorem politica_ok_cases (epsilon : ℚ) (acoes : List Flt)
    (permissao : List Nat) (u : ℚ) (pick : Nat) (a : Nat)
    (hbf : BemFormado acoes permissao) (hne : acoes ≠ [])
    (hok : Politica epsilon acoes permissao u pick = .ok a) :
    a < acoes.length ∧ (permissao.getD a 0 = 1 ∨ a = 0) := by
  by_cases hu : u > epsilon
  · have h2 := politica_explora_sound epsilon acoes permissao u pick a hu hbf hok
    exact ⟨h2.1, Or.inl h2.2⟩
  · rw [politica_exploita epsilon acoes permissao u pick hu] at hok
    rw [if_neg (by simpa using hne)] at hok
    have ha : a = indiceDe (maxLista acoes) acoes := by
      cases hok
      rfl
    subst ha
    have hmem := maxLista_mem acoes hne
    refine ⟨indiceDe_lt_length _ _ hmem, ?_⟩
    cases hmx : maxLista acoes with
    | ninf => exact Or.inr (maxLista_ninf_cabeca acoes hmx hne)
    | fin q =>
      left
      have hmemq : Flt.fin q ∈ acoes := hmx ▸ hmem
      have halt := indiceDe_lt_length (Flt.fin q) acoes hmemq
      have hga := getD_indiceDe (Flt.fin q) acoes Flt.ninf hmemq
      rcases hbf.2 _ halt with ⟨hp1a, _, _⟩ | ⟨_, hnf⟩
      · exact hp1a
      · rw [hga] at hnf
        cases hnf
    | inf =>
      have hmemq : Flt.inf ∈ acoes := hmx ▸ hmem
      rcases mem_getD acoes Flt.inf Flt.ninf hmemq with ⟨i, hi, hgi⟩
      rcases hbf.2 i hi with ⟨_, q, hq⟩ | ⟨_, hnf⟩
      · rw [hgi] at hq
        cases hq
      · rw [hgi] at hnf
        cases hnf

theorem politica_explora_ok (epsilon : ℚ) (acoes : List Flt)
    (permissao : List Nat) (u : ℚ) (pick : Nat)
    (hu : u > epsilon) (hs : permissao.sum ≠ 0) :
    Politica epsilon acoes permissao u pick =
      .ok (indiceDe
        (acoes.getD
          ((PosicoesLegais 0 permissao).getD
            (pick % (PosicoesLegais 0 permissao).length) 0) .ninf) acoes) := by
  rw [politica_explora epsilon acoes permissao u pick hu, if_neg hs]

/-- C9: for every distance, next demand and capacity with next demand
different from the capacity, `Recompensa` returns exactly
`-distance / (capacity - nextDemand)`; when the next demand equals the
capacity, the unguarded division by zero makes the call fail, so that error
branch is reachable. -/
theorem c9_recompensa_div (distancia demanda capacidadeVeiculo : ℚ) :
    (demanda ≠ capacidadeVeiculo →
      Recompensa distancia demanda capacidadeVeiculo =
        .ok (-distancia / (capacidadeVeiculo - demanda))) ∧
    (demanda = capacidadeVeiculo →
      Recompensa distancia demanda capacidadeVeiculo = .falha) := by
  constructor
  · intro h
    rw [Recompensa, if_neg]
    intro h2
    exact h (sub_eq_zero.mp h2).symm
  · intro h
    rw [Recompensa, if_pos (by rw [h, sub_self])]

/-- Witness for C9 at concrete inputs: `Recompensa(6, 1, 4) = -2` and
`Recompensa(1, 4, 4)` raises. -/
theorem c9_recompensa_div_witness :
    Recompensa 6 1 4 = .ok (-2) ∧ Recompensa 1 4 4 = .falha := by
  constructor
  · rw [(c9_recompensa_div 6 1 4).1 (by norm_num)]
    norm_num
  · exact (c9_recompensa_div 1 4 4).2 rfl

/-- C5: `ValidaAcoes` returns two vectors of the input's length and, at each
index in range, yields `-inf` / `0` exactly when the node is visited or (in
dynamic-fleet mode only) its demand would overload the route, and otherwise
passes the input value through with legality `1`. -/
theorem c5_validaAcoes_mascara (ap : List ℚ) (lv : List Bool) (dem : ℚ)
    (amb : Ambiente) (din : Bool) (i : Nat) (h : i < ap.length) :
    ((ValidaAcoes ap lv dem amb din).1.length = ap.length ∧
     (ValidaAcoes ap lv dem amb din).2.length = ap.length) ∧
    ((lv.getD i false = true ∨
        (din = true ∧ dem + demandaDe amb i > amb.capacidade)) →
      (ValidaAcoes ap lv dem amb din).1.getD i Flt.ninf = Flt.ninf ∧
      (ValidaAcoes ap lv dem amb din).2.getD i 0 = 0) ∧
    (¬ (lv.getD i false = true ∨
        (din = true ∧ dem + demandaDe amb i > amb.capacidade)) →
      (ValidaAcoes ap lv dem amb din).1.getD i Flt.ninf = Flt.fin (ap.getD i 0) ∧
      (ValidaAcoes ap lv dem amb din).2.getD i 0 = 1) := by
  have hcond : (lv.getD i false = true ∨
      (din = true ∧ dem + demandaDe amb i > amb.capacidade)) ↔
      AcaoInvalida lv dem amb din i := by
    unfold AcaoInvalida
    constructor
    · rintro (h2 | ⟨h2, h3⟩)
      · exact Or.inl h2
      · exact Or.inr ⟨h3, h2⟩
    · rintro (h2 | ⟨h2, h3⟩)
      · exact Or.inl h2
      · exact Or.inr ⟨h3, h2⟩
  refine ⟨⟨validaAcoes_len_acoes ap lv dem amb din,
    validaAcoes_len_perm ap lv dem amb din⟩, ?_, ?_⟩
  · intro h2
    rw [validaAcoes_acoes_getD ap lv dem amb din i h,
      validaAcoes_perm_getD ap lv dem amb din i h,
      if_pos (hcond.mp h2), if_pos (hcond.mp h2)]
    exact ⟨rfl, rfl⟩
  · intro h2
    rw [validaAcoes_acoes_getD ap lv dem amb din i h,
      validaAcoes_perm_getD ap lv dem amb din i h,
      if_neg (fun h3 => h2 (hcond.mpr h3)), if_neg (fun h3 => h2 (hcond.mpr h3))]
    exact ⟨rfl, rfl⟩

/-- Witness for C5 at a concrete environment: index 0 is visited (masked),
index 1 is legal and passes its value through. -/
theorem c5_validaAcoes_mascara_witness :
    (ValidaAcoes [5, 7] [true, false] 0 ⟨[⟨0,0,0⟩, ⟨1,1,3⟩], 10, 1⟩ true).1.getD
        0 Flt.ninf = Flt.ninf ∧
    (ValidaAcoes [5, 7] [true, false] 0 ⟨[⟨0,0,0⟩, ⟨1,1,3⟩], 10, 1⟩ true).1.getD
        1 Flt.ninf = Flt.fin 7 := by
  constructor
  · exact ((c5_validaAcoes_mascara [5, 7] [true, false] 0
      ⟨[⟨0,0,0⟩, ⟨1,1,3⟩], 10, 1⟩ true 0 (by norm_num)).2.1
      (Or.inl (by norm_num))).1
  · have h := ((c5_validaAcoes_mascara [5, 7] [true, false] 0
      ⟨[⟨0,0,0⟩, ⟨1,1,3⟩], 10, 1⟩ true 1 (by norm_num)).2.2 ?_).1
    · simpa using h
    · rintro (h2 | ⟨_, h3⟩)
      · simp at h2
      · revert h3
        norm_num [demandaDe]

/-- C2 counterexample: with the freshly initialized all-zero value table two
legal actions carry the same value `0`; both possible draws of the
exploration branch (`u = 1 > ε = 0`, pick 0 and pick 1, and every pick is
reduced modulo the 2 legal positions) return index 0, so the legal index 1
is never returned — exploration is not uniform over legal actions. -/
theorem c2_contraexemplo :
    Politica 0 [Flt.fin 0, Flt.fin 0] [1, 1] 1 0 = .ok 0 ∧
    Politica 0 [Flt.fin 0, Flt.fin 0] [1, 1] 1 1 = .ok 0 ∧
    (PosicoesLegais 0 [1, 1]).length = 2 ∧
    [1, 1].getD 1 0 = 1 ∧ (1 : Nat) ≠ 0 := by
  refine ⟨?_, ?_, by decide, by decide, by decide⟩ <;> decide

/-- C2 amended: the exploration branch draws a legal position uniformly but
returns the first position of `acoes` holding the drawn value; hence it
always returns a legal index, and it is uniform over the legal indices
exactly when the legal actions' values are pairwise distinct (then the
returned index is the drawn position itself). -/
theorem c2_explora_emendado (epsilon u : ℚ) (pick : Nat) (acoes : List Flt)
    (permissao : List Nat) (hu : u > epsilon)
    (hbf : BemFormado acoes permissao) (hs : permissao.sum ≠ 0) :
    (∃ a, Politica epsilon acoes permissao u pick = .ok a ∧
      a < acoes.length ∧ permissao.getD a 0 = 1) ∧
    ((∀ i, i < acoes.length → ∀ j, j < acoes.length → i < j →
        permissao.getD i 0 = 1 → permissao.getD j 0 = 1 →
        acoes.getD i Flt.ninf ≠ acoes.getD j Flt.ninf) →
      Politica epsilon acoes permissao u pick =
        .ok ((PosicoesLegais 0 permissao).getD
          (pick % (PosicoesLegais 0 permissao).length) 0)) := by
  have hok := politica_explora_ok epsilon acoes permissao u pick hu hs
  have hsound := politica_explora_sound epsilon acoes permissao u pick _ hu hbf hok
  constructor
  · exact ⟨_, hok, hsound.1, hsound.2⟩
  · intro hdist
    rw [hok]
    have hleg := posicoesLegais_ne_nil hs 0
    have hlen : 0 < (PosicoesLegais 0 permissao).length := List.length_pos.mpr hleg
    have hescmem : (PosicoesLegais 0 permissao).getD
        (pick % (PosicoesLegais 0 permissao).length) 0 ∈ PosicoesLegais 0 permissao :=
      getD_mem _ _ _ (Nat.mod_lt pick hlen)
    rcases posicoesLegais_mem hescmem with ⟨i, hi, hesc, hne⟩
    set escolhido := (PosicoesLegais 0 permissao).getD
      (pick % (PosicoesLegais 0 permissao).length) 0 with hescdef
    have hieq : escolhido = i := by omega
    have hilt : i < acoes.length := by rw [← hbf.1]; exact hi
    rcases hbf.2 i hilt with ⟨hp1, q, hq⟩ | ⟨hp0, _⟩
    · have hgq : acoes.getD escolhido Flt.ninf = Flt.fin q := by rw [hieq, hq]
      rw [hgq]
      have hidx : indiceDe (Flt.fin q) acoes = escolhido := by
        refine indiceDe_eq_of_first (Flt.fin q) acoes Flt.ninf escolhido
          (by rw [hieq]; exact hilt) hgq ?_
        intro j hj hjq
        have hjlt : j < acoes.length := lt_trans hj (by rw [hieq]; exact hilt)
        rcases hbf.2 j hjlt with ⟨hpj, qj, hqj⟩ | ⟨_, hnfj⟩
        · exact hdist j hjlt i hilt (by omega) hpj hp1 (by rw [hjq, hq])
        · rw [hjq] at hnfj
          cases hnfj
      rw [hidx]
    · exact absurd hp0 hne

/-- Witness for C2 amended at a concrete input with pairwise distinct legal
values: the draw with pick 1 among the legal positions `[1, 2]` returns 2. -/
theorem c2_explora_emendado_witness :
    Politica 0 [Flt.ninf, Flt.fin 1, Flt.fin 2] [0, 1, 1] 1 1 = .ok 2 := by
  have hbf : BemFormado [Flt.ninf, Flt.fin 1, Flt.fin 2] [0, 1, 1] := by
    refine ⟨rfl, ?_⟩
    intro i hi
    match i with
    | 0 => exact Or.inr ⟨rfl, rfl⟩
    | 1 => exact Or.inl ⟨rfl, 1, rfl⟩
    | 2 => exact Or.inl ⟨rfl, 2, rfl⟩
    | n + 3 => simp at hi
  have h := (c2_explora_emendado 0 1 1 [Flt.ninf, Flt.fin 1, Flt.fin 2] [0, 1, 1]
    (by norm_num) hbf (by decide)).2 ?_
  · rw [h]
    decide
  · intro i hi j hj hij hpi hpj
    simp only [List.length_cons, List.length_nil] at hi hj
    interval_cases i <;> interval_cases j <;> first | omega | decide

/-- C10 counterexample: with zero legal actions the exploration branch does
fail (`u = 1 > ε = 0` divides by zero), but the exploitation branch
(`u = 0 ≤ ε = 1`) returns action index 0 instead of failing. -/
theorem c10_contraexemplo :
    Politica 0 [Flt.ninf, Flt.ninf] [0, 0] 1 0 = .falha ∧
    Politica 1 [Flt.ninf, Flt.ninf] [0, 0] 0 0 = .ok 0 := by
  constructor <;> decide

/-- C10 amended: invoked with an all-zero legality vector, `Politica` fails
only in the exploration branch (`u > ε`, a `ZeroDivisionError`); in the
exploitation branch it returns the index of the first occurrence of the
maximal masked value (index 0 when all values are `-inf`) instead of
failing. -/
theorem c10_sem_acoes_emendado (epsilon u : ℚ) (pick : Nat) (acoes : List Flt)
    (permissao : List Nat) (hz : ∀ x ∈ permissao, x = 0) (hne : acoes ≠ []) :
    (u > epsilon → Politica epsilon acoes permissao u pick = .falha) ∧
    (¬ u > epsilon →
      Politica epsilon acoes permissao u pick =
        .ok (indiceDe (maxLista acoes) acoes)) := by
  constructor
  · intro hu
    rw [politica_explora epsilon acoes permissao u pick hu,
      if_pos (List.sum_eq_zero hz)]
  · intro hu
    rw [politica_exploita epsilon acoes permissao u pick hu,
      if_neg (by simpa using hne)]

/-- Witness for C10 amended: both branches at concrete inputs. -/
theorem c10_sem_acoes_emendado_witness :
    Politica 0 [Flt.ninf] [0] 1 0 = .falha ∧
    Politica 1 [Flt.ninf] [0] 0 0 = .ok 0 := by
  constructor
  · exact (c10_sem_acoes_emendado 0 1 0 [Flt.ninf] [0] (by decide)
      (by decide)).1 (by norm_num)
  · rw [(c10_sem_acoes_emendado 1 0 0 [Flt.ninf] [0] (by decide)
      (by decide)).2 (by norm_num)]
    decide

theorem atualizaRota_demanda (raiz : ℚ → ℚ) (r : Rota) (estado acao : Nat)
    (amb : Ambiente) :
    (AtualizaRota raiz r estado acao amb).1.demanda =
      r.demanda + demandaDe amb acao := rfl

theorem atualizaRota_consumidores (raiz : ℚ → ℚ) (r : Rota) (estado acao : Nat)
    (amb : Ambiente) :
    (AtualizaRota raiz r estado acao amb).1.consumidores =
      r.consumidores ++ [acao] := rfl

theorem addQ_inf (q : ℚ) : Flt.inf.addQ q = Flt.inf := rfl

theorem foldl_addQ_inf (l : List Rota) (acc : Flt) :
    l.foldl (fun _ r => Flt.inf.addQ r.custo) acc =
      if l = [] then acc else Flt.inf := by
  induction l generalizing acc with
  | nil => simp
  | cons a t ih =>
    rw [List.foldl_cons, ih]
    by_cases ht : t = [] <;> simp [ht, Flt.addQ]

theorem distanciaTotalDin_inf (rotas : List Rota) (K : Nat) (hne : rotas ≠ [])
    (hx : rotas.length > K) : DistanciaTotalDin rotas K = Flt.inf := by
  rw [DistanciaTotalDin]
  simp only [if_pos hx]
  rw [foldl_addQ_inf, if_neg hne]

theorem finalizaFixVai_inf (raiz : ℚ → ℚ) (amb : Ambiente) (lambd gama : ℚ)
    (vs : List Nat) (Q V E : Mat) (rotas : List Rota)
    (Q2 V2 E2 : Mat) (rotas2 : List Rota) (total2 : Flt)
    (hok : FinalizaFixVai raiz amb lambd gama vs (Q, V, E, rotas, Flt.inf) =
      .ok (Q2, V2, E2, rotas2, total2)) : total2 = Flt.inf := by
  induction vs generalizing Q V E rotas with
  | nil =>
    rw [FinalizaFixVai] at hok
    cases hok
    rfl
  | cons v resto ih =>
    rw [FinalizaFixVai] at hok
    cases hrec : Recompensa (AtualizaRota raiz (rotas.getD v rotaNova)
        (((rotas.getD v rotaNova).consumidores.getLast?).getD 0) 0 amb).2
        (demandaDe amb 0) amb.capacidade with
    | falha => rw [hrec] at hok; cases hok
    | esgotado => rw [hrec] at hok; cases hok
    | ok recompensa =>
      rw [hrec] at hok
      dsimp only at hok
      simp only [ite_self] at hok
      exact ih _ _ _ _ hok

theorem finalizaFixVai_fora (raiz : ℚ → ℚ) (amb : Ambiente) (lambd gama : ℚ)
    (vs : List Nat) (Q V E : Mat) (rotas : List Rota) (total : Flt)
    (Q2 V2 E2 : Mat) (rotas2 : List Rota) (total2 : Flt)
    (hok : FinalizaFixVai raiz amb lambd gama vs (Q, V, E, rotas, total) =
      .ok (Q2, V2, E2, rotas2, total2)) (w : Nat) (hw : w ∉ vs) :
    rotas2.getD w rotaNova = rotas.getD w rotaNova := by
  induction vs generalizing Q V E rotas total with
  | nil =>
    rw [FinalizaFixVai] at hok
    cases hok
    rfl
  | cons v resto ih =>
    rw [FinalizaFixVai] at hok
    cases hrec : Recompensa (AtualizaRota raiz (rotas.getD v rotaNova)
        (((rotas.getD v rotaNova).consumidores.getLast?).getD 0) 0 amb).2
        (demandaDe amb 0) amb.capacidade with
    | falha => rw [hrec] at hok; cases hok
    | esgotado => rw [hrec] at hok; cases hok
    | ok recompensa =>
      rw [hrec] at hok
      dsimp only at hok
      have hw2 : w ∉ resto := fun h2 => hw (List.mem_cons_of_mem v h2)
      have hwv : w ≠ v := fun h2 => hw (h2 ▸ List.mem_cons_self v resto)
      rw [ih _ _ _ _ _ hok hw2, getD_set_ne _ _ _ _ _ (fun h2 => hwv h2.symm)]

theorem finalizaFixVai_comprimento (raiz : ℚ → ℚ) (amb : Ambiente)
    (lambd gama : ℚ) (vs : List Nat) (Q V E : Mat) (rotas : List Rota)
    (total : Flt) (Q2 V2 E2 : Mat) (rotas2 : List Rota) (total2 : Flt)
    (hok : FinalizaFixVai raiz amb lambd gama vs (Q, V, E, rotas, total) =
      .ok (Q2, V2, E2, rotas2, total2)) : rotas2.length = rotas.length := by
  induction vs generalizing Q V E rotas total with
  | nil =>
    rw [FinalizaFixVai] at hok
    cases hok
    rfl
  | cons v resto ih =>
    rw [FinalizaFixVai] at hok
    cases hrec : Recompensa (AtualizaRota raiz (rotas.getD v rotaNova)
        (((rotas.getD v rotaNova).consumidores.getLast?).getD 0) 0 amb).2
        (demandaDe amb 0) amb.capacidade with
    | falha => rw [hrec] at hok; cases hok
    | esgotado => rw [hrec] at hok; cases hok
    | ok recompensa =>
      rw [hrec] at hok
      dsimp only at hok
      rw [ih _ _ _ _ _ hok, List.length_set]

theorem finalizaFixVai_gatilho (raiz : ℚ → ℚ) (amb : Ambiente) (lambd gama : ℚ)
    (vs : List Nat) (Q V E : Mat) (rotas : List Rota) (total : Flt)
    (Q2 V2 E2 : Mat) (rotas2 : List Rota) (total2 : Flt)
    (hok : FinalizaFixVai raiz amb lambd gama vs (Q, V, E, rotas, total) =
      .ok (Q2, V2, E2, rotas2, total2))
    (v : Nat) (hv : v ∈ vs) (hnodup : vs.Nodup) (hvlt : v < rotas.length)
    (hdem : (rotas2.getD v rotaNova).demanda > amb.capacidade) :
    total2 = Flt.inf := by
  induction vs generalizing Q V E rotas total with
  | nil => cases hv
  | cons u resto ih =>
    rw [FinalizaFixVai] at hok
    cases hrec : Recompensa (AtualizaRota raiz (rotas.getD u rotaNova)
        (((rotas.getD u rotaNova).consumidores.getLast?).getD 0) 0 amb).2
        (demandaDe amb 0) amb.capacidade with
    | falha => rw [hrec] at hok; cases hok
    | esgotado => rw [hrec] at hok; cases hok
    | ok recompensa =>
      rw [hrec] at hok
      dsimp only at hok
      rcases List.mem_cons.mp hv with hvu | hvresto
      · subst hvu
        have hvnot : v ∉ resto := (List.nodup_cons.mp hnodup).1
        have hr2 := finalizaFixVai_fora raiz amb lambd gama resto _ _ _ _ _
          _ _ _ _ _ hok v hvnot
        rw [hr2, getD_set_self _ _ _ _ hvlt] at hdem
        rw [if_pos hdem] at hok
        exact finalizaFixVai_inf raiz amb lambd gama resto _ _ _ _
          _ _ _ _ _ hok
      · have hvu : v ≠ u := by
          intro h2
          subst h2
          exact (List.nodup_cons.mp hnodup).1 hvresto
        exact ih _ _ _ _ _ hok hvresto (List.nodup_cons.mp hnodup).2
          (by rw [List.length_set]; exact hvlt)

theorem finalizaFixVai_demanda (raiz : ℚ → ℚ) (amb : Ambiente) (lambd gama : ℚ)
    (vs : List Nat) (Q V E : Mat) (rotas : List Rota) (total : Flt)
    (Q2 V2 E2 : Mat) (rotas2 : List Rota) (total2 : Flt)
    (hok : FinalizaFixVai raiz amb lambd gama vs (Q, V, E, rotas, total) =
      .ok (Q2, V2, E2, rotas2, total2))
    (v : Nat) (hv : v ∈ vs) (hnodup : vs.Nodup) (hvlt : v < rotas.length) :
    (rotas2.getD v rotaNova).demanda =
      (rotas.getD v rotaNova).demanda + demandaDe amb 0 := by
  induction vs generalizing Q V E rotas total with
  | nil => cases hv
  | cons u resto ih =>
    rw [FinalizaFixVai] at hok
    cases hrec : Recompensa (AtualizaRota raiz (rotas.getD u rotaNova)
        (((rotas.getD u rotaNova).consumidores.getLast?).getD 0) 0 amb).2
        (demandaDe amb 0) amb.capacidade with
    | falha => rw [hrec] at hok; cases hok
    | esgotado => rw [hrec] at hok; cases hok
    | ok recompensa =>
      rw [hrec] at hok
      dsimp only at hok
      rcases List.mem_cons.mp hv with hvu | hvresto
      · subst hvu
        have hvnot : v ∉ resto := (List.nodup_cons.mp hnodup).1
        have hr2 := finalizaFixVai_fora raiz amb lambd gama resto _ _ _ _ _
          _ _ _ _ _ hok v hvnot
        rw [hr2, getD_set_self _ _ _ _ hvlt, atualizaRota_demanda]
      · have hne2 : v ≠ u := by
          intro h2
          subst h2
          exact (List.nodup_cons.mp hnodup).1 hvresto
        have h3 := ih _ _ _ _ _ hok hvresto (List.nodup_cons.mp hnodup).2
          (by rw [List.length_set]; exact hvlt)
        rw [h3, getD_set_ne _ _ _ _ _ (fun h2 => hne2 h2.symm)]

/-- C3: penalty dominance. Dynamic-fleet: when more routes were opened than
the declared fleet size, the reported episode total is `+inf` (the finite
route costs are still added on top of the sentinel). Fixed-fleet: when some
route of the finalized route set has demand exceeding the capacity, the
total reported by the finalization loop is `+inf`; a finite total is never
reported for an infeasible solution. -/
theorem c3_penalidade_infinito :
    (∀ (rotas : List Rota) (veiculos : Nat), rotas ≠ [] →
      rotas.length > veiculos → DistanciaTotalDin rotas veiculos = Flt.inf) ∧
    (∀ (raiz : ℚ → ℚ) (amb : Ambiente) (lambd gama : ℚ) (Q V E : Mat)
      (rotas : List Rota) (Q2 V2 E2 : Mat) (rotas2 : List Rota) (total2 : Flt),
      FinalizaFix raiz amb lambd gama Q V E rotas =
        .ok (Q2, V2, E2, rotas2, total2) →
      (∃ r ∈ rotas2, r.demanda > amb.capacidade) → total2 = Flt.inf) := by
  constructor
  · exact fun rotas veiculos hne hx => distanciaTotalDin_inf rotas veiculos hne hx
  · intro raiz amb lambd gama Q V E rotas Q2 V2 E2 rotas2 total2 hok hex
    rcases hex with ⟨r, hr, hrdem⟩
    rcases mem_getD rotas2 r rotaNova hr with ⟨v, hvlt, hv⟩
    rw [FinalizaFix] at hok
    have hlen := finalizaFixVai_comprimento raiz amb lambd gama _ _ _ _ _ _
      _ _ _ _ _ hok
    refine finalizaFixVai_gatilho raiz amb lambd gama _ _ _ _ _ _ _ _ _ _ _
      hok v ?_ (List.nodup_range _) ?_ ?_
    · rw [List.mem_range, ← hlen]
      exact hvlt
    · rw [← hlen]
      exact hvlt
    · rw [hv]
      exact hrdem

/-- Witness for C3: a dynamic episode that opened 2 routes against a fleet
of 1 reports `+inf`, and a concrete fixed-fleet finalization whose single
route carries demand 5 against capacity 1 reports `+inf`. -/
theorem c3_penalidade_infinito_witness :
    DistanciaTotalDin [rotaNova, rotaNova] 1 = Flt.inf ∧
    (FinalizaFix id ⟨[⟨0,0,0⟩], 1, 1⟩ 0 1 [[0]] [[0]] [[0]] [⟨5,0,[0]⟩] =
      .ok ([[0]], [[1]], [[1]], [⟨5,0,[0,0]⟩], Flt.inf) ∧
     Flt.inf = Flt.inf) := by
  have hrun : FinalizaFix id ⟨[⟨0,0,0⟩], 1, 1⟩ 0 1 [[0]] [[0]] [[0]] [⟨5,0,[0]⟩] =
      .ok ([[0]], [[1]], [[1]], [⟨5,0,[0,0]⟩], Flt.inf) := by
    have hre : Recompensa 0 0 1 = .ok 0 := by norm_num [Recompensa]
    norm_num [FinalizaFix, FinalizaFixVai, AtualizaRota, demandaDe, rotaNova,
      hre, AtualizaQ, mset, mget, TaxaAprendizagem, Flt.addQ]
  refine ⟨c3_penalidade_infinito.1 [rotaNova, rotaNova] 1 (by decide) (by decide),
    hrun, ?_⟩
  exact c3_penalidade_infinito.2 id ⟨[⟨0,0,0⟩], 1, 1⟩ 0 1 [[0]] [[0]] [[0]]
    [⟨5,0,[0]⟩] [[0]] [[1]] [[1]] [⟨5,0,[0,0]⟩] Flt.inf hrun
    ⟨⟨5,0,[0,0]⟩, by norm_num, by norm_num⟩

theorem passoDin_inversao (raiz : ℚ → ℚ) (amb : Ambiente)
    (lambd gama epsilon : ℚ) (r : Rnd) (s s2 : EstDin)
    (hok : PassoDin raiz amb lambd gama epsilon r s = .ok s2) :
    ∃ acao recompensa,
      Politica epsilon
        (ValidaAcoes (s.Q.getD s.estado []) s.listEstadosVisitados
          (s.rotas.getD s.veiculo rotaNova).demanda amb true).1
        (ValidaAcoes (s.Q.getD s.estado []) s.listEstadosVisitados
          (s.rotas.getD s.veiculo rotaNova).demanda amb true).2
        r.u r.pick = .ok acao ∧
      Recompensa
        (AtualizaRota raiz (s.rotas.getD s.veiculo rotaNova) s.estado acao amb).2
        (demandaDe amb acao) amb.capacidade = .ok recompensa ∧
      s2.Q = (AtualizaQ lambd gama
        (TaxaAprendizagem (mget (mset s.QVisitas s.estado acao
          (mget s.QVisitas s.estado acao + 1)) s.estado acao)) recompensa
        (gama * ValorAcaoFuturaDin s.Q acao
          ((ValidaAcoes (s.Q.getD s.estado []) s.listEstadosVisitados
            (s.rotas.getD s.veiculo rotaNova).demanda amb true).1.set acao Flt.ninf))
        s.estado acao
        (AtualizaRota raiz (s.rotas.getD s.veiculo rotaNova) s.estado acao
          amb).1.consumidores s.Q
        (mset s.QElegibilidade s.estado acao
          (mget s.QElegibilidade s.estado acao + 1))).1 ∧
      s2.QVisitas = mset s.QVisitas s.estado acao
        (mget s.QVisitas s.estado acao + 1) ∧
      s2.estado = acao ∧
      ((acao ≠ 0 ∧
        s2.listEstadosVisitados = (s.listEstadosVisitados.set acao true).set 0 false ∧
        s2.rotas = s.rotas.set s.veiculo
          (AtualizaRota raiz (s.rotas.getD s.veiculo rotaNova) s.estado acao amb).1 ∧
        s2.veiculo = s.veiculo) ∨
       (acao = 0 ∧
        s2.listEstadosVisitados = s.listEstadosVisitados.set acao true ∧
        s2.rotas = s.rotas.set s.veiculo
          (AtualizaRota raiz (s.rotas.getD s.veiculo rotaNova) s.estado acao amb).1
          ++ [rotaNova] ∧
        s2.veiculo = s.veiculo + 1) ∨
       (acao = 0 ∧
        s2.listEstadosVisitados = s.listEstadosVisitados.set acao true ∧
        s2.rotas = s.rotas.set s.veiculo
          (AtualizaRota raiz (s.rotas.getD s.veiculo rotaNova) s.estado acao amb).1 ∧
        s2.veiculo = s.veiculo)) := by
  rw [PassoDin] at hok
  cases hpo : Politica epsilon
      (ValidaAcoes (s.Q.getD s.estado []) s.listEstadosVisitados
        (s.rotas.getD s.veiculo rotaNova).demanda amb true).1
      (ValidaAcoes (s.Q.getD s.estado []) s.listEstadosVisitados
        (s.rotas.getD s.veiculo rotaNova).demanda amb true).2
      r.u r.pick with
  | falha => rw [hpo] at hok; cases hok
  | esgotado => rw [hpo] at hok; cases hok
  | ok acao =>
    rw [hpo] at hok
    dsimp only at hok
    cases hrec : Recompensa
        (AtualizaRota raiz (s.rotas.getD s.veiculo rotaNova) s.estado acao amb).2
        (demandaDe amb acao) amb.capacidade with
    | falha => rw [hrec] at hok; cases hok
    | esgotado => rw [hrec] at hok; cases hok
    | ok recompensa =>
      rw [hrec] at hok
      dsimp only at hok
      refine ⟨acao, recompensa, rfl, hrec, ?_⟩
      by_cases hac : acao ≠ 0
      · rw [if_pos hac] at hok
        cases hok
        exact ⟨rfl, rfl, rfl, Or.inl ⟨hac, rfl, rfl, rfl⟩⟩
      · rw [if_neg hac] at hok
        push_neg at hac
        by_cases hcount :
            (s.listEstadosVisitados.set acao true).count false ≠ 0
        · rw [if_pos hcount] at hok
          cases hok
          exact ⟨rfl, rfl, rfl, Or.inr (Or.inl ⟨hac, rfl, rfl, rfl⟩)⟩
        · rw [if_neg hcount] at hok
          cases hok
          exact ⟨rfl, rfl, rfl, Or.inr (Or.inr ⟨hac, rfl, rfl, rfl⟩)⟩

theorem passoDDin_inversao (raiz : ℚ → ℚ) (amb : Ambiente)
    (lambd gama epsilon : ℚ) (r : Rnd) (s s2 : EstDDin)
    (hok : PassoDDin raiz amb lambd gama epsilon r s = .ok s2) :
    ∃ acao recompensa,
      Politica epsilon
        (ValidaAcoes (List.zipWith (· + ·) (s.Q1.getD s.estado [])
            (s.Q2.getD s.estado [])) s.listEstadosVisitados
          (s.rotas.getD s.veiculo rotaNova).demanda amb true).1
        (ValidaAcoes (List.zipWith (· + ·) (s.Q1.getD s.estado [])
            (s.Q2.getD s.estado [])) s.listEstadosVisitados
          (s.rotas.getD s.veiculo rotaNova).demanda amb true).2
        r.u r.pick = .ok acao ∧
      Recompensa
        (AtualizaRota raiz (s.rotas.getD s.veiculo rotaNova) s.estado acao amb).2
        (demandaDe amb acao) amb.capacidade = .ok recompensa ∧
      s2.QVisitas = mset s.QVisitas s.estado acao
        (mget s.QVisitas s.estado acao + 1) ∧
      s2.estado = acao ∧
      ((r.moeda = true ∧
        s2.Q1 = (AtualizaQ lambd gama
          (TaxaAprendizagem (mget (mset s.QVisitas s.estado acao
            (mget s.QVisitas s.estado acao + 1)) s.estado acao)) recompensa
          (gama * ValorAcaoFuturaDin s.Q2 acao
            ((ValidaAcoes (List.zipWith (· + ·) (s.Q1.getD s.estado [])
                (s.Q2.getD s.estado [])) s.listEstadosVisitados
              (s.rotas.getD s.veiculo rotaNova).demanda amb true).1.set acao
                Flt.ninf))
          s.estado acao
          (AtualizaRota raiz (s.rotas.getD s.veiculo rotaNova) s.estado acao
            amb).1.consumidores s.Q1
          (mset s.QElegibilidade s.estado acao
            (mget s.QElegibilidade s.estado acao + 1))).1 ∧
        s2.Q2 = s.Q2) ∨
       (r.moeda = false ∧
        s2.Q1 = s.Q1 ∧
        s2.Q2 = (AtualizaQ lambd gama
          (TaxaAprendizagem (mget (mset s.QVisitas s.estado acao
            (mget s.QVisitas s.estado acao + 1)) s.estado acao)) recompensa
          (gama * ValorAcaoFuturaDin s.Q1 acao
            ((ValidaAcoes (List.zipWith (· + ·) (s.Q1.getD s.estado [])
                (s.Q2.getD s.estado [])) s.listEstadosVisitados
              (s.rotas.getD s.veiculo rotaNova).demanda amb true).1.set acao
                Flt.ninf))
          s.estado acao
          (AtualizaRota raiz (s.rotas.getD s.veiculo rotaNova) s.estado acao
            amb).1.consumidores s.Q2
          (mset s.QElegibilidade s.estado acao
            (mget s.QElegibilidade s.estado acao + 1))).1)) ∧
      ((acao ≠ 0 ∧
        s2.listEstadosVisitados = (s.listEstadosVisitados.set acao true).set 0 false ∧
        s2.rotas = s.rotas.set s.veiculo
          (AtualizaRota raiz (s.rotas.getD s.veiculo rotaNova) s.estado acao amb).1 ∧
        s2.veiculo = s.veiculo) ∨
       (acao = 0 ∧
        s2.listEstadosVisitados = s.listEstadosVisitados.set acao true ∧
        s2.rotas = s.rotas.set s.veiculo
          (AtualizaRota raiz (s.rotas.getD s.veiculo rotaNova) s.estado acao amb).1
          ++ [rotaNova] ∧
        s2.veiculo = s.veiculo + 1) ∨
       (acao = 0 ∧
        s2.listEstadosVisitados = s.listEstadosVisitados.set acao true ∧
        s2.rotas = s.rotas.set s.veiculo
          (AtualizaRota raiz (s.rotas.getD s.veiculo rotaNova) s.estado acao amb).1 ∧
        s2.veiculo = s.veiculo)) := by
  rw [PassoDDin] at hok
  cases hpo : Politica epsilon
      (ValidaAcoes (List.zipWith (· + ·) (s.Q1.getD s.estado [])
          (s.Q2.getD s.estado [])) s.listEstadosVisitados
        (s.rotas.getD s.veiculo rotaNova).demanda amb true).1
      (ValidaAcoes (List.zipWith (· + ·) (s.Q1.getD s.estado [])
          (s.Q2.getD s.estado [])) s.listEstadosVisitados
        (s.rotas.getD s.veiculo rotaNova).demanda amb true).2
      r.u r.pick with
  | falha => rw [hpo] at hok; cases hok
  | esgotado => rw [hpo] at hok; cases hok
  | ok acao =>
    rw [hpo] at hok
    dsimp only at hok
    cases hrec : Recompensa
        (AtualizaRota raiz (s.rotas.getD s.veiculo rotaNova) s.estado acao amb).2
        (demandaDe amb acao) amb.capacidade with
    | falha => rw [hrec] at hok; cases hok
    | esgotado => rw [hrec] at hok; cases hok
    | ok recompensa =>
      rw [hrec] at hok
      dsimp only at hok
      refine ⟨acao, recompensa, rfl, hrec, ?_⟩
      by_cases hmo : r.moeda
      · rw [if_pos hmo] at hok
        by_cases hac : acao ≠ 0
        · rw [if_pos hac] at hok
          cases hok
          exact ⟨rfl, rfl, Or.inl ⟨hmo, rfl, rfl⟩, Or.inl ⟨hac, rfl, rfl, rfl⟩⟩
        · rw [if_neg hac] at hok
          push_neg at hac
          by_cases hcount :
              (s.listEstadosVisitados.set acao true).count false ≠ 0
          · rw [if_pos hcount] at hok
            cases hok
            exact ⟨rfl, rfl, Or.inl ⟨hmo, rfl, rfl⟩,
              Or.inr (Or.inl ⟨hac, rfl, rfl, rfl⟩)⟩
          · rw [if_neg hcount] at hok
            cases hok
            exact ⟨rfl, rfl, Or.inl ⟨hmo, rfl, rfl⟩,
              Or.inr (Or.inr ⟨hac, rfl, rfl, rfl⟩)⟩
      · rw [if_neg hmo] at hok
        have hmo2 : r.moeda = false := by simpa using hmo
        by_cases hac : acao ≠ 0
        · rw [if_pos hac] at hok
          cases hok
          exact ⟨rfl, rfl, Or.inr ⟨hmo2, rfl, rfl⟩, Or.inl ⟨hac, rfl, rfl, rfl⟩⟩
        · rw [if_neg hac] at hok
          push_neg at hac
          by_cases hcount :
              (s.listEstadosVisitados.set acao true).count false ≠ 0
          · rw [if_pos hcount] at hok
            cases hok
            exact ⟨rfl, rfl, Or.inr ⟨hmo2, rfl, rfl⟩,
              Or.inr (Or.inl ⟨hac, rfl, rfl, rfl⟩)⟩
          · rw [if_neg hcount] at hok
            cases hok
            exact ⟨rfl, rfl, Or.inr ⟨hmo2, rfl, rfl⟩,
              Or.inr (Or.inr ⟨hac, rfl, rfl, rfl⟩)⟩

theorem passoFix_inversao (raiz : ℚ → ℚ) (amb : Ambiente)
    (lambd gama epsilon : ℚ) (r : Rnd) (s s2 : EstFix)
    (hok : PassoFix raiz amb lambd gama epsilon r s = .ok s2) :
    ∃ veiculo estado acao recompensa,
      EscolheRota s.rotas = .ok veiculo ∧
      estado = ((s.rotas.getD veiculo rotaNova).consumidores.getLast?).getD 0 ∧
      Politica epsilon
        (ValidaAcoes (s.Q.getD estado []) s.listEstadosVisitados
          (s.rotas.getD veiculo rotaNova).demanda amb false).1
        (ValidaAcoes (s.Q.getD estado []) s.listEstadosVisitados
          (s.rotas.getD veiculo rotaNova).demanda amb false).2
        r.u r.pick = .ok acao ∧
      Recompensa
        (AtualizaRota raiz (s.rotas.getD veiculo rotaNova) estado acao amb).2
        (demandaDe amb acao) amb.capacidade = .ok recompensa ∧
      s2.Q = (AtualizaQ lambd gama
        (TaxaAprendizagem (mget (mset s.QVisitas estado acao
          (mget s.QVisitas estado acao + 1)) estado acao)) recompensa
        (gama * ValorAcaoFuturaFix s.Q acao
          ((ValidaAcoes (s.Q.getD estado []) s.listEstadosVisitados
            (s.rotas.getD veiculo rotaNova).demanda amb false).1.set acao Flt.ninf))
        estado acao
        (AtualizaRota raiz (s.rotas.getD veiculo rotaNova) estado acao
          amb).1.consumidores s.Q
        (mset s.QElegibilidade estado acao
          (mget s.QElegibilidade estado acao + 1))).1 ∧
      s2.QVisitas = mset s.QVisitas estado acao
        (mget s.QVisitas estado acao + 1) ∧
      s2.listEstadosVisitados = s.listEstadosVisitados.set acao true ∧
      s2.rotas = s.rotas.set veiculo
        (AtualizaRota raiz (s.rotas.getD veiculo rotaNova) estado acao amb).1 := by
  rw [PassoFix] at hok
  cases hes : EscolheRota s.rotas with
  | falha => rw [hes] at hok; cases hok
  | esgotado => rw [hes] at hok; cases hok
  | ok veiculo =>
    rw [hes] at hok
    dsimp only at hok
    cases hpo : Politica epsilon
        (ValidaAcoes (s.Q.getD
            (((s.rotas.getD veiculo rotaNova).consumidores.getLast?).getD 0) [])
          s.listEstadosVisitados
          (s.rotas.getD veiculo rotaNova).demanda amb false).1
        (ValidaAcoes (s.Q.getD
            (((s.rotas.getD veiculo rotaNova).consumidores.getLast?).getD 0) [])
          s.listEstadosVisitados
          (s.rotas.getD veiculo rotaNova).demanda amb false).2
        r.u r.pick with
    | falha => rw [hpo] at hok; cases hok
    | esgotado => rw [hpo] at hok; cases hok
    | ok acao =>
      rw [hpo] at hok
      dsimp only at hok
      cases hrec : Recompensa
          (AtualizaRota raiz (s.rotas.getD veiculo rotaNova)
            (((s.rotas.getD veiculo rotaNova).consumidores.getLast?).getD 0)
            acao amb).2
          (demandaDe amb acao) amb.capacidade with
      | falha => rw [hrec] at hok; cases hok
      | esgotado => rw [hrec] at hok; cases hok
      | ok recompensa =>
        rw [hrec] at hok
        dsimp only at hok
        cases hok
        exact ⟨veiculo, _, acao, recompensa, rfl, rfl, hpo, hrec,
          rfl, rfl, rfl, rfl⟩

theorem passoDFix_inversao (raiz : ℚ → ℚ) (amb : Ambiente)
    (lambd gama epsilon : ℚ) (r : Rnd) (s s2 : EstDFix)
    (hok : PassoDFix raiz amb lambd gama epsilon r s = .ok s2) :
    ∃ veiculo estado acao recompensa,
      EscolheRota s.rotas = .ok veiculo ∧
      estado = ((s.rotas.getD veiculo rotaNova).consumidores.getLast?).getD 0 ∧
      Politica epsilon
        (ValidaAcoes (List.zipWith (· + ·) (s.Q1.getD estado [])
            (s.Q2.getD estado [])) s.listEstadosVisitados
          (s.rotas.getD veiculo rotaNova).demanda amb false).1
        (ValidaAcoes (List.zipWith (· + ·) (s.Q1.getD estado [])
            (s.Q2.getD estado [])) s.listEstadosVisitados
          (s.rotas.getD veiculo rotaNova).demanda amb false).2
        r.u r.pick = .ok acao ∧
      Recompensa
        (AtualizaRota raiz (s.rotas.getD veiculo rotaNova) estado acao amb).2
        (demandaDe amb acao) amb.capacidade = .ok recompensa ∧
      ((r.moeda = true ∧
        (∃ taxa rec fut cons E, s2.Q1 =
          (AtualizaQ lambd gama taxa rec fut estado acao cons s.Q1 E).1) ∧
        s2.Q2 = s.Q2) ∨
       (r.moeda = false ∧ s2.Q1 = s.Q1 ∧
        (∃ taxa rec fut cons E, s2.Q2 =
          (AtualizaQ lambd gama taxa rec fut estado acao cons s.Q2 E).1))) ∧
      s2.QVisitas = mset s.QVisitas estado acao
        (mget s.QVisitas estado acao + 1) ∧
      s2.listEstadosVisitados = s.listEstadosVisitados.set acao true ∧
      s2.rotas = s.rotas.set veiculo
        (AtualizaRota raiz (s.rotas.getD veiculo rotaNova) estado acao amb).1 := by
  rw [PassoDFix] at hok
  cases hes : EscolheRota s.rotas with
  | falha => rw [hes] at hok; cases hok
  | esgotado => rw [hes] at hok; cases hok
  | ok veiculo =>
    rw [hes] at hok
    dsimp only at hok
    cases hpo : Politica epsilon
        (ValidaAcoes (List.zipWith (· + ·)
            (s.Q1.getD
              (((s.rotas.getD veiculo rotaNova).consumidores.getLast?).getD 0) [])
            (s.Q2.getD
              (((s.rotas.getD veiculo rotaNova).consumidores.getLast?).getD 0) []))
          s.listEstadosVisitados
          (s.rotas.getD veiculo rotaNova).demanda amb false).1
        (ValidaAcoes (List.zipWith (· + ·)
            (s.Q1.getD
              (((s.rotas.getD veiculo rotaNova).consumidores.getLast?).getD 0) [])
            (s.Q2.getD
              (((s.rotas.getD veiculo rotaNova).consumidores.getLast?).getD 0) []))
          s.listEstadosVisitados
          (s.rotas.getD veiculo rotaNova).demanda amb false).2
        r.u r.pick with
    | falha => rw [hpo] at hok; cases hok
    | esgotado => rw [hpo] at hok; cases hok
    | ok acao =>
      rw [hpo] at hok
      dsimp only at hok
      cases hrec : Recompensa
          (AtualizaRota raiz (s.rotas.getD veiculo rotaNova)
            (((s.rotas.getD veiculo rotaNova).consumidores.getLast?).getD 0)
            acao amb).2
          (demandaDe amb acao) amb.capacidade with
      | falha => rw [hrec] at hok; cases hok
      | esgotado => rw [hrec] at hok; cases hok
      | ok recompensa =>
        rw [hrec] at hok
        dsimp only at hok
        by_cases hmo : r.moeda
        · rw [if_pos hmo] at hok
          cases hok
          exact ⟨veiculo, _, acao, recompensa, rfl, rfl, hpo, hrec,
            Or.inl ⟨hmo, ⟨_, _, _, _, _, rfl⟩, rfl⟩, rfl, rfl, rfl⟩
        · rw [if_neg hmo] at hok
          cases hok
          exact ⟨veiculo, _, acao, recompensa, rfl, rfl, hpo, hrec,
            Or.inr ⟨by simpa using hmo, rfl, ⟨_, _, _, _, _, rfl⟩⟩, rfl, rfl, rfl⟩

theorem mget_mset_ne (m : Mat) (i j : Nat) (v : ℚ) (x y : Nat)
    (h : ¬ (x = i ∧ y = j)) : mget (mset m i j v) x y = mget m x y := by
  rw [mget, mset, mget]
  by_cases hx : x = i
  · subst hx
    have hy : y ≠ j := fun h2 => h ⟨rfl, h2⟩
    by_cases hi : x < m.length
    · rw [getD_set_self _ _ _ _ hi, getD_set_ne _ _ _ _ _ (fun h2 => hy h2.symm)]
    · rw [List.set_eq_of_length_le (Nat.le_of_not_lt hi)]
  · rw [getD_set_ne _ _ _ _ _ (fun h2 => hx h2.symm)]

theorem mget_mset_self (m : Mat) (i j : Nat) (v : ℚ)
    (hi : i < m.length) (hj : j < (m.getD i []).length) :
    mget (mset m i j v) i j = v := by
  rw [mget, mset, getD_set_self _ _ _ _ hi, getD_set_self _ _ _ _ hj]

/-- C8: with trace decay `lambda = 0`, a construction step of the
single-table variants changes the value table only at the single pair
`(estado, acao)` — in the dynamic variant `(s.estado, s2.estado)`, in the
fixed variant the pair given by the step's own selections (the route chosen
by `EscolheRota`, its last node as `estado`, the `Politica` draw as `acao`)
— adding there the learning rate times the TD error (reward plus discounted
bootstrap minus the old entry) and leaving every other entry unchanged. -/
theorem c8_lambda0_quadro :
    (∀ (raiz : ℚ → ℚ) (amb : Ambiente) (gama epsilon : ℚ) (r : Rnd)
      (s s2 : EstDin), PassoDin raiz amb 0 gama epsilon r s = .ok s2 →
      (∀ i j, ¬ (i = s.estado ∧ j = s2.estado) → mget s2.Q i j = mget s.Q i j) ∧
      (s.estado < s.Q.length → s2.estado < (s.Q.getD s.estado []).length →
        ∃ recompensa,
          Recompensa (AtualizaRota raiz (s.rotas.getD s.veiculo rotaNova)
              s.estado s2.estado amb).2
            (demandaDe amb s2.estado) amb.capacidade = .ok recompensa ∧
          mget s2.Q s.estado s2.estado =
            mget s.Q s.estado s2.estado +
              TaxaAprendizagem (mget s2.QVisitas s.estado s2.estado) *
                (recompensa +
                  gama * ValorAcaoFuturaDin s.Q s2.estado
                    ((ValidaAcoes (s.Q.getD s.estado []) s.listEstadosVisitados
                      (s.rotas.getD s.veiculo rotaNova).demanda amb true).1.set
                        s2.estado Flt.ninf) -
                  mget s.Q s.estado s2.estado))) ∧
    (∀ (raiz : ℚ → ℚ) (amb : Ambiente) (gama epsilon : ℚ) (r : Rnd)
      (s s2 : EstFix), PassoFix raiz amb 0 gama epsilon r s = .ok s2 →
      ∃ veiculo estado acao recompensa,
        EscolheRota s.rotas = .ok veiculo ∧
        estado =
          (((s.rotas.getD veiculo rotaNova).consumidores.getLast?).getD 0) ∧
        Politica epsilon
          (ValidaAcoes (s.Q.getD estado []) s.listEstadosVisitados
            (s.rotas.getD veiculo rotaNova).demanda amb false).1
          (ValidaAcoes (s.Q.getD estado []) s.listEstadosVisitados
            (s.rotas.getD veiculo rotaNova).demanda amb false).2
          r.u r.pick = .ok acao ∧
        Recompensa
          (AtualizaRota raiz (s.rotas.getD veiculo rotaNova) estado acao amb).2
          (demandaDe amb acao) amb.capacidade = .ok recompensa ∧
        (∀ i j, ¬ (i = estado ∧ j = acao) → mget s2.Q i j = mget s.Q i j) ∧
        (estado < s.Q.length → acao < (s.Q.getD estado []).length →
          mget s2.Q estado acao =
            mget s.Q estado acao +
              TaxaAprendizagem (mget s2.QVisitas estado acao) *
                (recompensa +
                  gama * ValorAcaoFuturaFix s.Q acao
                    ((ValidaAcoes (s.Q.getD estado []) s.listEstadosVisitados
                      (s.rotas.getD veiculo rotaNova).demanda amb false).1.set
                        acao Flt.ninf) -
                  mget s.Q estado acao))) := by
  constructor
  · intro raiz amb gama epsilon r s s2 hok
    rcases passoDin_inversao raiz amb 0 gama epsilon r s s2 hok with
      ⟨acao, recompensa, hpo, hrec, hQ, hV, hest, _⟩
    rw [AtualizaQ, if_pos rfl] at hQ
    constructor
    · intro i j hij
      rw [hest] at hij
      rw [hQ]
      exact mget_mset_ne s.Q s.estado acao _ i j hij
    · intro hi hj
      rw [hest] at hj ⊢
      refine ⟨recompensa, hrec, ?_⟩
      rw [hQ, hV, mget_mset_self s.Q s.estado acao _ hi hj]
  · intro raiz amb gama epsilon r s s2 hok
    rcases passoFix_inversao raiz amb 0 gama epsilon r s s2 hok with
      ⟨veiculo, estado, acao, recompensa, hes, hestdef, hpo, hrec, hQ, hV,
        hvis, hrot⟩
    rw [AtualizaQ, if_pos rfl] at hQ
    refine ⟨veiculo, estado, acao, recompensa, hes, hestdef, hpo, hrec,
      ?_, ?_⟩
    · intro i j hij
      rw [hQ]
      exact mget_mset_ne s.Q estado acao _ i j hij
    · intro hi hj
      rw [hQ, hV, mget_mset_self s.Q estado acao _ hi hj]

/-- Witness for C8: a concrete `lambda = 0` dynamic step updates only
`Q[0][0]` (the entry `(0, 1)` is untouched), and a concrete `lambda = 0`
fixed-fleet step (table `[[3]]`, discount 2) keeps every entry off the pair
`(estado, acao)` selected by the step and moves `Q[estado][acao]` from 3 to
9/2, exactly the learning rate 1/2 times the TD error `0 + 2*3 - 3`. -/
theorem c8_lambda0_quadro_witness :
    (PassoDin id ⟨[⟨0,0,0⟩], 1, 1⟩ 0 1 1 ⟨0, 0, true⟩
      (InicioDin ⟨[⟨0,0,0⟩], 1, 1⟩ [[3]] (CriaMatriz 1)) =
      .ok ⟨[[3/2]], [[1]], [[1]], [true], [⟨0,0,[0,0]⟩], 0, 0⟩ ∧
    mget [[3/2]] 0 1 = mget [[3]] 0 1) ∧
    (PassoFix id ⟨[⟨0,0,0⟩], 1, 1⟩ 0 2 1 ⟨0, 0, true⟩
      (InicioFix ⟨[⟨0,0,0⟩], 1, 1⟩ [[3]] (CriaMatriz 1)) =
      .ok ⟨[[9/2]], [[1]], [[1]], [true], [⟨0,0,[0,0]⟩]⟩ ∧
    (∃ veiculo estado acao recompensa,
      EscolheRota [(⟨0, 0, [0]⟩ : Rota)] = .ok veiculo ∧
      estado = ((([(⟨0, 0, [0]⟩ : Rota)].getD veiculo
        rotaNova).consumidores.getLast?).getD 0) ∧
      Politica 1
        (ValidaAcoes (([[3]] : Mat).getD estado []) [true]
          ([(⟨0, 0, [0]⟩ : Rota)].getD veiculo rotaNova).demanda
          ⟨[⟨0,0,0⟩], 1, 1⟩ false).1
        (ValidaAcoes (([[3]] : Mat).getD estado []) [true]
          ([(⟨0, 0, [0]⟩ : Rota)].getD veiculo rotaNova).demanda
          ⟨[⟨0,0,0⟩], 1, 1⟩ false).2
        0 0 = .ok acao ∧
      Recompensa
        (AtualizaRota id ([(⟨0, 0, [0]⟩ : Rota)].getD veiculo rotaNova)
          estado acao ⟨[⟨0,0,0⟩], 1, 1⟩).2
        (demandaDe ⟨[⟨0,0,0⟩], 1, 1⟩ acao) 1 = .ok recompensa ∧
      (∀ i j, ¬ (i = estado ∧ j = acao) →
        mget [[9/2]] i j = mget [[3]] i j) ∧
      (estado < ([[3]] : Mat).length →
        acao < (([[3]] : Mat).getD estado []).length →
        mget [[9/2]] estado acao =
          mget [[3]] estado acao +
            TaxaAprendizagem (mget [[1]] estado acao) *
              (recompensa +
                2 * ValorAcaoFuturaFix [[3]] acao
                  ((ValidaAcoes (([[3]] : Mat).getD estado []) [true]
                    ([(⟨0, 0, [0]⟩ : Rota)].getD veiculo rotaNova).demanda
                    ⟨[⟨0,0,0⟩], 1, 1⟩ false).1.set acao Flt.ninf) -
                mget [[3]] estado acao)))) := by
  have hva : ValidaAcoes [3] [true] 0 ⟨[⟨0,0,0⟩], 1, 1⟩ true =
      ([Flt.ninf], [0]) := by
    norm_num [ValidaAcoes, ValidaAcoesVai, AcaoInvalida, demandaDe]
  have hpo : Politica 1 [Flt.ninf] [0] 0 0 = .ok 0 := by
    norm_num [Politica, indiceDe, maxLista]
  have hre : Recompensa 0 0 1 = .ok 0 := by norm_num [Recompensa]
  have hfv : ValorAcaoFuturaDin [[3]] 0 [Flt.ninf] = 0 := by
    norm_num [ValorAcaoFuturaDin]
  have hrun : PassoDin id ⟨[⟨0,0,0⟩], 1, 1⟩ 0 1 1 ⟨0, 0, true⟩
      (InicioDin ⟨[⟨0,0,0⟩], 1, 1⟩ [[3]] (CriaMatriz 1)) =
      .ok ⟨[[3/2]], [[1]], [[1]], [true], [⟨0,0,[0,0]⟩], 0, 0⟩ := by
    norm_num [PassoDin, InicioDin, CriaMatriz, VisitadosIniciais,
      List.replicate, rotaNova, hva, hpo, hre, hfv, AtualizaRota, AtualizaQ,
      mset, mget, TaxaAprendizagem, demandaDe]
  have hvaF : ValidaAcoes [3] [true] 0 ⟨[⟨0,0,0⟩], 1, 1⟩ false =
      ([Flt.ninf], [0]) := by
    norm_num [ValidaAcoes, ValidaAcoesVai, AcaoInvalida, demandaDe]
  have hfvF : ValorAcaoFuturaFix [[3]] 0 [Flt.ninf] = 3 := by
    norm_num [ValorAcaoFuturaFix, mget]
  have hesc : EscolheRota [(⟨0, 0, [0]⟩ : Rota)] = .ok 0 := by
    norm_num [EscolheRota, minLista, indiceDe]
  have hrunF : PassoFix id ⟨[⟨0,0,0⟩], 1, 1⟩ 0 2 1 ⟨0, 0, true⟩
      (InicioFix ⟨[⟨0,0,0⟩], 1, 1⟩ [[3]] (CriaMatriz 1)) =
      .ok ⟨[[9/2]], [[1]], [[1]], [true], [⟨0,0,[0,0]⟩]⟩ := by
    norm_num [PassoFix, InicioFix, CriaMatriz, VisitadosIniciais, CriaRotas,
      List.replicate, rotaNova, hvaF, hpo, hre, hfvF, hesc, AtualizaRota,
      AtualizaQ, mset, mget, TaxaAprendizagem, demandaDe]
  refine ⟨⟨hrun, ?_⟩, hrunF, ?_⟩
  · exact (c8_lambda0_quadro.1 id ⟨[⟨0,0,0⟩], 1, 1⟩ 1 1 ⟨0, 0, true⟩
      (InicioDin ⟨[⟨0,0,0⟩], 1, 1⟩ [[3]] (CriaMatriz 1))
      ⟨[[3/2]], [[1]], [[1]], [true], [⟨0,0,[0,0]⟩], 0, 0⟩ hrun).1 0 1 (by simp)
  · exact c8_lambda0_quadro.2 id ⟨[⟨0,0,0⟩], 1, 1⟩ 2 1 ⟨0, 0, true⟩
      (InicioFix ⟨[⟨0,0,0⟩], 1, 1⟩ [[3]] (CriaMatriz 1))
      ⟨[[9/2]], [[1]], [[1]], [true], [⟨0,0,[0,0]⟩]⟩ hrunF

/-- C1 counterexample: a concrete dynamic-fleet step (4 nodes at the origin,
demands 0/1/1/1, capacity 10, greedy selection picks action 1 from state 0)
updates `Q[0][1]` to `5`, using `Q[1][MaxQ(acoes)] = Q[1][2] = 0` as
bootstrap — whereas the claim's bootstrap, the maximum legal-masked value
from the newly reached node 1, is `Q[1][3] = 100`, which would have given
`10 + 1/2 * (0 + 1*100 - 10) = 55`.  The futureValue used is not the
maximum over actions legal from the new node. -/
theorem c1_contraexemplo :
    PassoDin id ⟨[⟨0,0,0⟩, ⟨0,0,1⟩, ⟨0,0,1⟩, ⟨0,0,1⟩], 10, 5⟩ 0 1 1 ⟨0, 0, true⟩
      (InicioDin ⟨[⟨0,0,0⟩, ⟨0,0,1⟩, ⟨0,0,1⟩, ⟨0,0,1⟩], 10, 5⟩
        [[0,10,5,1],[0,0,0,100],[0,0,0,0],[0,0,0,0]] (CriaMatriz 4)) =
      .ok ⟨[[0,5,5,1],[0,0,0,100],[0,0,0,0],[0,0,0,0]],
           [[0,1,0,0],[0,0,0,0],[0,0,0,0],[0,0,0,0]],
           [[0,1,0,0],[0,0,0,0],[0,0,0,0],[0,0,0,0]],
           [false,true,false,false], [⟨1,0,[0,1]⟩], 0, 1⟩ ∧
    mget [[0,5,5,1],[0,0,0,100],[0,0,0,0],[0,0,0,0]] 0 1 = 5 ∧
    ValorFuturoEspecDin [[0,10,5,1],[0,0,0,100],[0,0,0,0],[0,0,0,0]] 1
      [false,true,false,false] 1 ⟨[⟨0,0,0⟩, ⟨0,0,1⟩, ⟨0,0,1⟩, ⟨0,0,1⟩], 10, 5⟩ =
      100 ∧
    (5 : ℚ) ≠ 10 + TaxaAprendizagem 1 * (0 + 1 * 100 - 10) := by
  have hva : ValidaAcoes [0,10,5,1] [true,false,false,false] 0
      ⟨[⟨0,0,0⟩, ⟨0,0,1⟩, ⟨0,0,1⟩, ⟨0,0,1⟩], 10, 5⟩ true =
      ([Flt.ninf, Flt.fin 10, Flt.fin 5, Flt.fin 1], [0,1,1,1]) := by
    norm_num [ValidaAcoes, ValidaAcoesVai, AcaoInvalida, demandaDe]
  have hpo : Politica 1 [Flt.ninf, Flt.fin 10, Flt.fin 5, Flt.fin 1] [0,1,1,1]
      0 0 = .ok 1 := by
    norm_num [Politica, indiceDe, maxLista, maxF_ninf_esq, maxF_fin_ninf,
      maxF_fin_fin_le, maxF_fin_fin_nle, Flt.ninf_eq_fin, Flt.fin_eq_ninf]
  have hre : Recompensa 0 1 10 = .ok 0 := by norm_num [Recompensa]
  have hfv : ValorAcaoFuturaDin [[0,10,5,1],[0,0,0,100],[0,0,0,0],[0,0,0,0]] 1
      [Flt.ninf, Flt.ninf, Flt.fin 5, Flt.fin 1] = 0 := by
    norm_num [ValorAcaoFuturaDin, MaxQ, indiceDe, maxLista, maxF_ninf_esq,
      maxF_fin_ninf, maxF_fin_fin_le, maxF_fin_fin_nle, mget,
      Flt.ninf_eq_fin, Flt.fin_eq_ninf]
  refine ⟨?_, by norm_num [mget], ?_, by norm_num [TaxaAprendizagem]⟩
  · norm_num [PassoDin, InicioDin, CriaMatriz, VisitadosIniciais,
      List.replicate, rotaNova, hva, hpo, hre, hfv, AtualizaRota, AtualizaQ,
      mset, mget, TaxaAprendizagem, demandaDe]
  · have hva2 : ValidaAcoes [0,0,0,100] [false,true,false,false] 1
        ⟨[⟨0,0,0⟩, ⟨0,0,1⟩, ⟨0,0,1⟩, ⟨0,0,1⟩], 10, 5⟩ true =
        ([Flt.fin 0, Flt.ninf, Flt.fin 0, Flt.fin 100], [1,0,1,1]) := by
      norm_num [ValidaAcoes, ValidaAcoesVai, AcaoInvalida, demandaDe]
    norm_num [ValorFuturoEspecDin, hva2, maxLista, maxF_ninf_esq,
      maxF_fin_ninf, maxF_fin_fin_le, maxF_fin_fin_nle, Flt.parteFin]

/-- C1 amended: in each cited variant, with trace decay 0 the step updates
`Q[estado][acao]` with the bootstrap produced by `ValorAcaoFuturaDin`
(resp. `ValorAcaoFuturaFix`, and the *other* table as source in the double
variant): `0` (resp. `Q[acao][0]`) when every entry of the working masked
vector — derived from the *current* state's row, with `acao` masked out — is
`-inf`, and otherwise `Qfonte[acao][j]` where `j` is the first index
attaining the maximum of that same current-state masked vector; this need
not be the maximum of `Qfonte[acao]` over actions legal from `acao`. -/
theorem c1_valorFuturo_emendado :
    (∀ (raiz : ℚ → ℚ) (amb : Ambiente) (gama epsilon : ℚ) (r : Rnd)
      (s s2 : EstDin), PassoDin raiz amb 0 gama epsilon r s = .ok s2 →
      s.estado < s.Q.length → s2.estado < (s.Q.getD s.estado []).length →
      ∃ recompensa,
        Recompensa (AtualizaRota raiz (s.rotas.getD s.veiculo rotaNova)
            s.estado s2.estado amb).2
          (demandaDe amb s2.estado) amb.capacidade = .ok recompensa ∧
        mget s2.Q s.estado s2.estado =
          mget s.Q s.estado s2.estado +
            TaxaAprendizagem (mget s2.QVisitas s.estado s2.estado) *
              (recompensa +
                gama * ValorAcaoFuturaDin s.Q s2.estado
                  ((ValidaAcoes (s.Q.getD s.estado []) s.listEstadosVisitados
                    (s.rotas.getD s.veiculo rotaNova).demanda amb true).1.set
                      s2.estado Flt.ninf) -
                mget s.Q s.estado s2.estado)) ∧
    (∀ (raiz : ℚ → ℚ) (amb : Ambiente) (gama epsilon : ℚ) (r : Rnd)
      (s s2 : EstFix), PassoFix raiz amb 0 gama epsilon r s = .ok s2 →
      ∃ veiculo estado acao recompensa,
        EscolheRota s.rotas = .ok veiculo ∧
        estado = ((s.rotas.getD veiculo rotaNova).consumidores.getLast?).getD 0 ∧
        Politica epsilon
          (ValidaAcoes (s.Q.getD estado []) s.listEstadosVisitados
            (s.rotas.getD veiculo rotaNova).demanda amb false).1
          (ValidaAcoes (s.Q.getD estado []) s.listEstadosVisitados
            (s.rotas.getD veiculo rotaNova).demanda amb false).2
          r.u r.pick = .ok acao ∧
        (estado < s.Q.length → acao < (s.Q.getD estado []).length →
          mget s2.Q estado acao =
            mget s.Q estado acao +
              TaxaAprendizagem (mget s2.QVisitas estado acao) *
                (recompensa +
                  gama * ValorAcaoFuturaFix s.Q acao
                    ((ValidaAcoes (s.Q.getD estado []) s.listEstadosVisitados
                      (s.rotas.getD veiculo rotaNova).demanda amb false).1.set
                        acao Flt.ninf) -
                  mget s.Q estado acao))) ∧
    (∀ (raiz : ℚ → ℚ) (amb : Ambiente) (gama epsilon : ℚ) (r : Rnd)
      (s s2 : EstDDin), PassoDDin raiz amb 0 gama epsilon r s = .ok s2 →
      r.moeda = true →
      s.estado < s.Q1.length → s2.estado < (s.Q1.getD s.estado []).length →
      ∃ recompensa,
        Recompensa (AtualizaRota raiz (s.rotas.getD s.veiculo rotaNova)
            s.estado s2.estado amb).2
          (demandaDe amb s2.estado) amb.capacidade = .ok recompensa ∧
        mget s2.Q1 s.estado s2.estado =
          mget s.Q1 s.estado s2.estado +
            TaxaAprendizagem (mget s2.QVisitas s.estado s2.estado) *
              (recompensa +
                gama * ValorAcaoFuturaDin s.Q2 s2.estado
                  ((ValidaAcoes (List.zipWith (· + ·) (s.Q1.getD s.estado [])
                      (s.Q2.getD s.estado [])) s.listEstadosVisitados
                    (s.rotas.getD s.veiculo rotaNova).demanda amb true).1.set
                      s2.estado Flt.ninf) -
                mget s.Q1 s.estado s2.estado)) := by
  refine ⟨?_, ?_, ?_⟩
  · intro raiz amb gama epsilon r s s2 hok hi hj
    rcases passoDin_inversao raiz amb 0 gama epsilon r s s2 hok with
      ⟨acao, recompensa, hpo, hrec, hQ, hV, hest, _⟩
    rw [AtualizaQ, if_pos rfl] at hQ
    rw [hest] at hj ⊢
    refine ⟨recompensa, hrec, ?_⟩
    rw [hQ, hV, mget_mset_self s.Q s.estado acao _ hi hj]
  · intro raiz amb gama epsilon r s s2 hok
    rcases passoFix_inversao raiz amb 0 gama epsilon r s s2 hok with
      ⟨veiculo, estado, acao, recompensa, hes, hestdef, hpo, hrec, hQ, hV, _⟩
    rw [AtualizaQ, if_pos rfl] at hQ
    refine ⟨veiculo, estado, acao, recompensa, hes, hestdef, hpo, ?_⟩
    intro hi hj
    rw [hQ, hV, mget_mset_self s.Q estado acao _ hi hj]
  · intro raiz amb gama epsilon r s s2 hok hmo hi hj
    rcases passoDDin_inversao raiz amb 0 gama epsilon r s s2 hok with
      ⟨acao, recompensa, hpo, hrec, hV, hest, htab, _⟩
    rcases htab with ⟨_, hQ1, hQ2⟩ | ⟨hmo2, _, _⟩
    · rw [AtualizaQ, if_pos rfl] at hQ1
      rw [hest] at hj ⊢
      refine ⟨recompensa, hrec, ?_⟩
      rw [hQ1, hV, mget_mset_self s.Q1 s.estado acao _ hi hj]
    · rw [hmo] at hmo2
      cases hmo2

/-- Witness for C1 amended: the concrete step of the C8 environment, where
the update equation with the code's bootstrap evaluates on both sides. -/
theorem c1_valorFuturo_emendado_witness :
    PassoDin id ⟨[⟨0,0,0⟩, ⟨0,0,2⟩], 10, 5⟩ 0 1 1 ⟨0, 0, true⟩
      (InicioDin ⟨[⟨0,0,0⟩, ⟨0,0,2⟩], 10, 5⟩ [[0,4],[0,0]] (CriaMatriz 2)) =
      .ok ⟨[[0,2],[0,0]], [[0,1],[0,0]], [[0,1],[0,0]],
           [false,true], [⟨2,0,[0,1]⟩], 0, 1⟩ ∧
    mget [[0,2],[0,0]] 0 1 =
      mget [[0,4],[0,0]] 0 1 +
        TaxaAprendizagem (mget [[0,1],[0,0]] 0 1) *
          ((0:ℚ) +
            1 * ValorAcaoFuturaDin [[0,4],[0,0]] 1
              ((ValidaAcoes [0,4] [true,false] 0 ⟨[⟨0,0,0⟩, ⟨0,0,2⟩], 10, 5⟩
                true).1.set 1 Flt.ninf) -
            mget [[0,4],[0,0]] 0 1) := by
  have hva : ValidaAcoes [0,4] [true,false] 0 ⟨[⟨0,0,0⟩, ⟨0,0,2⟩], 10, 5⟩ true =
      ([Flt.ninf, Flt.fin 4], [0,1]) := by
    norm_num [ValidaAcoes, ValidaAcoesVai, AcaoInvalida, demandaDe]
  have hpo : Politica 1 [Flt.ninf, Flt.fin 4] [0,1] 0 0 = .ok 1 := by
    norm_num [Politica, indiceDe, maxLista, maxF_ninf_esq, maxF_fin_ninf,
      Flt.ninf_eq_fin, Flt.fin_eq_ninf]
  have hre : Recompensa 0 2 10 = .ok 0 := by norm_num [Recompensa]
  have hfv : ValorAcaoFuturaDin [[0,4],[0,0]] 1 [Flt.ninf, Flt.ninf] = 0 := by
    norm_num [ValorAcaoFuturaDin]
  have hrun : PassoDin id ⟨[⟨0,0,0⟩, ⟨0,0,2⟩], 10, 5⟩ 0 1 1 ⟨0, 0, true⟩
      (InicioDin ⟨[⟨0,0,0⟩, ⟨0,0,2⟩], 10, 5⟩ [[0,4],[0,0]] (CriaMatriz 2)) =
      .ok ⟨[[0,2],[0,0]], [[0,1],[0,0]], [[0,1],[0,0]],
           [false,true], [⟨2,0,[0,1]⟩], 0, 1⟩ := by
    norm_num [PassoDin, InicioDin, CriaMatriz, VisitadosIniciais,
      List.replicate, rotaNova, hva, hpo, hre, hfv, AtualizaRota, AtualizaQ,
      mset, mget, TaxaAprendizagem, demandaDe]
  refine ⟨hrun, ?_⟩
  have h := c1_valorFuturo_emendado.1 id ⟨[⟨0,0,0⟩, ⟨0,0,2⟩], 10, 5⟩ 1 1
    ⟨0, 0, true⟩ (InicioDin ⟨[⟨0,0,0⟩, ⟨0,0,2⟩], 10, 5⟩ [[0,4],[0,0]]
      (CriaMatriz 2))
    ⟨[[0,2],[0,0]], [[0,1],[0,0]], [[0,1],[0,0]],
      [false,true], [⟨2,0,[0,1]⟩], 0, 1⟩ hrun (by norm_num [InicioDin])
    (by norm_num [InicioDin, mget])
  rcases h with ⟨recompensa, hrec, heq⟩
  norm_num [AtualizaRota, InicioDin, rotaNova, demandaDe] at hrec
  rw [hre] at hrec
  cases hrec
  exact heq

theorem dimsMat_mset (n : Nat) (m : Mat) (i j : Nat) (v : ℚ)
    (h : DimsMat n m) : DimsMat n (mset m i j v) := by
  by_cases hi : i < m.length
  · refine ⟨by rw [mset, List.length_set]; exact h.1, ?_⟩
    intro lin hlin
    rcases List.mem_or_eq_of_mem_set hlin with h2 | h2
    · exact h.2 lin h2
    · rw [h2, List.length_set]
      exact h.2 _ (getD_mem m i [] hi)
  · rw [mset, List.set_eq_of_length_le (Nat.le_of_not_lt hi)]
    exact h

theorem dimsMat_traco (n : Nat) (taxa recompensa futuro lambd gama : ℚ)
    (estado acao : Nat) (pares : List (Nat × Nat)) (Q E : Mat)
    (h : DimsMat n Q) :
    DimsMat n (AtualizaComTraco taxa recompensa futuro lambd gama estado acao
      pares (Q, E)).1 := by
  induction pares generalizing Q E with
  | nil => exact h
  | cons par resto ih =>
    rcases par with ⟨u, v⟩
    rw [AtualizaComTraco]
    exact ih _ _ (dimsMat_mset n Q u v _ h)

theorem dimsMat_atualizaQ (n : Nat) (lambd gama taxa recompensa futuro : ℚ)
    (estado acao : Nat) (consumidores : List Nat) (Q E : Mat)
    (h : DimsMat n Q) :
    DimsMat n (AtualizaQ lambd gama taxa recompensa futuro estado acao
      consumidores Q E).1 := by
  rw [AtualizaQ]
  by_cases hl : lambd = 0
  · rw [if_pos hl]
    exact dimsMat_mset n Q estado acao _ h
  · rw [if_neg hl]
    exact dimsMat_traco n _ _ _ _ _ _ _ _ Q E h

theorem contagem_append (rotas : List Rota) (r : Rota) (c : Nat) :
    ContagemNasRotas (rotas ++ [r]) c =
      ContagemNasRotas rotas c + r.consumidores.count c := by
  rw [ContagemNasRotas, ContagemNasRotas, List.map_append, List.sum_append]
  simp

theorem contagem_set (rotas : List Rota) (v : Nat) (r2 : Rota) (a : Nat)
    (hv : v < rotas.length)
    (hcons : r2.consumidores = (rotas.getD v rotaNova).consumidores ++ [a])
    (c : Nat) :
    ContagemNasRotas (rotas.set v r2) c =
      ContagemNasRotas rotas c + if a = c then 1 else 0 := by
  induction rotas generalizing v with
  | nil => simp at hv
  | cons r resto ih =>
    cases v with
    | zero =>
      rw [List.set_cons_zero, ContagemNasRotas, ContagemNasRotas]
      simp only [List.map_cons, List.sum_cons]
      rw [List.getD_cons_zero] at hcons
      rw [hcons, List.count_append]
      have hcount : List.count c [a] = if a = c then 1 else 0 := by
        by_cases hac : a = c <;> simp [hac, List.count_cons, List.count_nil]
      rw [hcount]
      omega
    | succ w =>
      rw [List.set_cons_succ, ContagemNasRotas, ContagemNasRotas]
      simp only [List.map_cons, List.sum_cons]
      have h2 := ih w (by simpa using hv) (by simpa using hcons)
      rw [ContagemNasRotas, ContagemNasRotas] at h2
      rw [h2]
      omega

theorem count_false_zero (l : List Bool) (h : l.count false = 0) (i : Nat)
    (hi : i < l.length) : l.getD i false = true := by
  have h2 : false ∉ l := List.count_eq_zero.mp h
  have h3 := getD_mem l i false hi
  cases h4 : l.getD i false
  · rw [h4] at h3
    exact absurd h3 h2
  · rfl

theorem escolheRota_lt (rotas : List Rota) (v : Nat)
    (hok : EscolheRota rotas = .ok v) : v < rotas.length := by
  rw [EscolheRota] at hok
  by_cases hne : rotas.isEmpty
  · rw [if_pos hne] at hok
    cases hok
  · rw [if_neg hne] at hok
    cases hok
    have hne2 : rotas.map (·.demanda) ≠ [] := by
      intro h2
      exact hne (by simpa using List.map_eq_nil.mp h2)
    have := indiceDe_lt_length (minLista (rotas.map (·.demanda)))
      (rotas.map (·.demanda)) (minLista_mem _ hne2)
    simpa using this

theorem getLastD_mem {α : Type} (l : List α) (d : α) (h : l ≠ []) :
    (l.getLast?).getD d ∈ l := by
  rw [List.getLast?_eq_getLast l h]
  exact List.getLast_mem h

theorem politica_VA_ok_ne (ap : List ℚ) (lv : List Bool) (dem : ℚ)
    (amb : Ambiente) (din : Bool) (epsilon u : ℚ) (pick a : Nat)
    (hok : Politica epsilon (ValidaAcoes ap lv dem amb din).1
      (ValidaAcoes ap lv dem amb din).2 u pick = .ok a) : ap ≠ [] := by
  intro hap
  subst hap
  have h1 : (ValidaAcoes [] lv dem amb din).1 = [] :=
    List.eq_nil_of_length_eq_zero (validaAcoes_len_acoes [] lv dem amb din)
  have h2 : (ValidaAcoes [] lv dem amb din).2 = [] :=
    List.eq_nil_of_length_eq_zero (validaAcoes_len_perm [] lv dem amb din)
  rw [h1, h2, Politica] at hok
  by_cases hu : u > epsilon
  · rw [if_pos hu, if_pos (by simp)] at hok
    cases hok
  · rw [if_neg hu, if_pos (by simp)] at hok
    cases hok

theorem escolha_valida (ap : List ℚ) (lv : List Bool) (dem : ℚ)
    (amb : Ambiente) (din : Bool) (epsilon u : ℚ) (pick a : Nat)
    (hok : Politica epsilon (ValidaAcoes ap lv dem amb din).1
      (ValidaAcoes ap lv dem amb din).2 u pick = .ok a) :
    a < ap.length ∧ (¬ AcaoInvalida lv dem amb din a ∨ a = 0) := by
  have hap := politica_VA_ok_ne ap lv dem amb din epsilon u pick a hok
  have hne : (ValidaAcoes ap lv dem amb din).1 ≠ [] := by
    intro h2
    have := validaAcoes_len_acoes ap lv dem amb din
    rw [h2] at this
    exact hap (List.eq_nil_of_length_eq_zero this.symm)
  have hcases := politica_ok_cases epsilon _ _ u pick a
    (validaAcoes_bemFormado ap lv dem amb din) hne hok
  have halt : a < ap.length := by
    have := hcases.1
    rwa [validaAcoes_len_acoes] at this
  refine ⟨halt, ?_⟩
  rcases hcases.2 with hperm | h0
  · left
    intro hbad
    rw [validaAcoes_perm_getD ap lv dem amb din a halt, if_pos hbad] at hperm
    cases hperm
  · exact Or.inr h0

theorem nao_invalida_nao_visitado (lv : List Bool) (dem : ℚ) (amb : Ambiente)
    (din : Bool) (a : Nat) (h : ¬ AcaoInvalida lv dem amb din a) :
    lv.getD a false = false := by
  cases hvv : lv.getD a false
  · rfl
  · exact absurd (Or.inl hvv) h

theorem passoDin_preserva (n : Nat) (raiz : ℚ → ℚ) (amb : Ambiente)
    (lambd gama epsilon : ℚ) (r : Rnd) (s s2 : EstDin)
    (hok : PassoDin raiz amb lambd gama epsilon r s = .ok s2)
    (hinv : InvDin n s) : InvDin n s2 := by
  obtain ⟨hvlen, hdims, hest, hveic, hcount⟩ := hinv
  rcases passoDin_inversao raiz amb lambd gama epsilon r s s2 hok with
    ⟨acao, recompensa, hpo, hrec, hQ, hV, hest2, hcase⟩
  have hesc := escolha_valida (s.Q.getD s.estado []) s.listEstadosVisitados
    (s.rotas.getD s.veiculo rotaNova).demanda amb true epsilon r.u r.pick acao hpo
  have hrow : (s.Q.getD s.estado []).length = n :=
    hdims.2 _ (getD_mem _ _ _ (by rw [hdims.1]; exact hest))
  have haclt : acao < n := by rw [← hrow]; exact hesc.1
  have hQ2 : DimsMat n s2.Q := by
    rw [hQ]
    exact dimsMat_atualizaQ n _ _ _ _ _ _ _ _ _ _ hdims
  have hest3 : s2.estado < n := by rw [hest2]; exact haclt
  have hcons := atualizaRota_consumidores raiz (s.rotas.getD s.veiculo rotaNova)
    s.estado acao amb
  rcases hcase with ⟨hac, hvis, hrot, hveq⟩ | ⟨hac, hvis, hrot, hveq⟩ |
    ⟨hac, hvis, hrot, hveq⟩
  · refine ⟨by rw [hvis]; simp [hvlen], hQ2, hest3,
      by rw [hveq, hrot, List.length_set]; exact hveic, ?_⟩
    intro c hc
    rw [hrot, contagem_set s.rotas s.veiculo _ acao hveic hcons c, hvis,
      getD_set_ne _ 0 c _ _ (by omega)]
    by_cases hca : acao = c
    · subst hca
      rw [getD_set_self _ _ _ _ (by rw [hvlen]; exact haclt)]
      have hleg : ¬ AcaoInvalida s.listEstadosVisitados
          (s.rotas.getD s.veiculo rotaNova).demanda amb true acao := by
        rcases hesc.2 with h2 | h2
        · exact h2
        · exact absurd h2 hac
      rw [hcount acao hc,
        nao_invalida_nao_visitado _ _ _ _ _ hleg]
      simp
    · rw [getD_set_ne _ acao c _ _ hca, hcount c hc]
      simp [hca]
  · refine ⟨by rw [hvis]; simp [hvlen], hQ2, hest3, ?_, ?_⟩
    · rw [hveq, hrot, List.length_append, List.length_set]
      simp
      omega
    · intro c hc
      rw [hrot, contagem_append, contagem_set s.rotas s.veiculo _ acao hveic
        hcons c, hvis]
      have hc0 : rotaNova.consumidores.count c = 0 := by
        rw [rotaNova]
        simp [List.count_cons, List.count_nil]
        omega
      rw [hc0, getD_set_ne _ acao c _ _ (by omega), hcount c hc]
      have hca : acao ≠ c := by omega
      simp [hca]
  · refine ⟨by rw [hvis]; simp [hvlen], hQ2, hest3,
      by rw [hveq, hrot, List.length_set]; exact hveic, ?_⟩
    intro c hc
    rw [hrot, contagem_set s.rotas s.veiculo _ acao hveic hcons c, hvis,
      getD_set_ne _ acao c _ _ (by omega), hcount c hc]
    have hca : acao ≠ c := by omega
    simp [hca]

theorem passoDDin_preserva (n : Nat) (raiz : ℚ → ℚ) (amb : Ambiente)
    (lambd gama epsilon : ℚ) (r : Rnd) (s s2 : EstDDin)
    (hok : PassoDDin raiz amb lambd gama epsilon r s = .ok s2)
    (hinv : InvDDin n s) : InvDDin n s2 := by
  obtain ⟨hvlen, hdims1, hdims2, hest, hveic, hcount⟩ := hinv
  rcases passoDDin_inversao raiz amb lambd gama epsilon r s s2 hok with
    ⟨acao, recompensa, hpo, hrec, hV, hest2, htab, hcase⟩
  have hesc := escolha_valida
    (List.zipWith (· + ·) (s.Q1.getD s.estado []) (s.Q2.getD s.estado []))
    s.listEstadosVisitados (s.rotas.getD s.veiculo rotaNova).demanda amb true
    epsilon r.u r.pick acao hpo
  have hrow1 : (s.Q1.getD s.estado []).length = n :=
    hdims1.2 _ (getD_mem _ _ _ (by rw [hdims1.1]; exact hest))
  have hrow2 : (s.Q2.getD s.estado []).length = n :=
    hdims2.2 _ (getD_mem _ _ _ (by rw [hdims2.1]; exact hest))
  have haclt : acao < n := by
    have h2 := hesc.1
    rw [List.length_zipWith, hrow1, hrow2, Nat.min_self] at h2
    exact h2
  have hQd1 : DimsMat n s2.Q1 := by
    rcases htab with ⟨_, hQ1, _⟩ | ⟨_, hQ1, _⟩
    · rw [hQ1]
      exact dimsMat_atualizaQ n _ _ _ _ _ _ _ _ _ _ hdims1
    · rw [hQ1]
      exact hdims1
  have hQd2 : DimsMat n s2.Q2 := by
    rcases htab with ⟨_, _, hQ2⟩ | ⟨_, _, hQ2⟩
    · rw [hQ2]
      exact hdims2
    · rw [hQ2]
      exact dimsMat_atualizaQ n _ _ _ _ _ _ _ _ _ _ hdims2
  have hest3 : s2.estado < n := by rw [hest2]; exact haclt
  have hcons := atualizaRota_consumidores raiz (s.rotas.getD s.veiculo rotaNova)
    s.estado acao amb
  rcases hcase with ⟨hac, hvis, hrot, hveq⟩ | ⟨hac, hvis, hrot, hveq⟩ |
    ⟨hac, hvis, hrot, hveq⟩
  · refine ⟨by rw [hvis]; simp [hvlen], hQd1, hQd2, hest3,
      by rw [hveq, hrot, List.length_set]; exact hveic, ?_⟩
    intro c hc
    rw [hrot, contagem_set s.rotas s.veiculo _ acao hveic hcons c, hvis,
      getD_set_ne _ 0 c _ _ (by omega)]
    by_cases hca : acao = c
    · subst hca
      rw [getD_set_self _ _ _ _ (by rw [hvlen]; exact haclt)]
      have hleg : ¬ AcaoInvalida s.listEstadosVisitados
          (s.rotas.getD s.veiculo rotaNova).demanda amb true acao := by
        rcases hesc.2 with h2 | h2
        · exact h2
        · exact absurd h2 hac
      rw [hcount acao hc, nao_invalida_nao_visitado _ _ _ _ _ hleg]
      simp
    · rw [getD_set_ne _ acao c _ _ hca, hcount c hc]
      simp [hca]
  · refine ⟨by rw [hvis]; simp [hvlen], hQd1, hQd2, hest3, ?_, ?_⟩
    · rw [hveq, hrot, List.length_append, List.length_set]
      simp
      omega
    · intro c hc
      rw [hrot, contagem_append, contagem_set s.rotas s.veiculo _ acao hveic
        hcons c, hvis]
      have hc0 : rotaNova.consumidores.count c = 0 := by
        rw [rotaNova]
        simp [List.count_cons, List.count_nil]
        omega
      rw [hc0, getD_set_ne _ acao c _ _ (by omega), hcount c hc]
      have hca : acao ≠ c := by omega
      simp [hca]
  · refine ⟨by rw [hvis]; simp [hvlen], hQd1, hQd2, hest3,
      by rw [hveq, hrot, List.length_set]; exact hveic, ?_⟩
    intro c hc
    rw [hrot, contagem_set s.rotas s.veiculo _ acao hveic hcons c, hvis,
      getD_set_ne _ acao c _ _ (by omega), hcount c hc]
    have hca : acao ≠ c := by omega
    simp [hca]

theorem passoFix_preserva (n : Nat) (raiz : ℚ → ℚ) (amb : Ambiente)
    (lambd gama epsilon : ℚ) (r : Rnd) (s s2 : EstFix)
    (hok : PassoFix raiz amb lambd gama epsilon r s = .ok s2)
    (hinv : InvRotasFix n s.rotas s.listEstadosVisitados ∧ DimsMat n s.Q) :
    InvRotasFix n s2.rotas s2.listEstadosVisitados ∧ DimsMat n s2.Q := by
  obtain ⟨⟨hvlen, hrprop, hcount⟩, hdims⟩ := hinv
  rcases passoFix_inversao raiz amb lambd gama epsilon r s s2 hok with
    ⟨veiculo, estado, acao, recompensa, hes, hestdef, hpo, hrec, hQ, hV,
      hvis, hrot⟩
  have hveic := escolheRota_lt s.rotas veiculo hes
  have hapne := politica_VA_ok_ne (s.Q.getD estado []) s.listEstadosVisitados
    (s.rotas.getD veiculo rotaNova).demanda amb false epsilon r.u r.pick acao hpo
  have hestlt : estado < s.Q.length := by
    by_contra h2
    exact hapne (getD_len_le s.Q estado [] (Nat.le_of_not_lt h2))
  have hrow : (s.Q.getD estado []).length = n :=
    hdims.2 _ (getD_mem _ _ _ hestlt)
  have hesc := escolha_valida (s.Q.getD estado []) s.listEstadosVisitados
    (s.rotas.getD veiculo rotaNova).demanda amb false epsilon r.u r.pick acao hpo
  have haclt : acao < n := by rw [← hrow]; exact hesc.1
  have hcons := atualizaRota_consumidores raiz (s.rotas.getD veiculo rotaNova)
    estado acao amb
  refine ⟨⟨by rw [hvis]; simp [hvlen], ?_, ?_⟩, ?_⟩
  · intro r2 hr2
    rw [hrot] at hr2
    rcases List.mem_or_eq_of_mem_set hr2 with h2 | h2
    · exact hrprop r2 h2
    · rw [h2, hcons]
      constructor
      · simp
      · intro x hx
        rcases List.mem_append.mp hx with h3 | h3
        · exact (hrprop _ (getD_mem _ _ _ hveic)).2 x h3
        · rw [List.mem_singleton.mp h3]
          exact Or.inr haclt
  · intro c hc
    rw [hrot, contagem_set s.rotas veiculo _ acao hveic hcons c, hvis]
    by_cases hca : acao = c
    · subst hca
      rw [getD_set_self _ _ _ _ (by rw [hvlen]; exact haclt)]
      have hleg : ¬ AcaoInvalida s.listEstadosVisitados
          (s.rotas.getD veiculo rotaNova).demanda amb false acao := by
        rcases hesc.2 with h2 | h2
        · exact h2
        · omega
      rw [hcount acao hc, nao_invalida_nao_visitado _ _ _ _ _ hleg]
      simp
    · rw [getD_set_ne _ acao c _ _ hca, hcount c hc]
      simp [hca]
  · rw [hQ]
    exact dimsMat_atualizaQ n _ _ _ _ _ _ _ _ _ _ hdims

theorem passoDFix_preserva (n : Nat) (raiz : ℚ → ℚ) (amb : Ambiente)
    (lambd gama epsilon : ℚ) (r : Rnd) (s s2 : EstDFix)
    (hok : PassoDFix raiz amb lambd gama epsilon r s = .ok s2)
    (hinv : InvRotasFix n s.rotas s.listEstadosVisitados ∧ DimsMat n s.Q1 ∧
      DimsMat n s.Q2) :
    InvRotasFix n s2.rotas s2.listEstadosVisitados ∧ DimsMat n s2.Q1 ∧
      DimsMat n s2.Q2 := by
  obtain ⟨⟨hvlen, hrprop, hcount⟩, hdims1, hdims2⟩ := hinv
  rcases passoDFix_inversao raiz amb lambd gama epsilon r s s2 hok with
    ⟨veiculo, estado, acao, recompensa, hes, hestdef, hpo, hrec, htab, hV,
      hvis, hrot⟩
  have hveic := escolheRota_lt s.rotas veiculo hes
  have hapne := politica_VA_ok_ne
    (List.zipWith (· + ·) (s.Q1.getD estado []) (s.Q2.getD estado []))
    s.listEstadosVisitados (s.rotas.getD veiculo rotaNova).demanda amb false
    epsilon r.u r.pick acao hpo
  have hestlt : estado < s.Q1.length ∧ estado < s.Q2.length := by
    by_contra h2
    push_neg at h2
    apply hapne
    by_cases h3 : estado < s.Q1.length
    · rw [getD_len_le s.Q2 estado [] (h2 h3)]
      simp
    · rw [getD_len_le s.Q1 estado [] (Nat.le_of_not_lt h3)]
      simp
  have hrow1 : (s.Q1.getD estado []).length = n :=
    hdims1.2 _ (getD_mem _ _ _ hestlt.1)
  have hrow2 : (s.Q2.getD estado []).length = n :=
    hdims2.2 _ (getD_mem _ _ _ hestlt.2)
  have hesc := escolha_valida
    (List.zipWith (· + ·) (s.Q1.getD estado []) (s.Q2.getD estado []))
    s.listEstadosVisitados (s.rotas.getD veiculo rotaNova).demanda amb false
    epsilon r.u r.pick acao hpo
  have haclt : acao < n := by
    have h2 := hesc.1
    rw [List.length_zipWith, hrow1, hrow2, Nat.min_self] at h2
    exact h2
  have hcons := atualizaRota_consumidores raiz (s.rotas.getD veiculo rotaNova)
    estado acao amb
  refine ⟨⟨by rw [hvis]; simp [hvlen], ?_, ?_⟩, ?_, ?_⟩
  · intro r2 hr2
    rw [hrot] at hr2
    rcases List.mem_or_eq_of_mem_set hr2 with h2 | h2
    · exact hrprop r2 h2
    · rw [h2, hcons]
      constructor
      · simp
      · intro x hx
        rcases List.mem_append.mp hx with h3 | h3
        · exact (hrprop _ (getD_mem _ _ _ hveic)).2 x h3
        · rw [List.mem_singleton.mp h3]
          exact Or.inr haclt
  · intro c hc
    rw [hrot, contagem_set s.rotas veiculo _ acao hveic hcons c, hvis]
    by_cases hca : acao = c
    · subst hca
      rw [getD_set_self _ _ _ _ (by rw [hvlen]; exact haclt)]
      have hleg : ¬ AcaoInvalida s.listEstadosVisitados
          (s.rotas.getD veiculo rotaNova).demanda amb false acao := by
        rcases hesc.2 with h2 | h2
        · exact h2
        · omega
      rw [hcount acao hc, nao_invalida_nao_visitado _ _ _ _ _ hleg]
      simp
    · rw [getD_set_ne _ acao c _ _ hca, hcount c hc]
      simp [hca]
  · rcases htab with ⟨_, ⟨taxa, rec, fut, cons, E, hQ1⟩, _⟩ | ⟨_, hQ1, _⟩
    · rw [hQ1]
      exact dimsMat_atualizaQ n _ _ _ _ _ _ _ _ _ _ hdims1
    · rw [hQ1]
      exact hdims1
  · rcases htab with ⟨_, _, hQ2⟩ | ⟨_, _, ⟨taxa, rec, fut, cons, E, hQ2⟩⟩
    · rw [hQ2]
      exact hdims2
    · rw [hQ2]
      exact dimsMat_atualizaQ n _ _ _ _ _ _ _ _ _ _ hdims2

theorem lacoDin_ok (n : Nat) (raiz : ℚ → ℚ) (amb : Ambiente)
    (lambd gama epsilon : ℚ) (fluxo : Nat → Rnd) :
    ∀ (fuel t : Nat) (s s2 : EstDin), InvDin n s →
      LacoDin raiz amb lambd gama epsilon fluxo fuel t s = .ok s2 →
      InvDin n s2 ∧ s2.listEstadosVisitados.count false = 0 := by
  intro fuel
  induction fuel with
  | zero =>
    intro t s s2 hinv hok
    rw [LacoDin] at hok
    by_cases h : s.listEstadosVisitados.count false = 0
    · rw [if_pos h] at hok
      cases hok
      exact ⟨hinv, h⟩
    · rw [if_neg h] at hok
      cases hok
  | succ m ih =>
    intro t s s2 hinv hok
    rw [LacoDin] at hok
    by_cases h : s.listEstadosVisitados.count false = 0
    · rw [if_pos h] at hok
      cases hok
      exact ⟨hinv, h⟩
    · rw [if_neg h] at hok
      cases hp : PassoDin raiz amb lambd gama epsilon (fluxo t) s with
      | falha => rw [hp] at hok; cases hok
      | esgotado => rw [hp] at hok; cases hok
      | ok s3 =>
        rw [hp] at hok
        exact ih (t + 1) s3 s2
          (passoDin_preserva n raiz amb lambd gama epsilon (fluxo t) s s3 hp hinv)
          hok

theorem lacoDDin_ok (n : Nat) (raiz : ℚ → ℚ) (amb : Ambiente)
    (lambd gama epsilon : ℚ) (fluxo : Nat → Rnd) :
    ∀ (fuel t : Nat) (s s2 : EstDDin), InvDDin n s →
      LacoDDin raiz amb lambd gama epsilon fluxo fuel t s = .ok s2 →
      InvDDin n s2 ∧ s2.listEstadosVisitados.count false = 0 := by
  intro fuel
  induction fuel with
  | zero =>
    intro t s s2 hinv hok
    rw [LacoDDin] at hok
    by_cases h : s.listEstadosVisitados.count false = 0
    · rw [if_pos h] at hok
      cases hok
      exact ⟨hinv, h⟩
    · rw [if_neg h] at hok
      cases hok
  | succ m ih =>
    intro t s s2 hinv hok
    rw [LacoDDin] at hok
    by_cases h : s.listEstadosVisitados.count false = 0
    · rw [if_pos h] at hok
      cases hok
      exact ⟨hinv, h⟩
    · rw [if_neg h] at hok
      cases hp : PassoDDin raiz amb lambd gama epsilon (fluxo t) s with
      | falha => rw [hp] at hok; cases hok
      | esgotado => rw [hp] at hok; cases hok
      | ok s3 =>
        rw [hp] at hok
        exact ih (t + 1) s3 s2
          (passoDDin_preserva n raiz amb lambd gama epsilon (fluxo t) s s3 hp hinv)
          hok

theorem lacoFix_ok (n : Nat) (raiz : ℚ → ℚ) (amb : Ambiente)
    (lambd gama epsilon : ℚ) (fluxo : Nat → Rnd) :
    ∀ (fuel t : Nat) (s s2 : EstFix),
      InvRotasFix n s.rotas s.listEstadosVisitados ∧ DimsMat n s.Q →
      LacoFix raiz amb lambd gama epsilon fluxo fuel t s = .ok s2 →
      (InvRotasFix n s2.rotas s2.listEstadosVisitados ∧ DimsMat n s2.Q) ∧
        s2.listEstadosVisitados.count false = 0 := by
  intro fuel
  induction fuel with
  | zero =>
    intro t s s2 hinv hok
    rw [LacoFix] at hok
    by_cases h : s.listEstadosVisitados.count false = 0
    · rw [if_pos h] at hok
      cases hok
      exact ⟨hinv, h⟩
    · rw [if_neg h] at hok
      cases hok
  | succ m ih =>
    intro t s s2 hinv hok
    rw [LacoFix] at hok
    by_cases h : s.listEstadosVisitados.count false = 0
    · rw [if_pos h] at hok
      cases hok
      exact ⟨hinv, h⟩
    · rw [if_neg h] at hok
      cases hp : PassoFix raiz amb lambd gama epsilon (fluxo t) s with
      | falha => rw [hp] at hok; cases hok
      | esgotado => rw [hp] at hok; cases hok
      | ok s3 =>
        rw [hp] at hok
        exact ih (t + 1) s3 s2
          (passoFix_preserva n raiz amb lambd gama epsilon (fluxo t) s s3 hp hinv)
          hok

theorem lacoDFix_ok (n : Nat) (raiz : ℚ → ℚ) (amb : Ambiente)
    (lambd gama epsilon : ℚ) (fluxo : Nat → Rnd) :
    ∀ (fuel t : Nat) (s s2 : EstDFix),
      InvRotasFix n s.rotas s.listEstadosVisitados ∧ DimsMat n s.Q1 ∧
        DimsMat n s.Q2 →
      LacoDFix raiz amb lambd gama epsilon fluxo fuel t s = .ok s2 →
      (InvRotasFix n s2.rotas s2.listEstadosVisitados ∧ DimsMat n s2.Q1 ∧
        DimsMat n s2.Q2) ∧
        s2.listEstadosVisitados.count false = 0 := by
  intro fuel
  induction fuel with
  | zero =>
    intro t s s2 hinv hok
    rw [LacoDFix] at hok
    by_cases h : s.listEstadosVisitados.count false = 0
    · rw [if_pos h] at hok
      cases hok
      exact ⟨hinv, h⟩
    · rw [if_neg h] at hok
      cases hok
  | succ m ih =>
    intro t s s2 hinv hok
    rw [LacoDFix] at hok
    by_cases h : s.listEstadosVisitados.count false = 0
    · rw [if_pos h] at hok
      cases hok
      exact ⟨hinv, h⟩
    · rw [if_neg h] at hok
      cases hp : PassoDFix raiz amb lambd gama epsilon (fluxo t) s with
      | falha => rw [hp] at hok; cases hok
      | esgotado => rw [hp] at hok; cases hok
      | ok s3 =>
        rw [hp] at hok
        exact ih (t + 1) s3 s2
          (passoDFix_preserva n raiz amb lambd gama epsilon (fluxo t) s s3 hp hinv)
          hok

theorem getD_replicate {α : Type} (n i : Nat) (a : α) :
    (List.replicate n a).getD i a = a := by
  induction n generalizing i with
  | zero => simp
  | succ m ih =>
    cases i with
    | zero => simp [List.replicate]
    | succ k => simpa [List.replicate] using ih k

theorem visitadosIniciais_getD (n c : Nat) (hc : 1 ≤ c) :
    (VisitadosIniciais n).getD c false = false := by
  rw [VisitadosIniciais, getD_set_ne _ 0 c _ _ (by omega), getD_replicate]

theorem visitadosIniciais_length (n : Nat) :
    (VisitadosIniciais n).length = n := by
  rw [VisitadosIniciais, List.length_set, List.length_replicate]

theorem contagem_rotaNova (c : Nat) (hc : 1 ≤ c) :
    ContagemNasRotas [rotaNova] c = 0 := by
  rw [ContagemNasRotas, rotaNova]
  simp [List.count_cons, List.count_nil]
  omega

theorem contagem_criaRotas (k c : Nat) (hc : 1 ≤ c) :
    ContagemNasRotas (CriaRotas k) c = 0 := by
  rw [CriaRotas, ContagemNasRotas]
  induction k with
  | zero => simp
  | succ m ih =>
    rw [List.replicate_succ, List.map_cons, List.sum_cons, ih]
    simp [List.count_cons, List.count_nil]
    omega

theorem invDin_inicio (amb : Ambiente) (Q V : Mat)
    (hn : 0 < amb.estados.length) (hdq : DimsMat amb.estados.length Q) :
    InvDin amb.estados.length (InicioDin amb Q V) := by
  refine ⟨visitadosIniciais_length _, hdq, hn, by simp [InicioDin], ?_⟩
  intro c hc
  rw [InicioDin]
  rw [show (⟨Q, V, CriaMatriz amb.estados.length,
    VisitadosIniciais amb.estados.length, [rotaNova], 0, 0⟩ :
    EstDin).rotas = [rotaNova] from rfl]
  rw [contagem_rotaNova c hc]
  rw [show (⟨Q, V, CriaMatriz amb.estados.length,
    VisitadosIniciais amb.estados.length, [rotaNova], 0, 0⟩ :
    EstDin).listEstadosVisitados = VisitadosIniciais amb.estados.length from rfl]
  rw [visitadosIniciais_getD _ c hc]
  rfl

theorem invDDin_inicio (amb : Ambiente) (Q1 Q2 V : Mat)
    (hn : 0 < amb.estados.length) (hdq1 : DimsMat amb.estados.length Q1)
    (hdq2 : DimsMat amb.estados.length Q2) :
    InvDDin amb.estados.length (InicioDDin amb Q1 Q2 V) := by
  refine ⟨visitadosIniciais_length _, hdq1, hdq2, hn, by simp [InicioDDin], ?_⟩
  intro c hc
  rw [InicioDDin]
  rw [show (⟨Q1, Q2, V, CriaMatriz amb.estados.length,
    VisitadosIniciais amb.estados.length, [rotaNova], 0, 0⟩ :
    EstDDin).rotas = [rotaNova] from rfl]
  rw [contagem_rotaNova c hc]
  rw [show (⟨Q1, Q2, V, CriaMatriz amb.estados.length,
    VisitadosIniciais amb.estados.length, [rotaNova], 0, 0⟩ :
    EstDDin).listEstadosVisitados = VisitadosIniciais amb.estados.length from rfl]
  rw [visitadosIniciais_getD _ c hc]
  rfl

theorem invRotasFix_inicio (n k : Nat) :
    InvRotasFix n (CriaRotas k) (VisitadosIniciais n) := by
  refine ⟨visitadosIniciais_length _, ?_, ?_⟩
  · intro r hr
    rw [CriaRotas] at hr
    rw [List.eq_of_mem_replicate hr]
    exact ⟨by simp, by intro x hx; simp at hx; exact Or.inl hx⟩
  · intro c hc
    rw [contagem_criaRotas k c hc, visitadosIniciais_getD n c hc]
    rfl

theorem finalizaFixVai_contagem (raiz : ℚ → ℚ) (amb : Ambiente)
    (lambd gama : ℚ) (vs : List Nat) (Q V E : Mat) (rotas : List Rota)
    (total : Flt) (Q2 V2 E2 : Mat) (rotas2 : List Rota) (total2 : Flt)
    (hok : FinalizaFixVai raiz amb lambd gama vs (Q, V, E, rotas, total) =
      .ok (Q2, V2, E2, rotas2, total2)) (c : Nat) (hc : 1 ≤ c) :
    ContagemNasRotas rotas2 c = ContagemNasRotas rotas c := by
  induction vs generalizing Q V E rotas total with
  | nil =>
    rw [FinalizaFixVai] at hok
    cases hok
    rfl
  | cons v resto ih =>
    rw [FinalizaFixVai] at hok
    cases hrec : Recompensa (AtualizaRota raiz (rotas.getD v rotaNova)
        (((rotas.getD v rotaNova).consumidores.getLast?).getD 0) 0 amb).2
        (demandaDe amb 0) amb.capacidade with
    | falha => rw [hrec] at hok; cases hok
    | esgotado => rw [hrec] at hok; cases hok
    | ok recompensa =>
      rw [hrec] at hok
      dsimp only at hok
      rw [ih _ _ _ _ _ hok]
      by_cases hv : v < rotas.length
      · rw [contagem_set rotas v _ 0 hv (atualizaRota_consumidores raiz
          (rotas.getD v rotaNova) _ 0 amb) c]
        have h0 : (0 : Nat) ≠ c := by omega
        simp [h0]
      · rw [List.set_eq_of_length_le (Nat.le_of_not_lt hv)]

theorem finalizaDFixVai_contagem (raiz : ℚ → ℚ) (amb : Ambiente)
    (lambd gama : ℚ) (moedas : Nat → Bool) (vs : List Nat) (t : Nat)
    (Q1 Q2 V E : Mat) (rotas : List Rota) (total : Flt)
    (Q1b Q2b Vb Eb : Mat) (rotas2 : List Rota) (total2 : Flt)
    (hok : FinalizaDFixVai raiz amb lambd gama moedas vs t
      (Q1, Q2, V, E, rotas, total) = .ok (Q1b, Q2b, Vb, Eb, rotas2, total2))
    (c : Nat) (hc : 1 ≤ c) :
    ContagemNasRotas rotas2 c = ContagemNasRotas rotas c := by
  induction vs generalizing t Q1 Q2 V E rotas total with
  | nil =>
    rw [FinalizaDFixVai] at hok
    cases hok
    rfl
  | cons v resto ih =>
    rw [FinalizaDFixVai] at hok
    cases hrec : Recompensa (AtualizaRota raiz (rotas.getD v rotaNova)
        (((rotas.getD v rotaNova).consumidores.getLast?).getD 0) 0 amb).2
        (demandaDe amb 0) amb.capacidade with
    | falha => rw [hrec] at hok; cases hok
    | esgotado => rw [hrec] at hok; cases hok
    | ok recompensa =>
      rw [hrec] at hok
      dsimp only at hok
      rw [ih _ _ _ _ _ _ _ hok]
      by_cases hv : v < rotas.length
      · rw [contagem_set rotas v _ 0 hv (atualizaRota_consumidores raiz
          (rotas.getD v rotaNova) _ 0 amb) c]
        have h0 : (0 : Nat) ≠ c := by omega
        simp [h0]
      · rw [List.set_eq_of_length_le (Nat.le_of_not_lt hv)]

theorem somaDemandas_set (amb : Ambiente) (rotas : List Rota) (v : Nat)
    (acao : Nat) (raiz : ℚ → ℚ) (estado : Nat) (hv : v < rotas.length)
    (hsoma : SomaDemandas amb rotas) :
    SomaDemandas amb (rotas.set v
      (AtualizaRota raiz (rotas.getD v rotaNova) estado acao amb).1) := by
  intro r hr
  rcases List.mem_or_eq_of_mem_set hr with h2 | h2
  · exact hsoma r h2
  · rw [h2, atualizaRota_demanda, atualizaRota_consumidores,
      List.map_append, List.sum_append,
      hsoma _ (getD_mem _ _ _ hv)]
    simp [demandaDe]

theorem passoFix_soma (raiz : ℚ → ℚ) (amb : Ambiente)
    (lambd gama epsilon : ℚ) (r : Rnd) (s s2 : EstFix)
    (hok : PassoFix raiz amb lambd gama epsilon r s = .ok s2)
    (hsoma : SomaDemandas amb s.rotas) : SomaDemandas amb s2.rotas := by
  rcases passoFix_inversao raiz amb lambd gama epsilon r s s2 hok with
    ⟨veiculo, estado, acao, recompensa, hes, hestdef, hpo, hrec, hQ, hV,
      hvis, hrot⟩
  rw [hrot]
  exact somaDemandas_set amb s.rotas veiculo acao raiz estado
    (escolheRota_lt s.rotas veiculo hes) hsoma

theorem passoDFix_soma (raiz : ℚ → ℚ) (amb : Ambiente)
    (lambd gama epsilon : ℚ) (r : Rnd) (s s2 : EstDFix)
    (hok : PassoDFix raiz amb lambd gama epsilon r s = .ok s2)
    (hsoma : SomaDemandas amb s.rotas) : SomaDemandas amb s2.rotas := by
  rcases passoDFix_inversao raiz amb lambd gama epsilon r s s2 hok with
    ⟨veiculo, estado, acao, recompensa, hes, hestdef, hpo, hrec, htab, hV,
      hvis, hrot⟩
  rw [hrot]
  exact somaDemandas_set amb s.rotas veiculo acao raiz estado
    (escolheRota_lt s.rotas veiculo hes) hsoma

theorem lacoFix_soma (raiz : ℚ → ℚ) (amb : Ambiente)
    (lambd gama epsilon : ℚ) (fluxo : Nat → Rnd) :
    ∀ (fuel t : Nat) (s s2 : EstFix), SomaDemandas amb s.rotas →
      LacoFix raiz amb lambd gama epsilon fluxo fuel t s = .ok s2 →
      SomaDemandas amb s2.rotas := by
  intro fuel
  induction fuel with
  | zero =>
    intro t s s2 hsoma hok
    rw [LacoFix] at hok
    by_cases h : s.listEstadosVisitados.count false = 0
    · rw [if_pos h] at hok
      cases hok
      exact hsoma
    · rw [if_neg h] at hok
      cases hok
  | succ m ih =>
    intro t s s2 hsoma hok
    rw [LacoFix] at hok
    by_cases h : s.listEstadosVisitados.count false = 0
    · rw [if_pos h] at hok
      cases hok
      exact hsoma
    · rw [if_neg h] at hok
      cases hp : PassoFix raiz amb lambd gama epsilon (fluxo t) s with
      | falha => rw [hp] at hok; cases hok
      | esgotado => rw [hp] at hok; cases hok
      | ok s3 =>
        rw [hp] at hok
        exact ih (t + 1) s3 s2
          (passoFix_soma raiz amb lambd gama epsilon (fluxo t) s s3 hp hsoma) hok

theorem lacoDFix_soma (raiz : ℚ → ℚ) (amb : Ambiente)
    (lambd gama epsilon : ℚ) (fluxo : Nat → Rnd) :
    ∀ (fuel t : Nat) (s s2 : EstDFix), SomaDemandas amb s.rotas →
      LacoDFix raiz amb lambd gama epsilon fluxo fuel t s = .ok s2 →
      SomaDemandas amb s2.rotas := by
  intro fuel
  induction fuel with
  | zero =>
    intro t s s2 hsoma hok
    rw [LacoDFix] at hok
    by_cases h : s.listEstadosVisitados.count false = 0
    · rw [if_pos h] at hok
      cases hok
      exact hsoma
    · rw [if_neg h] at hok
      cases hok
  | succ m ih =>
    intro t s s2 hsoma hok
    rw [LacoDFix] at hok
    by_cases h : s.listEstadosVisitados.count false = 0
    · rw [if_pos h] at hok
      cases hok
      exact hsoma
    · rw [if_neg h] at hok
      cases hp : PassoDFix raiz amb lambd gama epsilon (fluxo t) s with
      | falha => rw [hp] at hok; cases hok
      | esgotado => rw [hp] at hok; cases hok
      | ok s3 =>
        rw [hp] at hok
        exact ih (t + 1) s3 s2
          (passoDFix_soma raiz amb lambd gama epsilon (fluxo t) s s3 hp hsoma) hok

theorem carga_rota_nova (amb : Ambiente) (raiz : ℚ → ℚ) (rotas : List Rota)
    (veiculo estado acao : Nat) (cap : ℚ)
    (hveic : veiculo < rotas.length) (hcarga : CargaLimitada cap rotas)
    (hdem : (rotas.getD veiculo rotaNova).demanda + demandaDe amb acao ≤ cap) :
    CargaLimitada cap (rotas.set veiculo
      (AtualizaRota raiz (rotas.getD veiculo rotaNova) estado acao amb).1) := by
  intro r hr
  rcases List.mem_or_eq_of_mem_set hr with h2 | h2
  · exact hcarga r h2
  · rw [h2, atualizaRota_demanda]
    exact hdem

theorem passoDin_carga (raiz : ℚ → ℚ) (amb : Ambiente)
    (lambd gama epsilon : ℚ) (r : Rnd) (s s2 : EstDin)
    (hd0 : demandaDe amb 0 = 0) (hcap : 0 ≤ amb.capacidade)
    (hok : PassoDin raiz amb lambd gama epsilon r s = .ok s2)
    (hinv : s.veiculo < s.rotas.length ∧
      CargaLimitada amb.capacidade s.rotas) :
    s2.veiculo < s2.rotas.length ∧ CargaLimitada amb.capacidade s2.rotas := by
  obtain ⟨hveic, hcarga⟩ := hinv
  rcases passoDin_inversao raiz amb lambd gama epsilon r s s2 hok with
    ⟨acao, recompensa, hpo, hrec, hQ, hV, hest2, hcase⟩
  have hesc := escolha_valida (s.Q.getD s.estado []) s.listEstadosVisitados
    (s.rotas.getD s.veiculo rotaNova).demanda amb true epsilon r.u r.pick acao hpo
  have hdem : (s.rotas.getD s.veiculo rotaNova).demanda + demandaDe amb acao ≤
      amb.capacidade := by
    rcases hesc.2 with h2 | h2
    · by_contra h3
      exact h2 (Or.inr ⟨lt_of_not_le h3, rfl⟩)
    · rw [h2, hd0, add_zero]
      exact hcarga _ (getD_mem _ _ _ hveic)
  have hnova := carga_rota_nova amb raiz s.rotas s.veiculo s.estado acao
    amb.capacidade hveic hcarga hdem
  rcases hcase with ⟨hac, hvis, hrot, hveq⟩ | ⟨hac, hvis, hrot, hveq⟩ |
    ⟨hac, hvis, hrot, hveq⟩
  · exact ⟨by rw [hveq, hrot, List.length_set]; exact hveic, by rw [hrot]; exact hnova⟩
  · refine ⟨?_, ?_⟩
    · rw [hveq, hrot, List.length_append, List.length_set]
      simp
      omega
    · rw [hrot]
      intro r2 hr2
      rcases List.mem_append.mp hr2 with h2 | h2
      · exact hnova r2 h2
      · rw [List.mem_singleton.mp h2, rotaNova]
        exact hcap
  · exact ⟨by rw [hveq, hrot, List.length_set]; exact hveic, by rw [hrot]; exact hnova⟩

theorem passoDDin_carga (raiz : ℚ → ℚ) (amb : Ambiente)
    (lambd gama epsilon : ℚ) (r : Rnd) (s s2 : EstDDin)
    (hd0 : demandaDe amb 0 = 0) (hcap : 0 ≤ amb.capacidade)
    (hok : PassoDDin raiz amb lambd gama epsilon r s = .ok s2)
    (hinv : s.veiculo < s.rotas.length ∧
      CargaLimitada amb.capacidade s.rotas) :
    s2.veiculo < s2.rotas.length ∧ CargaLimitada amb.capacidade s2.rotas := by
  obtain ⟨hveic, hcarga⟩ := hinv
  rcases passoDDin_inversao raiz amb lambd gama epsilon r s s2 hok with
    ⟨acao, recompensa, hpo, hrec, hV, hest2, htab, hcase⟩
  have hesc := escolha_valida
    (List.zipWith (· + ·) (s.Q1.getD s.estado []) (s.Q2.getD s.estado []))
    s.listEstadosVisitados (s.rotas.getD s.veiculo rotaNova).demanda amb true
    epsilon r.u r.pick acao hpo
  have hdem : (s.rotas.getD s.veiculo rotaNova).demanda + demandaDe amb acao ≤
      amb.capacidade := by
    rcases hesc.2 with h2 | h2
    · by_contra h3
      exact h2 (Or.inr ⟨lt_of_not_le h3, rfl⟩)
    · rw [h2, hd0, add_zero]
      exact hcarga _ (getD_mem _ _ _ hveic)
  have hnova := carga_rota_nova amb raiz s.rotas s.veiculo s.estado acao
    amb.capacidade hveic hcarga hdem
  rcases hcase with ⟨hac, hvis, hrot, hveq⟩ | ⟨hac, hvis, hrot, hveq⟩ |
    ⟨hac, hvis, hrot, hveq⟩
  · exact ⟨by rw [hveq, hrot, List.length_set]; exact hveic, by rw [hrot]; exact hnova⟩
  · refine ⟨?_, ?_⟩
    · rw [hveq, hrot, List.length_append, List.length_set]
      simp
      omega
    · rw [hrot]
      intro r2 hr2
      rcases List.mem_append.mp hr2 with h2 | h2
      · exact hnova r2 h2
      · rw [List.mem_singleton.mp h2, rotaNova]
        exact hcap
  · exact ⟨by rw [hveq, hrot, List.length_set]; exact hveic, by rw [hrot]; exact hnova⟩

theorem lacoDin_carga (raiz : ℚ → ℚ) (amb : Ambiente)
    (lambd gama epsilon : ℚ) (fluxo : Nat → Rnd)
    (hd0 : demandaDe amb 0 = 0) (hcap : 0 ≤ amb.capacidade) :
    ∀ (fuel t : Nat) (s s2 : EstDin),
      s.veiculo < s.rotas.length ∧ CargaLimitada amb.capacidade s.rotas →
      LacoDin raiz amb lambd gama epsilon fluxo fuel t s = .ok s2 →
      CargaLimitada amb.capacidade s2.rotas := by
  intro fuel
  induction fuel with
  | zero =>
    intro t s s2 hinv hok
    rw [LacoDin] at hok
    by_cases h : s.listEstadosVisitados.count false = 0
    · rw [if_pos h] at hok
      cases hok
      exact hinv.2
    · rw [if_neg h] at hok
      cases hok
  | succ m ih =>
    intro t s s2 hinv hok
    rw [LacoDin] at hok
    by_cases h : s.listEstadosVisitados.count false = 0
    · rw [if_pos h] at hok
      cases hok
      exact hinv.2
    · rw [if_neg h] at hok
      cases hp : PassoDin raiz amb lambd gama epsilon (fluxo t) s with
      | falha => rw [hp] at hok; cases hok
      | esgotado => rw [hp] at hok; cases hok
      | ok s3 =>
        rw [hp] at hok
        exact ih (t + 1) s3 s2
          (passoDin_carga raiz amb lambd gama epsilon (fluxo t) s s3 hd0 hcap
            hp hinv) hok

theorem lacoDDin_carga (raiz : ℚ → ℚ) (amb : Ambiente)
    (lambd gama epsilon : ℚ) (fluxo : Nat → Rnd)
    (hd0 : demandaDe amb 0 = 0) (hcap : 0 ≤ amb.capacidade) :
    ∀ (fuel t : Nat) (s s2 : EstDDin),
      s.veiculo < s.rotas.length ∧ CargaLimitada amb.capacidade s.rotas →
      LacoDDin raiz amb lambd gama epsilon fluxo fuel t s = .ok s2 →
      CargaLimitada amb.capacidade s2.rotas := by
  intro fuel
  induction fuel with
  | zero =>
    intro t s s2 hinv hok
    rw [LacoDDin] at hok
    by_cases h : s.listEstadosVisitados.count false = 0
    · rw [if_pos h] at hok
      cases hok
      exact hinv.2
    · rw [if_neg h] at hok
      cases hok
  | succ m ih =>
    intro t s s2 hinv hok
    rw [LacoDDin] at hok
    by_cases h : s.listEstadosVisitados.count false = 0
    · rw [if_pos h] at hok
      cases hok
      exact hinv.2
    · rw [if_neg h] at hok
      cases hp : PassoDDin raiz amb lambd gama epsilon (fluxo t) s with
      | falha => rw [hp] at hok; cases hok
      | esgotado => rw [hp] at hok; cases hok
      | ok s3 =>
        rw [hp] at hok
        exact ih (t + 1) s3 s2
          (passoDDin_carga raiz amb lambd gama epsilon (fluxo t) s s3 hd0 hcap
            hp hinv) hok

/-- C7: in the dynamic-fleet variants, assuming the depot's demand is 0, all
demands are non-negative and the capacity is non-negative, every route's
accumulated demand stays within the vehicle capacity: each construction step
preserves the bound (so it holds at every point during construction), and
every completed episode's reported route set satisfies it — the action
validity filter excludes any action that would push the current route's
demand over capacity. -/
theorem c7_carga_dinamica (raiz : ℚ → ℚ) (amb : Ambiente)
    (lambd gama epsilon : ℚ) (fluxo : Nat → Rnd) (combustivel : Nat)
    (hd0 : demandaDe amb 0 = 0) (hnneg : ∀ i, 0 ≤ demandaDe amb i)
    (hcap : 0 ≤ amb.capacidade) :
    (∀ (r : Rnd) (s s2 : EstDin),
      s.veiculo < s.rotas.length → CargaLimitada amb.capacidade s.rotas →
      PassoDin raiz amb lambd gama epsilon r s = .ok s2 →
      CargaLimitada amb.capacidade s2.rotas) ∧
    (∀ (r : Rnd) (s s2 : EstDDin),
      s.veiculo < s.rotas.length → CargaLimitada amb.capacidade s.rotas →
      PassoDDin raiz amb lambd gama epsilon r s = .ok s2 →
      CargaLimitada amb.capacidade s2.rotas) ∧
    (∀ (Q V Qf Vf : Mat) (rotas : List Rota) (total : Flt),
      EpisodioDin raiz amb lambd gama epsilon fluxo combustivel Q V =
        .ok (Qf, Vf, rotas, total) →
      CargaLimitada amb.capacidade rotas) ∧
    (∀ (Q1 Q2 V Q1f Q2f Vf : Mat) (rotas : List Rota) (total : Flt),
      EpisodioDDin raiz amb lambd gama epsilon fluxo combustivel Q1 Q2 V =
        .ok (Q1f, Q2f, Vf, rotas, total) →
      CargaLimitada amb.capacidade rotas) := by
  refine ⟨?_, ?_, ?_, ?_⟩
  · intro r s s2 hv hc hok
    exact (passoDin_carga raiz amb lambd gama epsilon r s s2 hd0 hcap hok
      ⟨hv, hc⟩).2
  · intro r s s2 hv hc hok
    exact (passoDDin_carga raiz amb lambd gama epsilon r s s2 hd0 hcap hok
      ⟨hv, hc⟩).2
  · intro Q V Qf Vf rotas total hok
    rw [EpisodioDin] at hok
    cases hl : LacoDin raiz amb lambd gama epsilon fluxo combustivel 0
        (InicioDin amb Q V) with
    | falha => rw [hl] at hok; cases hok
    | esgotado => rw [hl] at hok; cases hok
    | ok s =>
      rw [hl] at hok
      cases hok
      refine lacoDin_carga raiz amb lambd gama epsilon fluxo hd0 hcap
        combustivel 0 (InicioDin amb Q V) s ⟨by simp [InicioDin], ?_⟩ hl
      intro r2 hr2
      rw [show (InicioDin amb Q V).rotas = [rotaNova] from rfl] at hr2
      rw [List.mem_singleton.mp hr2, rotaNova]
      exact hcap
  · intro Q1 Q2 V Q1f Q2f Vf rotas total hok
    rw [EpisodioDDin] at hok
    cases hl : LacoDDin raiz amb lambd gama epsilon fluxo combustivel 0
        (InicioDDin amb Q1 Q2 V) with
    | falha => rw [hl] at hok; cases hok
    | esgotado => rw [hl] at hok; cases hok
    | ok s =>
      rw [hl] at hok
      cases hok
      refine lacoDDin_carga raiz amb lambd gama epsilon fluxo hd0 hcap
        combustivel 0 (InicioDDin amb Q1 Q2 V) s ⟨by simp [InicioDDin], ?_⟩ hl
      intro r2 hr2
      rw [show (InicioDDin amb Q1 Q2 V).rotas = [rotaNova] from rfl] at hr2
      rw [List.mem_singleton.mp hr2, rotaNova]
      exact hcap

/-- Witness for C7: a two-node environment with depot demand 0, customer
demand 2 and capacity 5 satisfies the hypotheses, and the capacity bound
holds for its steps and completed episodes. -/
theorem c7_carga_dinamica_witness :
    demandaDe ⟨[⟨0, 0, 0⟩, ⟨0, 1, 2⟩], 5, 1⟩ 0 = 0 ∧
    (∀ i, 0 ≤ demandaDe ⟨[⟨0, 0, 0⟩, ⟨0, 1, 2⟩], 5, 1⟩ i) ∧
    0 ≤ (⟨[⟨0, 0, 0⟩, ⟨0, 1, 2⟩], 5, 1⟩ : Ambiente).capacidade ∧
    ((∀ (r : Rnd) (s s2 : EstDin),
      s.veiculo < s.rotas.length →
      CargaLimitada (⟨[⟨0, 0, 0⟩, ⟨0, 1, 2⟩], 5, 1⟩ : Ambiente).capacidade
        s.rotas →
      PassoDin id ⟨[⟨0, 0, 0⟩, ⟨0, 1, 2⟩], 5, 1⟩ 0 (1/2) (1/2) r s = .ok s2 →
      CargaLimitada (⟨[⟨0, 0, 0⟩, ⟨0, 1, 2⟩], 5, 1⟩ : Ambiente).capacidade
        s2.rotas) ∧
    (∀ (r : Rnd) (s s2 : EstDDin),
      s.veiculo < s.rotas.length →
      CargaLimitada (⟨[⟨0, 0, 0⟩, ⟨0, 1, 2⟩], 5, 1⟩ : Ambiente).capacidade
        s.rotas →
      PassoDDin id ⟨[⟨0, 0, 0⟩, ⟨0, 1, 2⟩], 5, 1⟩ 0 (1/2) (1/2) r s = .ok s2 →
      CargaLimitada (⟨[⟨0, 0, 0⟩, ⟨0, 1, 2⟩], 5, 1⟩ : Ambiente).capacidade
        s2.rotas) ∧
    (∀ (Q V Qf Vf : Mat) (rotas : List Rota) (total : Flt),
      EpisodioDin id ⟨[⟨0, 0, 0⟩, ⟨0, 1, 2⟩], 5, 1⟩ 0 (1/2) (1/2)
          (fun _ => ⟨0, 0, true⟩) 3 Q V = .ok (Qf, Vf, rotas, total) →
      CargaLimitada (⟨[⟨0, 0, 0⟩, ⟨0, 1, 2⟩], 5, 1⟩ : Ambiente).capacidade
        rotas) ∧
    (∀ (Q1 Q2 V Q1f Q2f Vf : Mat) (rotas : List Rota) (total : Flt),
      EpisodioDDin id ⟨[⟨0, 0, 0⟩, ⟨0, 1, 2⟩], 5, 1⟩ 0 (1/2) (1/2)
          (fun _ => ⟨0, 0, true⟩) 3 Q1 Q2 V = .ok (Q1f, Q2f, Vf, rotas, total) →
      CargaLimitada (⟨[⟨0, 0, 0⟩, ⟨0, 1, 2⟩], 5, 1⟩ : Ambiente).capacidade
        rotas)) := by
  have hnneg : ∀ i, 0 ≤ demandaDe ⟨[⟨0, 0, 0⟩, ⟨0, 1, 2⟩], 5, 1⟩ i := by
    intro i
    rcases i with _ | _ | i
    · norm_num [demandaDe]
    · norm_num [demandaDe]
    · rw [demandaDe, getD_len_le _ _ _ (by simp)]
  exact ⟨rfl, hnneg, by norm_num,
    c7_carga_dinamica id ⟨[⟨0, 0, 0⟩, ⟨0, 1, 2⟩], 5, 1⟩ 0 (1/2) (1/2)
      (fun _ => ⟨0, 0, true⟩) 3 rfl hnneg (by norm_num)⟩

theorem demanda_fora (amb : Ambiente) (a : Nat)
    (ha : amb.estados.length ≤ a) : demandaDe amb a = 0 := by
  rw [demandaDe, getD_len_le _ _ _ ha]

theorem preso_rotas_set (raiz : ℚ → ℚ) (amb : Ambiente) (rotas : List Rota)
    (veiculo estado acao : Nat)
    (hdz : demandaDe amb acao = 0)
    (hdem : ∀ rt ∈ rotas, 0 ≤ rt.demanda) :
    ∀ rt ∈ rotas.set veiculo
      (AtualizaRota raiz (rotas.getD veiculo rotaNova) estado acao amb).1,
      0 ≤ rt.demanda := by
  intro rt hrt
  rcases List.mem_or_eq_of_mem_set hrt with h2 | h2
  · exact hdem rt h2
  · rw [h2, atualizaRota_demanda, hdz, add_zero]
    by_cases hv : veiculo < rotas.length
    · exact hdem _ (getD_mem _ _ _ hv)
    · rw [getD_len_le _ _ _ (Nat.le_of_not_lt hv)]
      norm_num [rotaNova]

theorem rota_demanda_nneg (rotas : List Rota) (veiculo : Nat)
    (hdem : ∀ rt ∈ rotas, 0 ≤ rt.demanda) :
    0 ≤ (rotas.getD veiculo rotaNova).demanda := by
  by_cases hv : veiculo < rotas.length
  · exact hdem _ (getD_mem _ _ _ hv)
  · rw [getD_len_le _ _ _ (Nat.le_of_not_lt hv)]
    norm_num [rotaNova]

theorem passoDin_preso (raiz : ℚ → ℚ) (amb : Ambiente)
    (lambd gama epsilon : ℚ) (r : Rnd) (s s2 : EstDin)
    (hd0 : demandaDe amb 0 = 0)
    (hcapd : ∀ c, 1 ≤ c → c < amb.estados.length →
      amb.capacidade < demandaDe amb c)
    (hok : PassoDin raiz amb lambd gama epsilon r s = .ok s2)
    (hinv : s.listEstadosVisitados.length = amb.estados.length ∧
      s.listEstadosVisitados.getD 1 false = false ∧
      ∀ rt ∈ s.rotas, 0 ≤ rt.demanda) :
    s2.listEstadosVisitados.length = amb.estados.length ∧
      s2.listEstadosVisitados.getD 1 false = false ∧
      ∀ rt ∈ s2.rotas, 0 ≤ rt.demanda := by
  obtain ⟨hlen, h1, hdem⟩ := hinv
  rcases passoDin_inversao raiz amb lambd gama epsilon r s s2 hok with
    ⟨acao, recompensa, hpo, hrec, hQ, hV, hest2, hcase⟩
  have hesc := escolha_valida (s.Q.getD s.estado []) s.listEstadosVisitados
    (s.rotas.getD s.veiculo rotaNova).demanda amb true epsilon r.u r.pick acao hpo
  have hdemnn := rota_demanda_nneg s.rotas s.veiculo hdem
  have hkey : acao = 0 ∨ amb.estados.length ≤ acao := by
    rcases hesc.2 with hleg | h0
    · by_cases h0 : acao = 0
      · exact Or.inl h0
      · by_cases hlt : acao < amb.estados.length
        · exfalso
          apply hleg
          right
          have := hcapd acao (Nat.one_le_iff_ne_zero.mpr h0) hlt
          exact ⟨by linarith, rfl⟩
        · exact Or.inr (Nat.le_of_not_lt hlt)
    · exact Or.inl h0
  rcases hcase with ⟨hac, hvis, hrot, hveq⟩ | ⟨hac, hvis, hrot, hveq⟩ |
    ⟨hac, hvis, hrot, hveq⟩
  · have hge : amb.estados.length ≤ acao := by
      rcases hkey with h2 | h2
      · exact absurd h2 hac
      · exact h2
    have hnoop : s.listEstadosVisitados.set acao true =
        s.listEstadosVisitados := by
      refine List.set_eq_of_length_le ?_
      rw [hlen]
      exact hge
    rw [hvis, hnoop]
    refine ⟨by rw [List.length_set]; exact hlen, ?_, ?_⟩
    · rw [getD_set_ne _ 0 1 _ _ (by omega)]
      exact h1
    · rw [hrot]
      exact preso_rotas_set raiz amb s.rotas s.veiculo s.estado acao
        (demanda_fora amb acao hge) hdem
  · rw [hvis, hac]
    refine ⟨by rw [List.length_set]; exact hlen, ?_, ?_⟩
    · rw [getD_set_ne _ 0 1 _ _ (by omega)]
      exact h1
    · rw [hrot]
      intro rt hrt
      rcases List.mem_append.mp hrt with h2 | h2
      · exact preso_rotas_set raiz amb s.rotas s.veiculo s.estado acao
          (hac ▸ hd0) hdem rt h2
      · rw [List.mem_singleton.mp h2]
        norm_num [rotaNova]
  · rw [hvis, hac]
    refine ⟨by rw [List.length_set]; exact hlen, ?_, ?_⟩
    · rw [getD_set_ne _ 0 1 _ _ (by omega)]
      exact h1
    · rw [hrot]
      exact preso_rotas_set raiz amb s.rotas s.veiculo s.estado acao
        (hac ▸ hd0) hdem

theorem passoDDin_preso (raiz : ℚ → ℚ) (amb : Ambiente)
    (lambd gama epsilon : ℚ) (r : Rnd) (s s2 : EstDDin)
    (hd0 : demandaDe amb 0 = 0)
    (hcapd : ∀ c, 1 ≤ c → c < amb.estados.length →
      amb.capacidade < demandaDe amb c)
    (hok : PassoDDin raiz amb lambd gama epsilon r s = .ok s2)
    (hinv : s.listEstadosVisitados.length = amb.estados.length ∧
      s.listEstadosVisitados.getD 1 false = false ∧
      ∀ rt ∈ s.rotas, 0 ≤ rt.demanda) :
    s2.listEstadosVisitados.length = amb.estados.length ∧
      s2.listEstadosVisitados.getD 1 false = false ∧
      ∀ rt ∈ s2.rotas, 0 ≤ rt.demanda := by
  obtain ⟨hlen, h1, hdem⟩ := hinv
  rcases passoDDin_inversao raiz amb lambd gama epsilon r s s2 hok with
    ⟨acao, recompensa, hpo, hrec, hV, hest2, htab, hcase⟩
  have hesc := escolha_valida
    (List.zipWith (· + ·) (s.Q1.getD s.estado []) (s.Q2.getD s.estado []))
    s.listEstadosVisitados (s.rotas.getD s.veiculo rotaNova).demanda amb true
    epsilon r.u r.pick acao hpo
  have hdemnn := rota_demanda_nneg s.rotas s.veiculo hdem
  have hkey : acao = 0 ∨ amb.estados.length ≤ acao := by
    rcases hesc.2 with hleg | h0
    · by_cases h0 : acao = 0
      · exact Or.inl h0
      · by_cases hlt : acao < amb.estados.length
        · exfalso
          apply hleg
          right
          have := hcapd acao (Nat.one_le_iff_ne_zero.mpr h0) hlt
          exact ⟨by linarith, rfl⟩
        · exact Or.inr (Nat.le_of_not_lt hlt)
    · exact Or.inl h0
  rcases hcase with ⟨hac, hvis, hrot, hveq⟩ | ⟨hac, hvis, hrot, hveq⟩ |
    ⟨hac, hvis, hrot, hveq⟩
  · have hge : amb.estados.length ≤ acao := by
      rcases hkey with h2 | h2
      · exact absurd h2 hac
      · exact h2
    have hnoop : s.listEstadosVisitados.set acao true =
        s.listEstadosVisitados := by
      refine List.set_eq_of_length_le ?_
      rw [hlen]
      exact hge
    rw [hvis, hnoop]
    refine ⟨by rw [List.length_set]; exact hlen, ?_, ?_⟩
    · rw [getD_set_ne _ 0 1 _ _ (by omega)]
      exact h1
    · rw [hrot]
      exact preso_rotas_set raiz amb s.rotas s.veiculo s.estado acao
        (demanda_fora amb acao hge) hdem
  · rw [hvis, hac]
    refine ⟨by rw [List.length_set]; exact hlen, ?_, ?_⟩
    · rw [getD_set_ne _ 0 1 _ _ (by omega)]
      exact h1
    · rw [hrot]
      intro rt hrt
      rcases List.mem_append.mp hrt with h2 | h2
      · exact preso_rotas_set raiz amb s.rotas s.veiculo s.estado acao
          (hac ▸ hd0) hdem rt h2
      · rw [List.mem_singleton.mp h2]
        norm_num [rotaNova]
  · rw [hvis, hac]
    refine ⟨by rw [List.length_set]; exact hlen, ?_, ?_⟩
    · rw [getD_set_ne _ 0 1 _ _ (by omega)]
      exact h1
    · rw [hrot]
      exact preso_rotas_set raiz amb s.rotas s.veiculo s.estado acao
        (hac ▸ hd0) hdem

theorem preso_count_ne (lv : List Bool) (n : Nat) (hn2 : 1 < n)
    (hlen : lv.length = n) (h1 : lv.getD 1 false = false) :
    lv.count false ≠ 0 := by
  intro hcount
  have := count_false_zero lv hcount 1 (by omega)
  rw [h1] at this
  cases this

theorem lacoDin_preso (raiz : ℚ → ℚ) (amb : Ambiente)
    (lambd gama epsilon : ℚ) (fluxo : Nat → Rnd)
    (hn2 : 1 < amb.estados.length)
    (hd0 : demandaDe amb 0 = 0)
    (hcapd : ∀ c, 1 ≤ c → c < amb.estados.length →
      amb.capacidade < demandaDe amb c) :
    ∀ (fuel t : Nat) (s s2 : EstDin),
      s.listEstadosVisitados.length = amb.estados.length ∧
        s.listEstadosVisitados.getD 1 false = false ∧
        (∀ rt ∈ s.rotas, 0 ≤ rt.demanda) →
      LacoDin raiz amb lambd gama epsilon fluxo fuel t s ≠ .ok s2 := by
  intro fuel
  induction fuel with
  | zero =>
    intro t s s2 hinv hok
    rw [LacoDin] at hok
    rw [if_neg (preso_count_ne _ _ hn2 hinv.1 hinv.2.1)] at hok
    cases hok
  | succ m ih =>
    intro t s s2 hinv hok
    rw [LacoDin] at hok
    rw [if_neg (preso_count_ne _ _ hn2 hinv.1 hinv.2.1)] at hok
    cases hp : PassoDin raiz amb lambd gama epsilon (fluxo t) s with
    | falha => rw [hp] at hok; cases hok
    | esgotado => rw [hp] at hok; cases hok
    | ok s3 =>
      rw [hp] at hok
      exact ih (t + 1) s3 s2
        (passoDin_preso raiz amb lambd gama epsilon (fluxo t) s s3 hd0 hcapd
          hp hinv) hok

theorem lacoDDin_preso (raiz : ℚ → ℚ) (amb : Ambiente)
    (lambd gama epsilon : ℚ) (fluxo : Nat → Rnd)
    (hn2 : 1 < amb.estados.length)
    (hd0 : demandaDe amb 0 = 0)
    (hcapd : ∀ c, 1 ≤ c → c < amb.estados.length →
      amb.capacidade < demandaDe amb c) :
    ∀ (fuel t : Nat) (s s2 : EstDDin),
      s.listEstadosVisitados.length = amb.estados.length ∧
        s.listEstadosVisitados.getD 1 false = false ∧
        (∀ rt ∈ s.rotas, 0 ≤ rt.demanda) →
      LacoDDin raiz amb lambd gama epsilon fluxo fuel t s ≠ .ok s2 := by
  intro fuel
  induction fuel with
  | zero =>
    intro t s s2 hinv hok
    rw [LacoDDin] at hok
    rw [if_neg (preso_count_ne _ _ hn2 hinv.1 hinv.2.1)] at hok
    cases hok
  | succ m ih =>
    intro t s s2 hinv hok
    rw [LacoDDin] at hok
    rw [if_neg (preso_count_ne _ _ hn2 hinv.1 hinv.2.1)] at hok
    cases hp : PassoDDin raiz amb lambd gama epsilon (fluxo t) s with
    | falha => rw [hp] at hok; cases hok
    | esgotado => rw [hp] at hok; cases hok
    | ok s3 =>
      rw [hp] at hok
      exact ih (t + 1) s3 s2
        (passoDDin_preso raiz amb lambd gama epsilon (fluxo t) s s3 hd0 hcapd
          hp hinv) hok

theorem contagem_pos_mem (rotas : List Rota) (c : Nat)
    (h : ContagemNasRotas rotas c ≠ 0) :
    ∃ r ∈ rotas, c ∈ r.consumidores := by
  induction rotas with
  | nil => simp [ContagemNasRotas] at h
  | cons r resto ih =>
    rw [ContagemNasRotas, List.map_cons, List.sum_cons] at h
    by_cases h2 : r.consumidores.count c = 0
    · rw [h2, Nat.zero_add] at h
      rcases ih (by rw [ContagemNasRotas]; exact h) with ⟨r2, hr2, hc2⟩
      exact ⟨r2, List.mem_cons_of_mem _ hr2, hc2⟩
    · exact ⟨r, List.mem_cons_self _ _,
        List.count_pos_iff_mem.mp (Nat.pos_of_ne_zero h2)⟩

theorem finalizaDFixVai_inf (raiz : ℚ → ℚ) (amb : Ambiente) (lambd gama : ℚ)
    (moedas : Nat → Bool) (vs : List Nat) (t : Nat) (Q1 Q2 V E : Mat)
    (rotas : List Rota) (Q1b Q2b Vb Eb : Mat) (rotas2 : List Rota)
    (total2 : Flt)
    (hok : FinalizaDFixVai raiz amb lambd gama moedas vs t
      (Q1, Q2, V, E, rotas, Flt.inf) = .ok (Q1b, Q2b, Vb, Eb, rotas2, total2)) :
    total2 = Flt.inf := by
  induction vs generalizing t Q1 Q2 V E rotas with
  | nil =>
    rw [FinalizaDFixVai] at hok
    cases hok
    rfl
  | cons v resto ih =>
    rw [FinalizaDFixVai] at hok
    cases hrec : Recompensa (AtualizaRota raiz (rotas.getD v rotaNova)
        (((rotas.getD v rotaNova).consumidores.getLast?).getD 0) 0 amb).2
        (demandaDe amb 0) amb.capacidade with
    | falha => rw [hrec] at hok; cases hok
    | esgotado => rw [hrec] at hok; cases hok
    | ok recompensa =>
      rw [hrec] at hok
      dsimp only at hok
      simp only [ite_self] at hok
      exact ih _ _ _ _ _ _ hok

theorem finalizaDFixVai_fora (raiz : ℚ → ℚ) (amb : Ambiente) (lambd gama : ℚ)
    (moedas : Nat → Bool) (vs : List Nat) (t : Nat) (Q1 Q2 V E : Mat)
    (rotas : List Rota) (total : Flt) (Q1b Q2b Vb Eb : Mat)
    (rotas2 : List Rota) (total2 : Flt)
    (hok : FinalizaDFixVai raiz amb lambd gama moedas vs t
      (Q1, Q2, V, E, rotas, total) = .ok (Q1b, Q2b, Vb, Eb, rotas2, total2))
    (w : Nat) (hw : w ∉ vs) :
    rotas2.getD w rotaNova = rotas.getD w rotaNova := by
  induction vs generalizing t Q1 Q2 V E rotas total with
  | nil =>
    rw [FinalizaDFixVai] at hok
    cases hok
    rfl
  | cons v resto ih =>
    rw [FinalizaDFixVai] at hok
    cases hrec : Recompensa (AtualizaRota raiz (rotas.getD v rotaNova)
        (((rotas.getD v rotaNova).consumidores.getLast?).getD 0) 0 amb).2
        (demandaDe amb 0) amb.capacidade with
    | falha => rw [hrec] at hok; cases hok
    | esgotado => rw [hrec] at hok; cases hok
    | ok recompensa =>
      rw [hrec] at hok
      dsimp only at hok
      have hw2 : w ∉ resto := fun h2 => hw (List.mem_cons_of_mem v h2)
      have hwv : w ≠ v := fun h2 => hw (h2 ▸ List.mem_cons_self v resto)
      rw [ih _ _ _ _ _ _ _ hok hw2, getD_set_ne _ _ _ _ _ (fun h2 => hwv h2.symm)]

theorem finalizaDFixVai_comprimento (raiz : ℚ → ℚ) (amb : Ambiente)
    (lambd gama : ℚ) (moedas : Nat → Bool) (vs : List Nat) (t : Nat)
    (Q1 Q2 V E : Mat) (rotas : List Rota) (total : Flt) (Q1b Q2b Vb Eb : Mat)
    (rotas2 : List Rota) (total2 : Flt)
    (hok : FinalizaDFixVai raiz amb lambd gama moedas vs t
      (Q1, Q2, V, E, rotas, total) = .ok (Q1b, Q2b, Vb, Eb, rotas2, total2)) :
    rotas2.length = rotas.length := by
  induction vs generalizing t Q1 Q2 V E rotas total with
  | nil =>
    rw [FinalizaDFixVai] at hok
    cases hok
    rfl
  | cons v resto ih =>
    rw [FinalizaDFixVai] at hok
    cases hrec : Recompensa (AtualizaRota raiz (rotas.getD v rotaNova)
        (((rotas.getD v rotaNova).consumidores.getLast?).getD 0) 0 amb).2
        (demandaDe amb 0) amb.capacidade with
    | falha => rw [hrec] at hok; cases hok
    | esgotado => rw [hrec] at hok; cases hok
    | ok recompensa =>
      rw [hrec] at hok
      dsimp only at hok
      rw [ih _ _ _ _ _ _ _ hok, List.length_set]

theorem finalizaDFixVai_gatilho (raiz : ℚ → ℚ) (amb : Ambiente) (lambd gama : ℚ)
    (moedas : Nat → Bool) (vs : List Nat) (t : Nat) (Q1 Q2 V E : Mat)
    (rotas : List Rota) (total : Flt) (Q1b Q2b Vb Eb : Mat)
    (rotas2 : List Rota) (total2 : Flt)
    (hok : FinalizaDFixVai raiz amb lambd gama moedas vs t
      (Q1, Q2, V, E, rotas, total) = .ok (Q1b, Q2b, Vb, Eb, rotas2, total2))
    (v : Nat) (hv : v ∈ vs) (hnodup : vs.Nodup) (hvlt : v < rotas.length)
    (hdem : (rotas2.getD v rotaNova).demanda > amb.capacidade) :
    total2 = Flt.inf := by
  induction vs generalizing t Q1 Q2 V E rotas total with
  | nil => cases hv
  | cons u resto ih =>
    rw [FinalizaDFixVai] at hok
    cases hrec : Recompensa (AtualizaRota raiz (rotas.getD u rotaNova)
        (((rotas.getD u rotaNova).consumidores.getLast?).getD 0) 0 amb).2
        (demandaDe amb 0) amb.capacidade with
    | falha => rw [hrec] at hok; cases hok
    | esgotado => rw [hrec] at hok; cases hok
    | ok recompensa =>
      rw [hrec] at hok
      dsimp only at hok
      rcases List.mem_cons.mp hv with hvu | hvresto
      · subst hvu
        have hvnot : v ∉ resto := (List.nodup_cons.mp hnodup).1
        have hr2 := finalizaDFixVai_fora raiz amb lambd gama moedas resto _
          _ _ _ _ _ _ _ _ _ _ _ _ hok v hvnot
        rw [hr2, getD_set_self _ _ _ _ hvlt] at hdem
        rw [if_pos hdem] at hok
        exact finalizaDFixVai_inf raiz amb lambd gama moedas resto _ _ _ _
          _ _ _ _ _ _ _ _ hok
      · have hvu : v ≠ u := by
          intro h2
          subst h2
          exact (List.nodup_cons.mp hnodup).1 hvresto
        exact ih _ _ _ _ _ _ _ hok hvresto (List.nodup_cons.mp hnodup).2
          (by rw [List.length_set]; exact hvlt)

theorem finalizaDFixVai_demanda (raiz : ℚ → ℚ) (amb : Ambiente) (lambd gama : ℚ)
    (moedas : Nat → Bool) (vs : List Nat) (t : Nat) (Q1 Q2 V E : Mat)
    (rotas : List Rota) (total : Flt) (Q1b Q2b Vb Eb : Mat)
    (rotas2 : List Rota) (total2 : Flt)
    (hok : FinalizaDFixVai raiz amb lambd gama moedas vs t
      (Q1, Q2, V, E, rotas, total) = .ok (Q1b, Q2b, Vb, Eb, rotas2, total2))
    (v : Nat) (hv : v ∈ vs) (hnodup : vs.Nodup) (hvlt : v < rotas.length) :
    (rotas2.getD v rotaNova).demanda =
      (rotas.getD v rotaNova).demanda + demandaDe amb 0 := by
  induction vs generalizing t Q1 Q2 V E rotas total with
  | nil => cases hv
  | cons u resto ih =>
    rw [FinalizaDFixVai] at hok
    cases hrec : Recompensa (AtualizaRota raiz (rotas.getD u rotaNova)
        (((rotas.getD u rotaNova).consumidores.getLast?).getD 0) 0 amb).2
        (demandaDe amb 0) amb.capacidade with
    | falha => rw [hrec] at hok; cases hok
    | esgotado => rw [hrec] at hok; cases hok
    | ok recompensa =>
      rw [hrec] at hok
      dsimp only at hok
      rcases List.mem_cons.mp hv with hvu | hvresto
      · subst hvu
        have hvnot : v ∉ resto := (List.nodup_cons.mp hnodup).1
        have hr2 := finalizaDFixVai_fora raiz amb lambd gama moedas resto _
          _ _ _ _ _ _ _ _ _ _ _ _ hok v hvnot
        rw [hr2, getD_set_self _ _ _ _ hvlt, atualizaRota_demanda]
      · have hne2 : v ≠ u := by
          intro h2
          subst h2
          exact (List.nodup_cons.mp hnodup).1 hvresto
        have h3 := ih _ _ _ _ _ _ _ hok hvresto (List.nodup_cons.mp hnodup).2
          (by rw [List.length_set]; exact hvlt)
        rw [h3, getD_set_ne _ _ _ _ _ (fun h2 => hne2 h2.symm)]

/-- C4 counterexample: in the two-node environment with depot demand 0,
customer demand 5 and capacity 3 (the capacity is strictly smaller than
every customer demand), the dynamic-fleet episode with an exploring first
draw does not complete with a `+inf` total: it crashes (the action filter
masks every action, and the exploration branch divides by zero). -/
theorem c4_contraexemplo :
    (∀ c, 1 ≤ c →
      c < (⟨[⟨0, 0, 0⟩, ⟨0, 1, 5⟩], 3, 1⟩ : Ambiente).estados.length →
      (⟨[⟨0, 0, 0⟩, ⟨0, 1, 5⟩], 3, 1⟩ : Ambiente).capacidade <
        demandaDe ⟨[⟨0, 0, 0⟩, ⟨0, 1, 5⟩], 3, 1⟩ c) ∧
    EpisodioDin id ⟨[⟨0, 0, 0⟩, ⟨0, 1, 5⟩], 3, 1⟩ 0 (1/2) (1/2)
      (fun _ => ⟨1, 0, true⟩) 5 (CriaMatriz 2) (CriaMatriz 2) = .falha := by
  constructor
  · intro c h1 h2
    simp only [List.length_cons, List.length_nil] at h2
    interval_cases c
    norm_num [demandaDe]
  · have hva : ValidaAcoes [0, 0] [true, false] 0
        ⟨[⟨0, 0, 0⟩, ⟨0, 1, 5⟩], 3, 1⟩ true =
        ([Flt.ninf, Flt.ninf], [0, 0]) := by
      norm_num [ValidaAcoes, ValidaAcoesVai, AcaoInvalida, demandaDe]
    have hpo : Politica (1/2) [Flt.ninf, Flt.ninf] [0, 0] 1 0 = .falha := by
      norm_num [Politica]
    have hpasso : PassoDin id ⟨[⟨0, 0, 0⟩, ⟨0, 1, 5⟩], 3, 1⟩ 0 (1/2) (1/2)
        ⟨1, 0, true⟩ (InicioDin ⟨[⟨0, 0, 0⟩, ⟨0, 1, 5⟩], 3, 1⟩ (CriaMatriz 2)
          (CriaMatriz 2)) = .falha := by
      norm_num [PassoDin, InicioDin, CriaMatriz, VisitadosIniciais,
        List.replicate, rotaNova, hva, hpo]
    rw [EpisodioDin, show (5 : Nat) = 4 + 1 from rfl, LacoDin]
    rw [if_neg (by decide :
      ¬ (InicioDin ⟨[⟨0, 0, 0⟩, ⟨0, 1, 5⟩], 3, 1⟩ (CriaMatriz 2)
        (CriaMatriz 2)).listEstadosVisitados.count false = 0)]
    dsimp only
    rw [hpasso]

/-- C4 amended: in an environment whose capacity is strictly below every
customer's demand (with depot demand 0 and non-negative demands), the two
dynamic-fleet variants never complete an episode — the action filter never
legalises any customer, so the construction loop either crashes or runs out
of fuel, and no total is ever recorded; the two fixed-fleet variants do not
apply the demand check during construction, and every episode they complete
records a total of positive infinity through the end-of-episode penalty. -/
theorem c4_capacidade_emendado (raiz : ℚ → ℚ) (amb : Ambiente)
    (lambd gama epsilon : ℚ) (fluxo : Nat → Rnd) (moedas : Nat → Bool)
    (combustivel : Nat)
    (hn2 : 1 < amb.estados.length)
    (hd0 : demandaDe amb 0 = 0)
    (hnneg : ∀ i, 0 ≤ demandaDe amb i)
    (hcapd : ∀ c, 1 ≤ c → c < amb.estados.length →
      amb.capacidade < demandaDe amb c) :
    (∀ (Q V : Mat) (res : Mat × Mat × List Rota × Flt),
      EpisodioDin raiz amb lambd gama epsilon fluxo combustivel Q V ≠
        .ok res) ∧
    (∀ (Q1 Q2 V : Mat) (res : Mat × Mat × Mat × List Rota × Flt),
      EpisodioDDin raiz amb lambd gama epsilon fluxo combustivel Q1 Q2 V ≠
        .ok res) ∧
    (∀ (Q V Qf Vf Ef : Mat) (rotas : List Rota) (total : Flt),
      DimsMat amb.estados.length Q →
      EpisodioFix raiz amb lambd gama epsilon fluxo combustivel Q V =
        .ok (Qf, Vf, Ef, rotas, total) → total = Flt.inf) ∧
    (∀ (Q1 Q2 V Q1f Q2f Vf Ef : Mat) (rotas : List Rota) (total : Flt),
      DimsMat amb.estados.length Q1 → DimsMat amb.estados.length Q2 →
      EpisodioDFix raiz amb lambd gama epsilon fluxo moedas combustivel
        Q1 Q2 V = .ok (Q1f, Q2f, Vf, Ef, rotas, total) →
      total = Flt.inf) := by
  refine ⟨?_, ?_, ?_, ?_⟩
  · intro Q V res hok
    rw [EpisodioDin] at hok
    cases hl : LacoDin raiz amb lambd gama epsilon fluxo combustivel 0
        (InicioDin amb Q V) with
    | falha => rw [hl] at hok; cases hok
    | esgotado => rw [hl] at hok; cases hok
    | ok s =>
      refine lacoDin_preso raiz amb lambd gama epsilon fluxo hn2 hd0 hcapd
        combustivel 0 (InicioDin amb Q V) s ⟨?_, ?_, ?_⟩ hl
      · exact visitadosIniciais_length _
      · exact visitadosIniciais_getD _ 1 le_rfl
      · intro rt hrt
        rw [show (InicioDin amb Q V).rotas = [rotaNova] from rfl] at hrt
        rw [List.mem_singleton.mp hrt]
        norm_num [rotaNova]
  · intro Q1 Q2 V res hok
    rw [EpisodioDDin] at hok
    cases hl : LacoDDin raiz amb lambd gama epsilon fluxo combustivel 0
        (InicioDDin amb Q1 Q2 V) with
    | falha => rw [hl] at hok; cases hok
    | esgotado => rw [hl] at hok; cases hok
    | ok s =>
      refine lacoDDin_preso raiz amb lambd gama epsilon fluxo hn2 hd0 hcapd
        combustivel 0 (InicioDDin amb Q1 Q2 V) s ⟨?_, ?_, ?_⟩ hl
      · exact visitadosIniciais_length _
      · exact visitadosIniciais_getD _ 1 le_rfl
      · intro rt hrt
        rw [show (InicioDDin amb Q1 Q2 V).rotas = [rotaNova] from rfl] at hrt
        rw [List.mem_singleton.mp hrt]
        norm_num [rotaNova]
  · intro Q V Qf Vf Ef rotas total hdq hok
    rw [EpisodioFix] at hok
    cases hl : LacoFix raiz amb lambd gama epsilon fluxo combustivel 0
        (InicioFix amb Q V) with
    | falha => rw [hl] at hok; cases hok
    | esgotado => rw [hl] at hok; cases hok
    | ok s =>
      rw [hl] at hok
      dsimp only at hok
      have hloop := lacoFix_ok amb.estados.length raiz amb lambd gama epsilon
        fluxo combustivel 0 (InicioFix amb Q V) s
        ⟨invRotasFix_inicio amb.estados.length amb.veiculos, hdq⟩ hl
      obtain ⟨⟨hvlen, hnodes, hcont⟩, hdq2⟩ := hloop.1
      have hcount := hloop.2
      have h1v : s.listEstadosVisitados.getD 1 false = true :=
        count_false_zero _ hcount 1 (by rw [hvlen]; exact hn2)
      have hc1 : ContagemNasRotas s.rotas 1 = 1 := by
        rw [hcont 1 le_rfl, h1v, if_pos rfl]
      obtain ⟨r, hr, h1r⟩ := contagem_pos_mem s.rotas 1
        (by rw [hc1]; exact one_ne_zero)
      have hsoma : SomaDemandas amb s.rotas := by
        refine lacoFix_soma raiz amb lambd gama epsilon fluxo combustivel 0
          (InicioFix amb Q V) s ?_ hl
        intro rt hrt
        rw [show (InicioFix amb Q V).rotas = CriaRotas amb.veiculos from rfl,
          CriaRotas] at hrt
        rw [List.eq_of_mem_replicate hrt]
        simp [hd0]
      have hrd : amb.capacidade < r.demanda := by
        have h2 := hsoma r hr
        have h3 : demandaDe amb 1 ∈ r.consumidores.map (demandaDe amb) :=
          List.mem_map_of_mem _ h1r
        have h4 : demandaDe amb 1 ≤ (r.consumidores.map (demandaDe amb)).sum := by
          refine List.single_le_sum ?_ _ h3
          intro x hx
          rcases List.mem_map.mp hx with ⟨i, _, hi⟩
          rw [← hi]
          exact hnneg i
        rw [← h2] at h4
        have h5 := hcapd 1 le_rfl hn2
        linarith
      obtain ⟨v, hvlt, hveq⟩ := mem_getD s.rotas r rotaNova hr
      rw [FinalizaFix] at hok
      have hdemfin := finalizaFixVai_demanda raiz amb lambd gama _ _ _ _ _ _
        _ _ _ _ _ hok v (List.mem_range.mpr hvlt) (List.nodup_range _) hvlt
      refine finalizaFixVai_gatilho raiz amb lambd gama _ _ _ _ _ _ _ _ _ _ _
        hok v (List.mem_range.mpr hvlt) (List.nodup_range _) hvlt ?_
      rw [hdemfin, hd0, add_zero, hveq]
      exact hrd
  · intro Q1 Q2 V Q1f Q2f Vf Ef rotas total hdq1 hdq2 hok
    rw [EpisodioDFix] at hok
    cases hl : LacoDFix raiz amb lambd gama epsilon fluxo combustivel 0
        (InicioDFix amb Q1 Q2 V) with
    | falha => rw [hl] at hok; cases hok
    | esgotado => rw [hl] at hok; cases hok
    | ok s =>
      rw [hl] at hok
      dsimp only at hok
      have hloop := lacoDFix_ok amb.estados.length raiz amb lambd gama epsilon
        fluxo combustivel 0 (InicioDFix amb Q1 Q2 V) s
        ⟨invRotasFix_inicio amb.estados.length amb.veiculos, hdq1, hdq2⟩ hl
      obtain ⟨⟨hvlen, hnodes, hcont⟩, hdqb1, hdqb2⟩ := hloop.1
      have hcount := hloop.2
      have h1v : s.listEstadosVisitados.getD 1 false = true :=
        count_false_zero _ hcount 1 (by rw [hvlen]; exact hn2)
      have hc1 : ContagemNasRotas s.rotas 1 = 1 := by
        rw [hcont 1 le_rfl, h1v, if_pos rfl]
      obtain ⟨r, hr, h1r⟩ := contagem_pos_mem s.rotas 1
        (by rw [hc1]; exact one_ne_zero)
      have hsoma : SomaDemandas amb s.rotas := by
        refine lacoDFix_soma raiz amb lambd gama epsilon fluxo combustivel 0
          (InicioDFix amb Q1 Q2 V) s ?_ hl
        intro rt hrt
        rw [show (InicioDFix amb Q1 Q2 V).rotas = CriaRotas amb.veiculos
          from rfl, CriaRotas] at hrt
        rw [List.eq_of_mem_replicate hrt]
        simp [hd0]
      have hrd : amb.capacidade < r.demanda := by
        have h2 := hsoma r hr
        have h3 : demandaDe amb 1 ∈ r.consumidores.map (demandaDe amb) :=
          List.mem_map_of_mem _ h1r
        have h4 : demandaDe amb 1 ≤ (r.consumidores.map (demandaDe amb)).sum := by
          refine List.single_le_sum ?_ _ h3
          intro x hx
          rcases List.mem_map.mp hx with ⟨i, _, hi⟩
          rw [← hi]
          exact hnneg i
        rw [← h2] at h4
        have h5 := hcapd 1 le_rfl hn2
        linarith
      obtain ⟨v, hvlt, hveq⟩ := mem_getD s.rotas r rotaNova hr
      have hdemfin := finalizaDFixVai_demanda raiz amb lambd gama moedas _ _
        _ _ _ _ _ _ _ _ _ _ _ _ hok v (List.mem_range.mpr hvlt)
        (List.nodup_range _) hvlt
      refine finalizaDFixVai_gatilho raiz amb lambd gama moedas _ _ _ _ _ _
        _ _ _ _ _ _ _ _ hok v (List.mem_range.mpr hvlt)
        (List.nodup_range _) hvlt ?_
      rw [hdemfin, hd0, add_zero, hveq]
      exact hrd

/-- Witness for the amended C4: the two-node environment with depot demand
0, customer demand 5 and capacity 3 satisfies every hypothesis, and the
corresponding conclusions hold at it. -/
theorem c4_capacidade_emendado_witness :
    1 < (⟨[⟨0, 0, 0⟩, ⟨0, 1, 5⟩], 3, 1⟩ : Ambiente).estados.length ∧
    demandaDe ⟨[⟨0, 0, 0⟩, ⟨0, 1, 5⟩], 3, 1⟩ 0 = 0 ∧
    (∀ i, 0 ≤ demandaDe ⟨[⟨0, 0, 0⟩, ⟨0, 1, 5⟩], 3, 1⟩ i) ∧
    (∀ c, 1 ≤ c →
      c < (⟨[⟨0, 0, 0⟩, ⟨0, 1, 5⟩], 3, 1⟩ : Ambiente).estados.length →
      (⟨[⟨0, 0, 0⟩, ⟨0, 1, 5⟩], 3, 1⟩ : Ambiente).capacidade <
        demandaDe ⟨[⟨0, 0, 0⟩, ⟨0, 1, 5⟩], 3, 1⟩ c) ∧
    ((∀ (Q V : Mat) (res : Mat × Mat × List Rota × Flt),
      EpisodioDin id ⟨[⟨0, 0, 0⟩, ⟨0, 1, 5⟩], 3, 1⟩ 0 (1/2) (1/2)
        (fun _ => ⟨1, 0, true⟩) 7 Q V ≠ .ok res) ∧
    (∀ (Q1 Q2 V : Mat) (res : Mat × Mat × Mat × List Rota × Flt),
      EpisodioDDin id ⟨[⟨0, 0, 0⟩, ⟨0, 1, 5⟩], 3, 1⟩ 0 (1/2) (1/2)
        (fun _ => ⟨1, 0, true⟩) 7 Q1 Q2 V ≠ .ok res) ∧
    (∀ (Q V Qf Vf Ef : Mat) (rotas : List Rota) (total : Flt),
      DimsMat (⟨[⟨0, 0, 0⟩, ⟨0, 1, 5⟩], 3, 1⟩ : Ambiente).estados.length Q →
      EpisodioFix id ⟨[⟨0, 0, 0⟩, ⟨0, 1, 5⟩], 3, 1⟩ 0 (1/2) (1/2)
        (fun _ => ⟨1, 0, true⟩) 7 Q V = .ok (Qf, Vf, Ef, rotas, total) →
      total = Flt.inf) ∧
    (∀ (Q1 Q2 V Q1f Q2f Vf Ef : Mat) (rotas : List Rota) (total : Flt),
      DimsMat (⟨[⟨0, 0, 0⟩, ⟨0, 1, 5⟩], 3, 1⟩ : Ambiente).estados.length Q1 →
      DimsMat (⟨[⟨0, 0, 0⟩, ⟨0, 1, 5⟩], 3, 1⟩ : Ambiente).estados.length Q2 →
      EpisodioDFix id ⟨[⟨0, 0, 0⟩, ⟨0, 1, 5⟩], 3, 1⟩ 0 (1/2) (1/2)
        (fun _ => ⟨1, 0, true⟩) (fun _ => true) 7 Q1 Q2 V =
        .ok (Q1f, Q2f, Vf, Ef, rotas, total) →
      total = Flt.inf)) := by
  have hnneg : ∀ i, 0 ≤ demandaDe ⟨[⟨0, 0, 0⟩, ⟨0, 1, 5⟩], 3, 1⟩ i := by
    intro i
    rcases i with _ | _ | i
    · norm_num [demandaDe]
    · norm_num [demandaDe]
    · rw [demandaDe, getD_len_le _ _ _ (by simp)]
  have hcapd : ∀ c, 1 ≤ c →
      c < (⟨[⟨0, 0, 0⟩, ⟨0, 1, 5⟩], 3, 1⟩ : Ambiente).estados.length →
      (⟨[⟨0, 0, 0⟩, ⟨0, 1, 5⟩], 3, 1⟩ : Ambiente).capacidade <
        demandaDe ⟨[⟨0, 0, 0⟩, ⟨0, 1, 5⟩], 3, 1⟩ c := by
    intro c h1 h2
    simp only [List.length_cons, List.length_nil] at h2
    interval_cases c
    norm_num [demandaDe]
  exact ⟨by norm_num, rfl, hnneg, hcapd,
    c4_capacidade_emendado id ⟨[⟨0, 0, 0⟩, ⟨0, 1, 5⟩], 3, 1⟩ 0 (1/2) (1/2)
      (fun _ => ⟨1, 0, true⟩) (fun _ => true) 7 (by norm_num) rfl hnneg hcapd⟩

/-- C6: coverage invariant. For every completed episode of each of the four
variants, every customer index `c` (with `1 ≤ c`) appears across all routes'
node sequences exactly once when `c` is a state of the environment and never
otherwise — no customer is skipped and none is visited twice. -/
theorem c6_cobertura (raiz : ℚ → ℚ) (amb : Ambiente)
    (lambd gama epsilon : ℚ) (fluxo : Nat → Rnd) (moedas : Nat → Bool)
    (combustivel : Nat) (hn : 0 < amb.estados.length) :
    (∀ (Q V Qf Vf : Mat) (rotas : List Rota) (total : Flt),
      DimsMat amb.estados.length Q →
      EpisodioDin raiz amb lambd gama epsilon fluxo combustivel Q V =
        .ok (Qf, Vf, rotas, total) →
      ∀ c, 1 ≤ c →
        ContagemNasRotas rotas c = if c < amb.estados.length then 1 else 0) ∧
    (∀ (Q1 Q2 V Q1f Q2f Vf : Mat) (rotas : List Rota) (total : Flt),
      DimsMat amb.estados.length Q1 → DimsMat amb.estados.length Q2 →
      EpisodioDDin raiz amb lambd gama epsilon fluxo combustivel Q1 Q2 V =
        .ok (Q1f, Q2f, Vf, rotas, total) →
      ∀ c, 1 ≤ c →
        ContagemNasRotas rotas c = if c < amb.estados.length then 1 else 0) ∧
    (∀ (Q V Qf Vf Ef : Mat) (rotas : List Rota) (total : Flt),
      DimsMat amb.estados.length Q →
      EpisodioFix raiz amb lambd gama epsilon fluxo combustivel Q V =
        .ok (Qf, Vf, Ef, rotas, total) →
      ∀ c, 1 ≤ c →
        ContagemNasRotas rotas c = if c < amb.estados.length then 1 else 0) ∧
    (∀ (Q1 Q2 V Q1f Q2f Vf Ef : Mat) (rotas : List Rota) (total : Flt),
      DimsMat amb.estados.length Q1 → DimsMat amb.estados.length Q2 →
      EpisodioDFix raiz amb lambd gama epsilon fluxo moedas combustivel
        Q1 Q2 V = .ok (Q1f, Q2f, Vf, Ef, rotas, total) →
      ∀ c, 1 ≤ c →
        ContagemNasRotas rotas c = if c < amb.estados.length then 1 else 0) := by
  refine ⟨?_, ?_, ?_, ?_⟩
  · intro Q V Qf Vf rotas total hdq hok
    rw [EpisodioDin] at hok
    cases hl : LacoDin raiz amb lambd gama epsilon fluxo combustivel 0
        (InicioDin amb Q V) with
    | falha => rw [hl] at hok; cases hok
    | esgotado => rw [hl] at hok; cases hok
    | ok s =>
      rw [hl] at hok
      cases hok
      have hloop := lacoDin_ok amb.estados.length raiz amb lambd gama epsilon
        fluxo combustivel 0 (InicioDin amb Q V) s
        (invDin_inicio amb Q V hn hdq) hl
      obtain ⟨⟨hvlen, _, _, _, hcont⟩, hcount⟩ := hloop
      intro c hc
      rw [hcont c hc]
      by_cases hlt : c < amb.estados.length
      · rw [if_pos hlt,
          if_pos (count_false_zero _ hcount c (by rw [hvlen]; exact hlt))]
      · rw [if_neg hlt, getD_len_le _ _ _ (by rw [hvlen]; omega)]
        simp
  · intro Q1 Q2 V Q1f Q2f Vf rotas total hdq1 hdq2 hok
    rw [EpisodioDDin] at hok
    cases hl : LacoDDin raiz amb lambd gama epsilon fluxo combustivel 0
        (InicioDDin amb Q1 Q2 V) with
    | falha => rw [hl] at hok; cases hok
    | esgotado => rw [hl] at hok; cases hok
    | ok s =>
      rw [hl] at hok
      cases hok
      have hloop := lacoDDin_ok amb.estados.length raiz amb lambd gama epsilon
        fluxo combustivel 0 (InicioDDin amb Q1 Q2 V) s
        (invDDin_inicio amb Q1 Q2 V hn hdq1 hdq2) hl
      obtain ⟨⟨hvlen, _, _, _, _, hcont⟩, hcount⟩ := hloop
      intro c hc
      rw [hcont c hc]
      by_cases hlt : c < amb.estados.length
      · rw [if_pos hlt,
          if_pos (count_false_zero _ hcount c (by rw [hvlen]; exact hlt))]
      · rw [if_neg hlt, getD_len_le _ _ _ (by rw [hvlen]; omega)]
        simp
  · intro Q V Qf Vf Ef rotas total hdq hok
    rw [EpisodioFix] at hok
    cases hl : LacoFix raiz amb lambd gama epsilon fluxo combustivel 0
        (InicioFix amb Q V) with
    | falha => rw [hl] at hok; cases hok
    | esgotado => rw [hl] at hok; cases hok
    | ok s =>
      rw [hl] at hok
      dsimp only at hok
      have hloop := lacoFix_ok amb.estados.length raiz amb lambd gama epsilon
        fluxo combustivel 0 (InicioFix amb Q V) s
        ⟨invRotasFix_inicio amb.estados.length amb.veiculos, hdq⟩ hl
      obtain ⟨⟨hvlen, _, hcont⟩, _⟩ := hloop.1
      have hcount := hloop.2
      rw [FinalizaFix] at hok
      intro c hc
      rw [finalizaFixVai_contagem raiz amb lambd gama _ _ _ _ _ _ _ _ _ _ _
        hok c hc]
      rw [hcont c hc]
      by_cases hlt : c < amb.estados.length
      · rw [if_pos hlt,
          if_pos (count_false_zero _ hcount c (by rw [hvlen]; exact hlt))]
      · rw [if_neg hlt, getD_len_le _ _ _ (by rw [hvlen]; omega)]
        simp
  · intro Q1 Q2 V Q1f Q2f Vf Ef rotas total hdq1 hdq2 hok
    rw [EpisodioDFix] at hok
    cases hl : LacoDFix raiz amb lambd gama epsilon fluxo combustivel 0
        (InicioDFix amb Q1 Q2 V) with
    | falha => rw [hl] at hok; cases hok
    | esgotado => rw [hl] at hok; cases hok
    | ok s =>
      rw [hl] at hok
      dsimp only at hok
      have hloop := lacoDFix_ok amb.estados.length raiz amb lambd gama epsilon
        fluxo combustivel 0 (InicioDFix amb Q1 Q2 V) s
        ⟨invRotasFix_inicio amb.estados.length amb.veiculos, hdq1, hdq2⟩ hl
      obtain ⟨⟨hvlen, _, hcont⟩, _, _⟩ := hloop.1
      have hcount := hloop.2
      intro c hc
      rw [finalizaDFixVai_contagem raiz amb lambd gama moedas _ _ _ _ _ _ _
        _ _ _ _ _ _ _ hok c hc]
      rw [hcont c hc]
      by_cases hlt : c < amb.estados.length
      · rw [if_pos hlt,
          if_pos (count_false_zero _ hcount c (by rw [hvlen]; exact hlt))]
      · rw [if_neg hlt, getD_len_le _ _ _ (by rw [hvlen]; omega)]
        simp

/-- Witness for C6: in the two-node environment with capacity 5 and customer
demand 2, a concrete dynamic-fleet episode (greedy draws, fuel 2) completes
with the single route `[0, 1, 0]`, and the coverage conclusion instantiated
at it gives count 1 for customer 1 and count 0 beyond the state space. -/
theorem c6_cobertura_witness :
    0 < (⟨[⟨0, 0, 0⟩, ⟨0, 1, 2⟩], 5, 1⟩ : Ambiente).estados.length ∧
    EpisodioDin id ⟨[⟨0, 0, 0⟩, ⟨0, 1, 2⟩], 5, 1⟩ 0 (1/2) (1/2)
      (fun _ => ⟨0, 0, true⟩) 2 (CriaMatriz 2) (CriaMatriz 2) =
      .ok ([[0, -1/6], [-1/10, 0]], [[0, 1], [1, 0]], [⟨2, 2, [0, 1, 0]⟩],
        Flt.fin 2) ∧
    (∀ c, 1 ≤ c → ContagemNasRotas [⟨2, 2, [0, 1, 0]⟩] c =
      if c < (⟨[⟨0, 0, 0⟩, ⟨0, 1, 2⟩], 5, 1⟩ : Ambiente).estados.length
      then 1 else 0) := by
  have hva1 : ValidaAcoes [0, 0] [true, false] 0 ⟨[⟨0, 0, 0⟩, ⟨0, 1, 2⟩], 5, 1⟩
      true = ([Flt.ninf, Flt.fin 0], [0, 1]) := by
    norm_num [ValidaAcoes, ValidaAcoesVai, AcaoInvalida, demandaDe]
  have hpo1 : Politica (1/2) [Flt.ninf, Flt.fin 0] [0, 1] 0 0 = .ok 1 := by
    norm_num [Politica, maxLista, Flt.maxF, Flt.le, indiceDe, Flt.ninf_eq_fin,
      Flt.fin_eq_ninf]
  have hre1 : Recompensa 1 2 5 = .ok (-1/3) := by norm_num [Recompensa]
  have hfv1 : ∀ (Q : Mat) (a : Nat),
      ValorAcaoFuturaDin Q a [Flt.ninf, Flt.ninf] = 0 := by
    intro Q a
    norm_num [ValorAcaoFuturaDin]
  have hp1 : PassoDin id ⟨[⟨0, 0, 0⟩, ⟨0, 1, 2⟩], 5, 1⟩ 0 (1/2) (1/2)
      ⟨0, 0, true⟩ ⟨[[0, 0], [0, 0]], [[0, 0], [0, 0]], [[0, 0], [0, 0]],
        [true, false], [⟨0, 0, [0]⟩], 0, 0⟩ =
      .ok ⟨[[0, -1/6], [0, 0]], [[0, 1], [0, 0]], [[0, 1], [0, 0]],
        [false, true], [⟨2, 1, [0, 1]⟩], 0, 1⟩ := by
    norm_num [PassoDin, rotaNova, hva1, hpo1, hre1, hfv1, AtualizaRota,
      AtualizaQ, mset, mget, TaxaAprendizagem, demandaDe]
  have hva2 : ValidaAcoes [0, 0] [false, true] 2 ⟨[⟨0, 0, 0⟩, ⟨0, 1, 2⟩], 5, 1⟩
      true = ([Flt.fin 0, Flt.ninf], [1, 0]) := by
    norm_num [ValidaAcoes, ValidaAcoesVai, AcaoInvalida, demandaDe]
  have hpo2 : Politica (1/2) [Flt.fin 0, Flt.ninf] [1, 0] 0 0 = .ok 0 := by
    norm_num [Politica, maxLista, Flt.maxF, Flt.le, indiceDe, Flt.ninf_eq_fin,
      Flt.fin_eq_ninf]
  have hre2 : Recompensa 1 0 5 = .ok (-1/5) := by norm_num [Recompensa]
  have hp2 : PassoDin id ⟨[⟨0, 0, 0⟩, ⟨0, 1, 2⟩], 5, 1⟩ 0 (1/2) (1/2)
      ⟨0, 0, true⟩ ⟨[[0, -(1/6)], [0, 0]], [[0, 1], [0, 0]], [[0, 1], [0, 0]],
        [false, true], [⟨2, 1, [0, 1]⟩], 0, 1⟩ =
      .ok ⟨[[0, -1/6], [-1/10, 0]], [[0, 1], [1, 0]], [[0, 1], [1, 0]],
        [true, true], [⟨2, 2, [0, 1, 0]⟩], 0, 0⟩ := by
    norm_num [PassoDin, rotaNova, hva2, hpo2, hre2, hfv1, AtualizaRota,
      AtualizaQ, mset, mget, TaxaAprendizagem, demandaDe]
  have hrun : EpisodioDin id ⟨[⟨0, 0, 0⟩, ⟨0, 1, 2⟩], 5, 1⟩ 0 (1/2) (1/2)
      (fun _ => ⟨0, 0, true⟩) 2 (CriaMatriz 2) (CriaMatriz 2) =
      .ok ([[0, -1/6], [-1/10, 0]], [[0, 1], [1, 0]], [⟨2, 2, [0, 1, 0]⟩],
        Flt.fin 2) := by
    norm_num [EpisodioDin, LacoDin, InicioDin, CriaMatriz, VisitadosIniciais,
      List.replicate, rotaNova, hp1, hp2, DistanciaTotalDin, Flt.addQ]
  have hdq : DimsMat (⟨[⟨0, 0, 0⟩, ⟨0, 1, 2⟩], 5, 1⟩ : Ambiente).estados.length
      (CriaMatriz 2) := by
    refine ⟨by simp [CriaMatriz], ?_⟩
    intro lin hlin
    rw [CriaMatriz] at hlin
    rw [List.eq_of_mem_replicate hlin]
    simp
  refine ⟨by norm_num, hrun, ?_⟩
  exact (c6_cobertura id ⟨[⟨0, 0, 0⟩, ⟨0, 1, 2⟩], 5, 1⟩ 0 (1/2) (1/2)
    (fun _ => ⟨0, 0, true⟩) (fun _ => true) 2 (by norm_num)).1
    (CriaMatriz 2) (CriaMatriz 2) [[0, -1/6], [-1/10, 0]] [[0, 1], [1, 0]]
    [⟨2, 2, [0, 1, 0]⟩] (Flt.fin 2) hdq hrun
